import Mathlib

/-!
# Target-feature synthesis of the LLPC code generation manager

A shallow embedding of `Llpc::CodeGenManager::SetupTargetFeatures`
(`src/patch/llpcCodeGenManager.cpp`) together with the option and mode records of
`src/builder/llpcPipeline.h` it reads.

* `std::string` is `String`, `uint32_t` is `Nat` (with an explicit `% 2 ^ 32` where the
  source multiplies), `std::to_string` of an unsigned value is `toString` on `Nat`.
* An LLVM attribute set (the `AttrBuilder` and the attribute list of a function) is an
  association list from attribute kind to value in which setting a kind that is already
  present overwrites its value.
* The accessors of `PipelineState` and the free function `GetShaderStageFromCallingConv`
  are declared outside the embedded files; their results are fields of the record
  `PipelineState`, respectively a parameter of the embedding.
* The NGG flag values of `llpcPipeline.h` and the sizing constants of
  `src/patch/gfx6/chip/llpcGfx6Chip.h` are constants of type `Nat`; flags words are combined
  and tested with the bitwise operations on `Nat`.
* The register macros `INIT_REG` and `ADD_REG_MAP` of `llpcGfx6Chip.h` take the register
  constant `mm<reg>`, which is defined outside the embedded files, as an argument; the
  register-config structs are the lists of their member registers and member configs.
* Behaviour of the repository that is declared but not implemented in the embedded files
  (the setters of the pipeline state, the derivation of the NGG control from the flags word,
  a stage resolver for the pipeline shapes) is modelled from the specification in a section
  of its own; each such definition says so.
-/

namespace Llpc

/-! ## Records of `llpcPipeline.h` -/

/-- Pipeline options, `struct Options`; every field is an unsigned integer in the source. -/
structure Options where
  hash0 : Nat := 0
  hash1 : Nat := 0
  includeDisassembly : Nat := 0
  reconfigWorkgroupLayout : Nat := 0
  includeIr : Nat := 0
  nggFlags : Nat := 0
  nggBackfaceExponent : Nat := 0
  nggSubgroupSizing : Nat := 0
  nggVertsPerSubgroup : Nat := 0
  nggPrimsPerSubgroup : Nat := 0
  deriving DecidableEq, Repr

/-- Per-shader options, `struct ShaderOptions`. -/
structure ShaderOptions where
  hash0 : Nat := 0
  hash1 : Nat := 0
  trapPresent : Nat := 0
  debugMode : Nat := 0
  allowReZ : Nat := 0
  vgprLimit : Nat := 0
  sgprLimit : Nat := 0
  maxThreadGroupsPerComputeUnit : Nat := 0
  waveSize : Nat := 0
  subgroupSize : Nat := 0
  wgpMode : Nat := 0
  waveBreakSize : Nat := 0
  loadScalarizerThreshold : Nat := 0
  useSiScheduler : Bool := false
  unrollThreshold : Nat := 0
  deriving DecidableEq, Repr

/-- FP rounding mode, `enum class FpRoundMode`. -/
inductive FpRoundMode where
  | DontCare
  | Even
  | Positive
  | Negative
  | Zero
  deriving DecidableEq, Repr

/-- Denormal flush mode, `enum class FpDenormMode`; `DontCare` is the zero value. -/
inductive FpDenormMode where
  | DontCare
  | FlushInOut
  | FlushOut
  | FlushIn
  | FlushNone
  deriving DecidableEq, Repr

/-- Mode record of every stage, `struct CommonShaderMode`. -/
structure CommonShaderMode where
  fp16RoundMode : FpRoundMode := FpRoundMode.DontCare
  fp16DenormMode : FpDenormMode := FpDenormMode.DontCare
  fp32RoundMode : FpRoundMode := FpRoundMode.DontCare
  fp32DenormMode : FpDenormMode := FpDenormMode.DontCare
  fp64RoundMode : FpRoundMode := FpRoundMode.DontCare
  fp64DenormMode : FpDenormMode := FpDenormMode.DontCare
  useSubgroupSize : Nat := 0
  deriving DecidableEq, Repr

/-- Compute mode, `struct ComputeShaderMode`: the three workgroup dimensions. -/
structure ComputeShaderMode where
  workgroupSizeX : Nat := 0
  workgroupSizeY : Nat := 0
  workgroupSizeZ : Nat := 0
  deriving DecidableEq, Repr

/-! ## Types declared outside the embedded files -/

/-- Modelled from the spec: the abstract shader stages (`ShaderStage` of `llpc.h`, which is
not among the embedded files): vertex, tessellation control, tessellation evaluation,
geometry, fragment, compute, the copy shader, and the invalid stage. -/
inductive ShaderStage where
  | ShaderStageVertex
  | ShaderStageTessControl
  | ShaderStageTessEval
  | ShaderStageGeometry
  | ShaderStageFragment
  | ShaderStageCompute
  | ShaderStageCopyShader
  | ShaderStageInvalid
  deriving DecidableEq, Repr

/-- LLVM calling conventions the code tests for; `Other` carries any other numeric ID. -/
inductive CallingConv where
  | AMDGPU_VS
  | AMDGPU_GS
  | AMDGPU_PS
  | AMDGPU_CS
  | AMDGPU_HS
  | AMDGPU_LS
  | AMDGPU_ES
  | Other (id : Nat)
  deriving DecidableEq, Repr

/-- LLVM linkage kinds; only `ExternalLinkage` is tested by the code. -/
inductive LinkageTypes where
  | ExternalLinkage
  | InternalLinkage
  | PrivateLinkage
  | OtherLinkage (id : Nat)
  deriving DecidableEq, Repr

/-- The NGG control record behind `GetNggControl()` (declared in `llpc.h`, outside the
embedded files): the two fields that `SetupTargetFeatures` reads. -/
structure NggControl where
  enableNgg : Bool := false
  passthroughMode : Bool := false
  deriving DecidableEq, Repr

/-- Graphics IP version of the target, the value of `GetTargetInfo().GetGfxIpVersion()`
(declared outside the embedded files); the code reads `major`. -/
structure GfxIpVersion where
  major : Nat := 0
  minor : Nat := 0
  stepping : Nat := 0
  deriving DecidableEq, Repr

/-- The results of the `PipelineState` accessors that `SetupTargetFeatures` calls. Each
field is named after its accessor (`GetShaderModes()->GetComputeShaderMode()` is
`GetComputeShaderMode`, `GetTargetInfo().GetGfxIpVersion()` is `GetGfxIpVersion`). -/
structure PipelineState where
  GetOptions : Options
  GetShaderStageMask : Nat
  GetShaderOptions : ShaderStage → ShaderOptions
  GetNggControl : NggControl
  GetComputeShaderMode : ComputeShaderMode
  GetCommonShaderMode : ShaderStage → CommonShaderMode
  GetGfxIpVersion : GfxIpVersion
  GetShaderWaveSize : ShaderStage → Nat

/-! ## Attribute sets -/

/-- An attribute set: attribute kind and value, one entry per kind. -/
abbrev AttrBuilder := List (String × String)

/-- Set string attribute `kind` to `val` (`AttrBuilder::addAttribute(StringRef, StringRef)`):
an entry of that kind is overwritten, otherwise the attribute is added. -/
def addAttribute (kind val : String) : AttrBuilder → AttrBuilder
  | [] => [(kind, val)]
  | (k, v) :: rest =>
    if k = kind then (kind, val) :: rest else (k, v) :: addAttribute kind val rest

/-- Value of attribute `kind` in an attribute set, if present. -/
def getAttribute (kind : String) : AttrBuilder → Option String
  | [] => none
  | (k, v) :: rest => if k = kind then some v else getAttribute kind rest

/-- Merge a builder into an attribute set (`Function::addAttributes(index, builder)`):
every attribute of the builder is set in turn. -/
def addAttributes (attrs : AttrBuilder) (builder : AttrBuilder) : AttrBuilder :=
  builder.foldl (fun acc kv => addAttribute kv.1 kv.2 acc) attrs

/-- An LLVM function as far as `SetupTargetFeatures` observes it. -/
structure Function where
  name : String
  empty : Bool
  linkage : LinkageTypes
  callingConv : CallingConv
  attrs : AttrBuilder
  deriving DecidableEq, Repr

/-- A module is the sequence of its functions. -/
abbrev Module := List Function

/-! ## `CodeGenManager::SetupTargetFeatures` -/

/-- The two values the loop body builds for one function. -/
structure FuncSetup where
  targetFeatures : String
  builder : AttrBuilder
  deriving DecidableEq, Repr

/-- Lines 74-84: the features shared by every function; `disableFp32Denormals` is the
command line option `-disable-fp32-denormals`. -/
def globalFeatures (disableFp32Denormals : Bool) (ps : PipelineState) : String :=
  let g := ""
  let g := if ps.GetOptions.includeDisassembly ≠ 0 then g ++ ",+DumpCode" else g
  let g := if disableFp32Denormals then g ++ ",-fp32-denormals" else g
  g

/-- Lines 126-127: the product of the three dimensions in `uint32_t` arithmetic. -/
def flatWorkGroupSize (m : ComputeShaderMode) : Nat :=
  ((m.workgroupSizeX * m.workgroupSizeY) % 2 ^ 32 * m.workgroupSizeZ) % 2 ^ 32

/-- Lines 90-182, the body of the loop for one function of calling convention `cc`:
the feature string and the attribute builder just before line 183. `buildGfx10` is the
build flag `LLPC_BUILD_GFX10`; `getStage` is `GetShaderStageFromCallingConv`. -/
def setupFunction (buildGfx10 : Bool) (getStage : Nat → CallingConv → ShaderStage)
    (disableFp32Denormals : Bool) (ps : PipelineState) (cc : CallingConv) : FuncSetup :=
  let st : FuncSetup := { targetFeatures := globalFeatures disableFp32Denormals ps, builder := [] }
  let shaderStage := getStage ps.GetShaderStageMask cc
  let useSiScheduler := (ps.GetShaderOptions shaderStage).useSiScheduler
  let st : FuncSetup :=
    if useSiScheduler then
      { targetFeatures := st.targetFeatures ++ ",+si-scheduler",
        builder := addAttribute "amdgpu-max-memory-clause" "1" st.builder }
    else st
  let st : FuncSetup :=
    if buildGfx10 ∧ cc = CallingConv.AMDGPU_GS then
      if ps.GetNggControl.enableNgg ∧ ps.GetNggControl.passthroughMode = false then
        { st with targetFeatures := st.targetFeatures ++ ",+ci-insts,+enable-ds128" }
      else st
    else st
  let st : FuncSetup :=
    if cc = CallingConv.AMDGPU_HS then
      { st with builder := addAttribute "amdgpu-flat-work-group-size" "128,128" st.builder }
    else st
  let st : FuncSetup :=
    if cc = CallingConv.AMDGPU_CS then
      let flatWorkGroupSizeString := toString (flatWorkGroupSize ps.GetComputeShaderMode)
      { st with builder := addAttribute "amdgpu-flat-work-group-size"
                  (flatWorkGroupSizeString ++ "," ++ flatWorkGroupSizeString) st.builder }
    else st
  let gfxIp := ps.GetGfxIpVersion
  let st : FuncSetup :=
    if gfxIp.major ≥ 9 then
      { st with targetFeatures := st.targetFeatures ++ ",+enable-scratch-bounds-checks" }
    else st
  let st : FuncSetup :=
    if buildGfx10 ∧ gfxIp.major ≥ 10 then
      let waveSize := ps.GetShaderWaveSize shaderStage
      let tf := st.targetFeatures ++ (",+wavefrontsize" ++ toString waveSize)
      { st with targetFeatures := tf ++ ",+cumode" }
    else st
  let st : FuncSetup :=
    if shaderStage ≠ ShaderStage.ShaderStageCopyShader then
      let shaderMode := ps.GetCommonShaderMode shaderStage
      let st : FuncSetup :=
        if shaderMode.fp16DenormMode = FpDenormMode.FlushNone ∨
            shaderMode.fp16DenormMode = FpDenormMode.FlushIn ∨
            shaderMode.fp64DenormMode = FpDenormMode.FlushNone ∨
            shaderMode.fp64DenormMode = FpDenormMode.FlushIn then
          { st with targetFeatures := st.targetFeatures ++ ",+fp64-fp16-denormals" }
        else if shaderMode.fp16DenormMode = FpDenormMode.FlushOut ∨
            shaderMode.fp16DenormMode = FpDenormMode.FlushInOut ∨
            shaderMode.fp64DenormMode = FpDenormMode.FlushOut ∨
            shaderMode.fp64DenormMode = FpDenormMode.FlushInOut then
          { st with targetFeatures := st.targetFeatures ++ ",-fp64-fp16-denormals" }
        else st
      if shaderMode.fp32DenormMode = FpDenormMode.FlushNone ∨
          shaderMode.fp32DenormMode = FpDenormMode.FlushIn then
        { st with targetFeatures := st.targetFeatures ++ ",+fp32-denormals" }
      else if shaderMode.fp32DenormMode = FpDenormMode.FlushOut ∨
          shaderMode.fp32DenormMode = FpDenormMode.FlushInOut then
        { st with targetFeatures := st.targetFeatures ++ ",-fp32-denormals" }
      else st
    else st
  { st with builder := addAttribute "target-features" st.targetFeatures st.builder }

/-- The value of the `"target-features"` attribute built for a function. -/
def targetFeaturesOf (buildGfx10 : Bool) (getStage : Nat → CallingConv → ShaderStage)
    (disableFp32Denormals : Bool) (ps : PipelineState) (cc : CallingConv) : String :=
  (setupFunction buildGfx10 getStage disableFp32Denormals ps cc).targetFeatures

/-- Lines 88-185, one iteration of the loop: a non-empty function of external linkage
receives the attributes of its builder; every other function is left as it is. -/
def setupFunctionAttributes (buildGfx10 : Bool) (getStage : Nat → CallingConv → ShaderStage)
    (disableFp32Denormals : Bool) (ps : PipelineState) (pFunc : Function) : Function :=
  if pFunc.empty = false ∧ pFunc.linkage = LinkageTypes.ExternalLinkage then
    { pFunc with
      attrs := addAttributes pFunc.attrs
        (setupFunction buildGfx10 getStage disableFp32Denormals ps pFunc.callingConv).builder }
  else pFunc

/-- Lines 70-187: the loop over the functions of the module, in module order. -/
def SetupTargetFeatures (buildGfx10 : Bool) (getStage : Nat → CallingConv → ShaderStage)
    (disableFp32Denormals : Bool) (ps : PipelineState) (pModule : Module) : Module :=
  pModule.map (setupFunctionAttributes buildGfx10 getStage disableFp32Denormals ps)

/-! ## The loop body, block by block, and the pieces of the feature string -/

/-- Lines 96-103. -/
def stepSiScheduler (useSiScheduler : Bool) (st : FuncSetup) : FuncSetup :=
  if useSiScheduler then
    { targetFeatures := st.targetFeatures ++ ",+si-scheduler",
      builder := addAttribute "amdgpu-max-memory-clause" "1" st.builder }
  else st

/-- Lines 105-116. -/
def stepNgg (buildGfx10 : Bool) (ngg : NggControl) (cc : CallingConv) (st : FuncSetup) :
    FuncSetup :=
  if buildGfx10 ∧ cc = CallingConv.AMDGPU_GS then
    if ngg.enableNgg ∧ ngg.passthroughMode = false then
      { st with targetFeatures := st.targetFeatures ++ ",+ci-insts,+enable-ds128" }
    else st
  else st

/-- Lines 117-131. -/
def stepWorkGroupSize (m : ComputeShaderMode) (cc : CallingConv) (st : FuncSetup) : FuncSetup :=
  let st : FuncSetup :=
    if cc = CallingConv.AMDGPU_HS then
      { st with builder := addAttribute "amdgpu-flat-work-group-size" "128,128" st.builder }
    else st
  if cc = CallingConv.AMDGPU_CS then
    let flatWorkGroupSizeString := toString (flatWorkGroupSize m)
    { st with builder := addAttribute "amdgpu-flat-work-group-size"
                (flatWorkGroupSizeString ++ "," ++ flatWorkGroupSizeString) st.builder }
  else st

/-- Lines 133-151. -/
def stepGfxIp (buildGfx10 : Bool) (gfxIp : GfxIpVersion) (waveSize : Nat) (st : FuncSetup) :
    FuncSetup :=
  let st : FuncSetup :=
    if gfxIp.major ≥ 9 then
      { st with targetFeatures := st.targetFeatures ++ ",+enable-scratch-bounds-checks" }
    else st
  if buildGfx10 ∧ gfxIp.major ≥ 10 then
    let tf := st.targetFeatures ++ (",+wavefrontsize" ++ toString waveSize)
    { st with targetFeatures := tf ++ ",+cumode" }
  else st

/-- Lines 153-180. -/
def stepDenormals (shaderStage : ShaderStage) (shaderMode : CommonShaderMode) (st : FuncSetup) :
    FuncSetup :=
  if shaderStage ≠ ShaderStage.ShaderStageCopyShader then
    let st : FuncSetup :=
      if shaderMode.fp16DenormMode = FpDenormMode.FlushNone ∨
          shaderMode.fp16DenormMode = FpDenormMode.FlushIn ∨
          shaderMode.fp64DenormMode = FpDenormMode.FlushNone ∨
          shaderMode.fp64DenormMode = FpDenormMode.FlushIn then
        { st with targetFeatures := st.targetFeatures ++ ",+fp64-fp16-denormals" }
      else if shaderMode.fp16DenormMode = FpDenormMode.FlushOut ∨
          shaderMode.fp16DenormMode = FpDenormMode.FlushInOut ∨
          shaderMode.fp64DenormMode = FpDenormMode.FlushOut ∨
          shaderMode.fp64DenormMode = FpDenormMode.FlushInOut then
        { st with targetFeatures := st.targetFeatures ++ ",-fp64-fp16-denormals" }
      else st
    if shaderMode.fp32DenormMode = FpDenormMode.FlushNone ∨
        shaderMode.fp32DenormMode = FpDenormMode.FlushIn then
      { st with targetFeatures := st.targetFeatures ++ ",+fp32-denormals" }
    else if shaderMode.fp32DenormMode = FpDenormMode.FlushOut ∨
        shaderMode.fp32DenormMode = FpDenormMode.FlushInOut then
      { st with targetFeatures := st.targetFeatures ++ ",-fp32-denormals" }
    else st
  else st

/-- The combined fp64/fp16 denormal piece of the feature string for a stage and its mode. -/
def fp64Fp16DenormToken (stage : ShaderStage) (m : CommonShaderMode) : String :=
  if stage = ShaderStage.ShaderStageCopyShader then ""
  else if m.fp16DenormMode = FpDenormMode.FlushNone ∨ m.fp16DenormMode = FpDenormMode.FlushIn ∨
      m.fp64DenormMode = FpDenormMode.FlushNone ∨ m.fp64DenormMode = FpDenormMode.FlushIn then
    ",+fp64-fp16-denormals"
  else if m.fp16DenormMode = FpDenormMode.FlushOut ∨ m.fp16DenormMode = FpDenormMode.FlushInOut ∨
      m.fp64DenormMode = FpDenormMode.FlushOut ∨ m.fp64DenormMode = FpDenormMode.FlushInOut then
    ",-fp64-fp16-denormals"
  else ""

/-- The fp32 denormal piece of the feature string for a stage and its mode. -/
def fp32DenormToken (stage : ShaderStage) (m : CommonShaderMode) : String :=
  if stage = ShaderStage.ShaderStageCopyShader then ""
  else if m.fp32DenormMode = FpDenormMode.FlushNone ∨ m.fp32DenormMode = FpDenormMode.FlushIn then
    ",+fp32-denormals"
  else if m.fp32DenormMode = FpDenormMode.FlushOut ∨
      m.fp32DenormMode = FpDenormMode.FlushInOut then
    ",-fp32-denormals"
  else ""

/-- The eight pieces of the feature string in the order the claim lists them, for a build
with GFX10 support: each is a token group or the empty string. -/
def specFeaturePieces (getStage : Nat → CallingConv → ShaderStage) (ovr : Bool)
    (ps : PipelineState) (cc : CallingConv) : List String :=
  let stage := getStage ps.GetShaderStageMask cc
  [ if ps.GetOptions.includeDisassembly ≠ 0 then ",+DumpCode" else "",
    if ovr then ",-fp32-denormals" else "",
    if (ps.GetShaderOptions stage).useSiScheduler then ",+si-scheduler" else "",
    if cc = CallingConv.AMDGPU_GS ∧ ps.GetNggControl.enableNgg ∧
        ps.GetNggControl.passthroughMode = false then ",+ci-insts,+enable-ds128" else "",
    if ps.GetGfxIpVersion.major ≥ 9 then ",+enable-scratch-bounds-checks" else "",
    if ps.GetGfxIpVersion.major ≥ 10 then
      ",+wavefrontsize" ++ toString (ps.GetShaderWaveSize stage) ++ ",+cumode" else "",
    fp64Fp16DenormToken stage (ps.GetCommonShaderMode stage),
    fp32DenormToken stage (ps.GetCommonShaderMode stage) ]

/-- The pieces of the feature string for either setting of the build flag. -/
def featurePieces (b : Bool) (getStage : Nat → CallingConv → ShaderStage) (ovr : Bool)
    (ps : PipelineState) (cc : CallingConv) : List String :=
  let stage := getStage ps.GetShaderStageMask cc
  [ if ps.GetOptions.includeDisassembly ≠ 0 then ",+DumpCode" else "",
    if ovr then ",-fp32-denormals" else "",
    if (ps.GetShaderOptions stage).useSiScheduler then ",+si-scheduler" else "",
    if b = true ∧ cc = CallingConv.AMDGPU_GS ∧ ps.GetNggControl.enableNgg = true ∧
        ps.GetNggControl.passthroughMode = false then ",+ci-insts,+enable-ds128" else "",
    if ps.GetGfxIpVersion.major ≥ 9 then ",+enable-scratch-bounds-checks" else "",
    if b = true ∧ ps.GetGfxIpVersion.major ≥ 10 then
      ",+wavefrontsize" ++ toString (ps.GetShaderWaveSize stage) ++ ",+cumode" else "",
    fp64Fp16DenormToken stage (ps.GetCommonShaderMode stage),
    fp32DenormToken stage (ps.GetCommonShaderMode stage) ]

/-- The characters of a feature string whose tokens are `toks`: every token is written
after a comma. -/
def joinTokens : List (List Char) → List Char
  | [] => []
  | t :: ts => ',' :: (t ++ joinTokens ts)

/-- Tokens of the combined fp64/fp16 denormal piece. -/
def fp64Fp16DenormTokens (stage : ShaderStage) (m : CommonShaderMode) : List (List Char) :=
  if stage = ShaderStage.ShaderStageCopyShader then []
  else if m.fp16DenormMode = FpDenormMode.FlushNone ∨ m.fp16DenormMode = FpDenormMode.FlushIn ∨
      m.fp64DenormMode = FpDenormMode.FlushNone ∨ m.fp64DenormMode = FpDenormMode.FlushIn then
    ["+fp64-fp16-denormals".data]
  else if m.fp16DenormMode = FpDenormMode.FlushOut ∨ m.fp16DenormMode = FpDenormMode.FlushInOut ∨
      m.fp64DenormMode = FpDenormMode.FlushOut ∨ m.fp64DenormMode = FpDenormMode.FlushInOut then
    ["-fp64-fp16-denormals".data]
  else []

/-- Tokens of the fp32 denormal piece. -/
def fp32DenormTokens (stage : ShaderStage) (m : CommonShaderMode) : List (List Char) :=
  if stage = ShaderStage.ShaderStageCopyShader then []
  else if m.fp32DenormMode = FpDenormMode.FlushNone ∨ m.fp32DenormMode = FpDenormMode.FlushIn then
    ["+fp32-denormals".data]
  else if m.fp32DenormMode = FpDenormMode.FlushOut ∨
      m.fp32DenormMode = FpDenormMode.FlushInOut then
    ["-fp32-denormals".data]
  else []

/-- The wavefront-size token for wave size `w`. -/
def waveToken (w : Nat) : List Char := "+wavefrontsize".data ++ (toString w).data

/-- The tokens of the feature string, in order. -/
def featureTokens (b : Bool) (getStage : Nat → CallingConv → ShaderStage) (ovr : Bool)
    (ps : PipelineState) (cc : CallingConv) : List (List Char) :=
  let stage := getStage ps.GetShaderStageMask cc
  (if ps.GetOptions.includeDisassembly ≠ 0 then ["+DumpCode".data] else []) ++
  (if ovr then ["-fp32-denormals".data] else []) ++
  (if (ps.GetShaderOptions stage).useSiScheduler then ["+si-scheduler".data] else []) ++
  (if b = true ∧ cc = CallingConv.AMDGPU_GS ∧ ps.GetNggControl.enableNgg = true ∧
      ps.GetNggControl.passthroughMode = false
    then ["+ci-insts".data, "+enable-ds128".data] else []) ++
  (if ps.GetGfxIpVersion.major ≥ 9 then ["+enable-scratch-bounds-checks".data] else []) ++
  (if b = true ∧ ps.GetGfxIpVersion.major ≥ 10
    then [waveToken (ps.GetShaderWaveSize stage), "+cumode".data] else []) ++
  fp64Fp16DenormTokens stage (ps.GetCommonShaderMode stage) ++
  fp32DenormTokens stage (ps.GetCommonShaderMode stage)

/-! ## NGG flags (`enum NggFlag` of `llpcPipeline.h`) -/

/-- Disable NGG. -/
def NggFlagDisable : Nat := 0x0001

/-- Enable NGG when the pipeline has a GS. -/
def NggFlagEnableGsUse : Nat := 0x0002

/-- Force NGG to run in non-passthrough mode. -/
def NggFlagForceNonPassthrough : Nat := 0x0004

/-- Do not always use the primitive shader table to fetch culling-control registers. -/
def NggFlagDontAlwaysUsePrimShaderTable : Nat := 0x0008

/-- Compaction is based on the whole sub-group rather than on vertices. -/
def NggFlagCompactSubgroup : Nat := 0x0010

/-- Enable the hardware to launch subgroups of work at a faster rate. -/
def NggFlagEnableFastLaunch : Nat := 0x0020

/-- Enable the optimization that culls duplicate vertices. -/
def NggFlagEnableVertexReuse : Nat := 0x0040

/-- Enable culling of primitives that do not meet the facing criteria. -/
def NggFlagEnableBackfaceCulling : Nat := 0x0080

/-- Enable discarding of primitives outside the view frustum. -/
def NggFlagEnableFrustumCulling : Nat := 0x0100

/-- Enable the simpler, less accurate frustum culler. -/
def NggFlagEnableBoxFilterCulling : Nat := 0x0200

/-- Enable frustum culling based on a sphere. -/
def NggFlagEnableSphereCulling : Nat := 0x0400

/-- Enable trivial sub-sample primitive culling. -/
def NggFlagEnableSmallPrimFilter : Nat := 0x0800

/-- Enable culling when cull-distance exports are present. -/
def NggFlagEnableCullDistanceCulling : Nat := 0x1000

/-- The thirteen values of `enum NggFlag`, in declaration order. -/
def allNggFlags : List Nat :=
  [NggFlagDisable, NggFlagEnableGsUse, NggFlagForceNonPassthrough,
    NggFlagDontAlwaysUsePrimShaderTable, NggFlagCompactSubgroup, NggFlagEnableFastLaunch,
    NggFlagEnableVertexReuse, NggFlagEnableBackfaceCulling, NggFlagEnableFrustumCulling,
    NggFlagEnableBoxFilterCulling, NggFlagEnableSphereCulling, NggFlagEnableSmallPrimFilter,
    NggFlagEnableCullDistanceCulling]

/-- The flags word of a collection of flags: its members ored together, as the comment on
`Options::nggFlags` says. -/
def orFlags (flags : List Nat) : Nat := flags.foldr (fun f w => f ||| w) 0

/-- Test of one flag in a flags word, `(word & flag) != 0`. -/
def hasFlag (word flag : Nat) : Bool := decide (word &&& flag ≠ 0)

/-- Setting a flag in a flags word, `word | flag`. -/
def setFlag (word flag : Nat) : Nat := word ||| flag

/-- Clearing a flag in a 32-bit flags word, `word & ~flag`. -/
def clearFlag (word flag : Nat) : Nat := word &&& (0xFFFFFFFF ^^^ flag)

/-! ## Constants of `llpcGfx6Chip.h` -/

namespace Gfx6

/-- Preferred number of ES threads per GS thread. -/
def EsThreadsPerGsThread : Nat := 128

/-- Preferred number of GS primitives per ES thread. -/
def GsPrimsPerEsThread : Nat := 256

/-- Preferred number of GS threads per VS thread. -/
def GsThreadsPerVsThread : Nat := 2

/-- Max size of primitives per subgroup for adjacency primitives or when GS instancing is
used; applicable only when GS on-chip mode is used. -/
def GsOnChipMaxPrimsPerSubgroup : Nat := 128

/-- Value of `VGT_GS_MODE.ONCHIP` for on-chip GS off, `enum VGT_GS_MODE_ONCHIP_TYPE`. -/
def VGT_GS_MODE_ONCHIP_OFF : Nat := 0

/-- Value of `VGT_GS_MODE.ONCHIP` for on-chip GS on, `enum VGT_GS_MODE_ONCHIP_TYPE`. -/
def VGT_GS_MODE_ONCHIP_ON : Nat := 3

end Gfx6

/-! ## Register configurations of `llpcGfx6Chip.h` -/

namespace Gfx6

/-- The two fields that `DEF_REG(_reg)` defines: the register ID and the 32-bit value. -/
structure RegField where
  ID : Nat
  VAL : Nat
  deriving DecidableEq, Repr

/-- `INIT_REG(_reg)`, line 54: the ID becomes `mm##_reg` and the value 0. The constants
`mm##_reg` come from register headers that are not among the embedded files; `mmReg` is the
value of the constant of the register. -/
def INIT_REG (mmReg : Nat) : RegField :=
  { ID := mmReg, VAL := 0 }

/-- The register name map, `std::unordered_map<uint32_t, const char*>`, before any entry is
added. -/
def emptyRegNameMap : Nat → Option String := fun _ => none

/-- `ADD_REG_MAP(_reg)`, line 57: `RegNameMap[mm##_reg * 4] = #_reg`; the key is computed in
`uint32_t` arithmetic and `name` is the stringified register name. -/
def ADD_REG_MAP (mmReg : Nat) (name : String) (RegNameMap : Nat → Option String) :
    Nat → Option String :=
  fun key => if key = (mmReg * 4) % 2 ^ 32 then some name else RegNameMap key

/-- The register configs of the single hardware stages, by struct name. -/
inductive HwStageRegConfig where
  | VsRegConfig
  | HsRegConfig
  | EsRegConfig
  | LsRegConfig
  | GsRegConfig
  | PsRegConfig
  deriving DecidableEq, Repr

/-- The registers of a hardware-stage config: its `DEF_REG` entries in declaration order. -/
def HwStageRegConfig.regs : HwStageRegConfig → List String
  | HwStageRegConfig.VsRegConfig =>
    ["SPI_SHADER_PGM_RSRC1_VS", "SPI_SHADER_PGM_RSRC2_VS", "SPI_SHADER_POS_FORMAT",
     "SPI_VS_OUT_CONFIG", "PA_CL_VS_OUT_CNTL", "PA_CL_CLIP_CNTL", "PA_CL_VTE_CNTL",
     "PA_SU_VTX_CNTL", "VGT_PRIMITIVEID_EN", "VGT_REUSE_OFF", "VGT_VERTEX_REUSE_BLOCK_CNTL",
     "VGT_STRMOUT_CONFIG", "VGT_STRMOUT_BUFFER_CONFIG", "VGT_STRMOUT_VTX_STRIDE_0",
     "VGT_STRMOUT_VTX_STRIDE_1", "VGT_STRMOUT_VTX_STRIDE_2", "VGT_STRMOUT_VTX_STRIDE_3"]
  | HwStageRegConfig.HsRegConfig =>
    ["SPI_SHADER_PGM_RSRC1_HS", "SPI_SHADER_PGM_RSRC2_HS", "VGT_LS_HS_CONFIG",
     "VGT_HOS_MIN_TESS_LEVEL", "VGT_HOS_MAX_TESS_LEVEL"]
  | HwStageRegConfig.EsRegConfig =>
    ["SPI_SHADER_PGM_RSRC1_ES", "SPI_SHADER_PGM_RSRC2_ES", "VGT_ESGS_RING_ITEMSIZE"]
  | HwStageRegConfig.LsRegConfig =>
    ["SPI_SHADER_PGM_RSRC1_LS", "SPI_SHADER_PGM_RSRC2_LS"]
  | HwStageRegConfig.GsRegConfig =>
    ["SPI_SHADER_PGM_RSRC1_GS", "SPI_SHADER_PGM_RSRC2_GS", "VGT_GS_MAX_VERT_OUT",
     "VGT_GS_ONCHIP_CNTL__CI__VI", "VGT_ES_PER_GS", "VGT_GS_VERT_ITEMSIZE",
     "VGT_GS_INSTANCE_CNT", "VGT_GS_PER_VS", "VGT_GS_OUT_PRIM_TYPE", "VGT_GSVS_RING_ITEMSIZE",
     "VGT_GS_PER_ES", "VGT_GS_VERT_ITEMSIZE_1", "VGT_GS_VERT_ITEMSIZE_2",
     "VGT_GS_VERT_ITEMSIZE_3", "VGT_GSVS_RING_OFFSET_1", "VGT_GSVS_RING_OFFSET_2",
     "VGT_GSVS_RING_OFFSET_3", "VGT_GS_MODE"]
  | HwStageRegConfig.PsRegConfig =>
    ["SPI_SHADER_PGM_RSRC1_PS", "SPI_SHADER_PGM_RSRC2_PS", "SPI_SHADER_Z_FORMAT",
     "SPI_SHADER_COL_FORMAT", "SPI_BARYC_CNTL", "SPI_PS_IN_CONTROL", "SPI_PS_INPUT_ENA",
     "SPI_PS_INPUT_ADDR", "SPI_INTERP_CONTROL_0", "PA_SC_MODE_CNTL_1", "DB_SHADER_CONTROL",
     "CB_SHADER_MASK"]

/-- The register configs of whole pipelines, by struct name. -/
inductive PipelineRegConfig where
  | PipelineVsFsRegConfig
  | PipelineVsTsFsRegConfig
  | PipelineVsGsFsRegConfig
  | PipelineVsTsGsFsRegConfig
  | CsRegConfig
  deriving DecidableEq, Repr

/-- The hardware-stage configs that a pipeline config has as members (`m_vsRegs` and the
like), in declaration order. -/
def PipelineRegConfig.subConfigs : PipelineRegConfig → List HwStageRegConfig
  | PipelineRegConfig.PipelineVsFsRegConfig =>
    [HwStageRegConfig.VsRegConfig, HwStageRegConfig.PsRegConfig]
  | PipelineRegConfig.PipelineVsTsFsRegConfig =>
    [HwStageRegConfig.LsRegConfig, HwStageRegConfig.HsRegConfig, HwStageRegConfig.VsRegConfig,
     HwStageRegConfig.PsRegConfig]
  | PipelineRegConfig.PipelineVsGsFsRegConfig =>
    [HwStageRegConfig.EsRegConfig, HwStageRegConfig.GsRegConfig, HwStageRegConfig.PsRegConfig,
     HwStageRegConfig.VsRegConfig]
  | PipelineRegConfig.PipelineVsTsGsFsRegConfig =>
    [HwStageRegConfig.LsRegConfig, HwStageRegConfig.HsRegConfig, HwStageRegConfig.EsRegConfig,
     HwStageRegConfig.GsRegConfig, HwStageRegConfig.PsRegConfig, HwStageRegConfig.VsRegConfig]
  | PipelineRegConfig.CsRegConfig =>
    []

/-- The registers that a pipeline config defines itself: its own `DEF_REG` entries in
declaration order. -/
def PipelineRegConfig.regs : PipelineRegConfig → List String
  | PipelineRegConfig.PipelineVsFsRegConfig =>
    ["VGT_SHADER_STAGES_EN", "IA_MULTI_VGT_PARAM"]
  | PipelineRegConfig.PipelineVsTsFsRegConfig =>
    ["VGT_SHADER_STAGES_EN", "IA_MULTI_VGT_PARAM", "VGT_TF_PARAM"]
  | PipelineRegConfig.PipelineVsGsFsRegConfig =>
    ["VGT_SHADER_STAGES_EN", "IA_MULTI_VGT_PARAM"]
  | PipelineRegConfig.PipelineVsTsGsFsRegConfig =>
    ["VGT_SHADER_STAGES_EN", "IA_MULTI_VGT_PARAM", "VGT_TF_PARAM"]
  | PipelineRegConfig.CsRegConfig =>
    ["COMPUTE_PGM_RSRC1", "COMPUTE_PGM_RSRC2", "COMPUTE_NUM_THREAD_X", "COMPUTE_NUM_THREAD_Y",
     "COMPUTE_NUM_THREAD_Z"]

/-- All registers of a pipeline config: those of its members, then its own. -/
def PipelineRegConfig.allRegs (c : PipelineRegConfig) : List String :=
  (c.subConfigs.map HwStageRegConfig.regs).flatten ++ c.regs

end Gfx6

/-! ## Occurrences of a token in a string -/

/-- Number of positions of `s` at which `needle` starts. -/
def countOccurrences (needle : List Char) : List Char → Nat
  | [] => if needle = [] then 1 else 0
  | c :: s => (if needle <+: c :: s then 1 else 0) + countOccurrences needle s

/-- The common shader mode with the fp16 and the fp64 denormal mode exchanged. -/
def swapFp16Fp64 (m : CommonShaderMode) : CommonShaderMode :=
  { m with fp16DenormMode := m.fp64DenormMode, fp64DenormMode := m.fp16DenormMode }

/-! ## Behaviour modelled from the spec -/

/-- Modelled from the spec: `SetOptions(opts)` of the pipeline state, which replaces the
pipeline options that `GetOptions()` reads. `Pipeline::SetOptions` and `Pipeline::GetOptions`
are pure virtual in `llpcPipeline.h`; the class that implements them is not among the
embedded files. -/
def SetOptions (ps : PipelineState) (options : Options) : PipelineState :=
  { ps with GetOptions := options }

/-- Modelled from the spec: `SetShaderOptions(stage, opts)` of the pipeline state; the
per-stage options are keyed by abstract stage and a call replaces those of its stage.
`Pipeline::SetShaderOptions` is pure virtual in `llpcPipeline.h`; the class that implements
it is not among the embedded files. -/
def SetShaderOptions (ps : PipelineState) (stage : ShaderStage) (options : ShaderOptions) :
    PipelineState :=
  { ps with GetShaderOptions := fun s => if s = stage then options else ps.GetShaderOptions s }

/-- Modelled from the spec: the NGG control that `GetNggControl()` returns for a flags word.
The code that derives it from `Options::nggFlags` is not among the embedded files. The
disable-NGG bit switches the merged primitive-shader path off whatever the other bits are;
with the bit clear the decision is the outcome `wantNgg` of heuristics the spec leaves out.
Passthrough mode is excluded by the force-non-passthrough bit and is otherwise the outcome
`wantPassthrough`. -/
def nggControlFromFlags (nggFlags : Nat) (wantNgg wantPassthrough : Bool) : NggControl :=
  { enableNgg := !hasFlag nggFlags NggFlagDisable && wantNgg,
    passthroughMode := !hasFlag nggFlags NggFlagForceNonPassthrough && wantPassthrough }

/-- Modelled from the spec: a resolver of the abstract stage a function implements
(`GetShaderStageFromCallingConv` is not among the embedded files), read off the pipeline
shapes: the stage mask has bit `n` for the `n`-th abstract stage; without tessellation and
geometry stages the vertex stage is the hardware VS, with tessellation the vertex stage is
the LS and the evaluation stage takes the place of the vertex stage, with a geometry stage
the stage before it is the ES and the hardware VS runs the copy shader; in the NGG-merged
shapes the hardware GS stage is the primitive shader, which without a geometry stage
implements the last stage before the fragment stage. -/
def shapeStageOf (mask : Nat) (cc : CallingConv) : ShaderStage :=
  let hasTs := decide (mask &&& 2 ≠ 0) || decide (mask &&& 4 ≠ 0)
  let hasGs := decide (mask &&& 8 ≠ 0)
  let lastVertexStage :=
    if hasTs then ShaderStage.ShaderStageTessEval else ShaderStage.ShaderStageVertex
  match cc with
  | CallingConv.AMDGPU_PS => ShaderStage.ShaderStageFragment
  | CallingConv.AMDGPU_CS => ShaderStage.ShaderStageCompute
  | CallingConv.AMDGPU_LS => ShaderStage.ShaderStageVertex
  | CallingConv.AMDGPU_HS => ShaderStage.ShaderStageTessControl
  | CallingConv.AMDGPU_ES => lastVertexStage
  | CallingConv.AMDGPU_GS => if hasGs then ShaderStage.ShaderStageGeometry else lastVertexStage
  | CallingConv.AMDGPU_VS => if hasGs then ShaderStage.ShaderStageCopyShader else lastVertexStage
  | CallingConv.Other _ => ShaderStage.ShaderStageInvalid

/-! ## Data of the worked examples -/

/-- A stage resolver for the worked examples; every theorem below is proved for an arbitrary
resolver, this one only instantiates them. -/
def exampleStageOf (_mask : Nat) : CallingConv → ShaderStage
  | CallingConv.AMDGPU_PS => ShaderStage.ShaderStageFragment
  | CallingConv.AMDGPU_CS => ShaderStage.ShaderStageCompute
  | CallingConv.AMDGPU_HS => ShaderStage.ShaderStageTessControl
  | CallingConv.AMDGPU_GS => ShaderStage.ShaderStageGeometry
  | CallingConv.AMDGPU_LS => ShaderStage.ShaderStageVertex
  | CallingConv.AMDGPU_ES => ShaderStage.ShaderStageVertex
  | CallingConv.AMDGPU_VS => ShaderStage.ShaderStageVertex
  | CallingConv.Other _ => ShaderStage.ShaderStageInvalid

/-- The zero-initialised pipeline state on a GFX6 target. -/
def zeroPipelineState : PipelineState where
  GetOptions := {}
  GetShaderStageMask := 0
  GetShaderOptions := fun _ => {}
  GetNggControl := {}
  GetComputeShaderMode := {}
  GetCommonShaderMode := fun _ => {}
  GetGfxIpVersion := { major := 6 }
  GetShaderWaveSize := fun _ => 64

/-- A pipeline state with every feature switched on, on a GFX10 target with NGG in
non-passthrough mode. -/
def fullPipelineState : PipelineState where
  GetOptions := { includeDisassembly := 1 }
  GetShaderStageMask := 0
  GetShaderOptions := fun _ => { useSiScheduler := true }
  GetNggControl := { enableNgg := true, passthroughMode := false }
  GetComputeShaderMode := { workgroupSizeX := 8, workgroupSizeY := 8, workgroupSizeZ := 1 }
  GetCommonShaderMode := fun _ =>
    { fp16DenormMode := FpDenormMode.FlushNone, fp32DenormMode := FpDenormMode.FlushOut }
  GetGfxIpVersion := { major := 10 }
  GetShaderWaveSize := fun _ => 64

/-- An entry point: a non-empty function of external linkage without attributes. -/
def entryPoint (name : String) (cc : CallingConv) : Function where
  name := name
  empty := false
  linkage := LinkageTypes.ExternalLinkage
  callingConv := cc
  attrs := []

/-- A pipeline state whose stages all have fp16 denormal mode FlushOut and fp64 denormal
mode FlushNone. -/
def mixedDenormPipelineState : PipelineState :=
  { zeroPipelineState with
    GetCommonShaderMode := fun _ =>
      { fp16DenormMode := FpDenormMode.FlushOut, fp64DenormMode := FpDenormMode.FlushNone } }

/-- A pipeline state whose stages all have fp16 denormal mode FlushOut and fp64 denormal
mode DontCare. -/
def flushOutPipelineState : PipelineState :=
  { zeroPipelineState with
    GetCommonShaderMode := fun _ => { fp16DenormMode := FpDenormMode.FlushOut } }

/-- A VS-FS pipeline on a GFX10 target with NGG enabled in non-passthrough mode: the stage
mask holds the vertex and the fragment stage only. -/
def nggVsFsPipelineState : PipelineState :=
  { zeroPipelineState with
    GetShaderStageMask := 0x11
    GetNggControl := { enableNgg := true, passthroughMode := false }
    GetGfxIpVersion := { major := 10 } }

/-- A pipeline state whose flags word has the disable-NGG bit and every other NGG bit set,
with the NGG control derived from it while the heuristics ask for NGG. -/
def nggDisabledPipelineState : PipelineState :=
  { zeroPipelineState with
    GetOptions := { nggFlags := 0x1FFF }
    GetShaderStageMask := 0x19
    GetNggControl := nggControlFromFlags 0x1FFF true false
    GetGfxIpVersion := { major := 10 } }

/-- A pipeline state whose compute workgroup size is 65536 x 65536 x 1. -/
def hugeWorkgroupPipelineState : PipelineState :=
  { zeroPipelineState with
    GetComputeShaderMode :=
      { workgroupSizeX := 65536, workgroupSizeY := 65536, workgroupSizeZ := 1 } }

/-! ## Lemmas -/

/-! ### The loop body as a composition of its blocks -/

theorem setupFunction_eq_steps (b : Bool) (getStage : Nat → CallingConv → ShaderStage)
    (ovr : Bool) (ps : PipelineState) (cc : CallingConv) :
    setupFunction b getStage ovr ps cc =
      let stage := getStage ps.GetShaderStageMask cc
      let st := stepDenormals stage (ps.GetCommonShaderMode stage)
        (stepGfxIp b ps.GetGfxIpVersion (ps.GetShaderWaveSize stage)
          (stepWorkGroupSize ps.GetComputeShaderMode cc
            (stepNgg b ps.GetNggControl cc
              (stepSiScheduler (ps.GetShaderOptions stage).useSiScheduler
                { targetFeatures := globalFeatures ovr ps, builder := [] }))))
      { st with builder := addAttribute "target-features" st.targetFeatures st.builder } := rfl

/-! ### Attribute sets: lookup after update -/

theorem getAttribute_addAttribute_same (k v : String) (a : AttrBuilder) :
    getAttribute k (addAttribute k v a) = some v := by
  induction a with
  | nil => simp [addAttribute, getAttribute]
  | cons kv rest ih =>
    obtain ⟨k0, v0⟩ := kv
    by_cases h : k0 = k
    · simp [addAttribute, getAttribute, h]
    · simp [addAttribute, getAttribute, h, ih]

theorem getAttribute_addAttribute_ne (k k1 v : String) (a : AttrBuilder) (hk : k1 ≠ k) :
    getAttribute k (addAttribute k1 v a) = getAttribute k a := by
  induction a with
  | nil => simp [addAttribute, getAttribute, hk]
  | cons kv rest ih =>
    obtain ⟨k0, v0⟩ := kv
    by_cases h : k0 = k1
    · subst h
      simp [addAttribute, getAttribute, hk]
    · by_cases h2 : k0 = k
      · subst h2
        simp [addAttribute, getAttribute, h]
      · simp [addAttribute, getAttribute, h, h2, ih]

theorem addAttribute_of_getAttribute (k v : String) (a : AttrBuilder)
    (h : getAttribute k a = some v) : addAttribute k v a = a := by
  induction a with
  | nil => simp [getAttribute] at h
  | cons kv rest ih =>
    obtain ⟨k0, v0⟩ := kv
    by_cases h0 : k0 = k
    · subst h0
      simp [getAttribute] at h
      simp [addAttribute, h]
    · simp [getAttribute, h0] at h
      simp [addAttribute, h0, ih h]

theorem addAttributes_nil (a : AttrBuilder) : addAttributes a [] = a := rfl

theorem addAttributes_cons (a : AttrBuilder) (kv : String × String) (b : AttrBuilder) :
    addAttributes a (kv :: b) = addAttributes (addAttribute kv.1 kv.2 a) b := rfl

theorem addAttributes_append (a b c : AttrBuilder) :
    addAttributes a (b ++ c) = addAttributes (addAttributes a b) c := by
  simp [addAttributes, List.foldl_append]

/-- Attributes whose kind the builder does not mention are untouched by the merge. -/
theorem getAttribute_addAttributes_of_not_mem (k : String) (b a : AttrBuilder)
    (h : ∀ kv ∈ b, kv.1 ≠ k) :
    getAttribute k (addAttributes a b) = getAttribute k a := by
  induction b generalizing a with
  | nil => rfl
  | cons kv b ih =>
    rw [addAttributes_cons, ih _ (fun x hx => h x (List.mem_cons_of_mem _ hx)),
      getAttribute_addAttribute_ne _ _ _ _ (h kv (List.mem_cons_self _ _))]

/-- Lookup in the builder itself, for a kind it does not mention. -/
theorem getAttribute_eq_none_of_not_mem (k : String) (b : AttrBuilder)
    (h : ∀ kv ∈ b, kv.1 ≠ k) : getAttribute k b = none := by
  induction b with
  | nil => rfl
  | cons kv b ih =>
    obtain ⟨k0, v0⟩ := kv
    have h0 : k0 ≠ k := h (k0, v0) (List.mem_cons_self _ _)
    simp [getAttribute, h0, ih (fun x hx => h x (List.mem_cons_of_mem _ hx))]

/-- A merge that sets only values already present changes nothing. -/
theorem addAttributes_of_getAttribute (b a : AttrBuilder)
    (h : ∀ kv ∈ b, getAttribute kv.1 a = some kv.2) : addAttributes a b = a := by
  induction b generalizing a with
  | nil => rfl
  | cons kv b ih =>
    have h0 := addAttribute_of_getAttribute kv.1 kv.2 a (h kv (List.mem_cons_self _ _))
    rw [addAttributes_cons, h0]
    exact ih a (fun x hx => h x (List.mem_cons_of_mem _ hx))

/-- After a merge of a builder with pairwise different kinds, every attribute of the builder
is present with the builder's value. -/
theorem getAttribute_addAttributes_of_mem (b a : AttrBuilder)
    (hb : (b.map Prod.fst).Nodup) :
    ∀ kv ∈ b, getAttribute kv.1 (addAttributes a b) = some kv.2 := by
  induction b generalizing a with
  | nil => intro kv h; simp at h
  | cons kv0 b ih =>
    intro kv hkv
    rw [List.map_cons, List.nodup_cons] at hb
    rw [addAttributes_cons]
    rcases List.mem_cons.mp hkv with h | h
    · subst h
      rw [getAttribute_addAttributes_of_not_mem, getAttribute_addAttribute_same]
      intro x hx hxk
      exact hb.1 (hxk ▸ List.mem_map_of_mem Prod.fst hx)
    · exact ih _ hb.2 kv h

/-- Merging the same builder a second time changes nothing. -/
theorem addAttributes_idem (b a : AttrBuilder) (hb : (b.map Prod.fst).Nodup) :
    addAttributes (addAttributes a b) b = addAttributes a b :=
  addAttributes_of_getAttribute b _ (getAttribute_addAttributes_of_mem b a hb)

/-! ### The feature string as a concatenation of pieces -/

theorem globalFeatures_eq (ovr : Bool) (ps : PipelineState) :
    globalFeatures ovr ps =
      (if ps.GetOptions.includeDisassembly ≠ 0 then ",+DumpCode" else "") ++
      (if ovr then ",-fp32-denormals" else "") := by
  unfold globalFeatures
  split_ifs <;> rfl

theorem stepSiScheduler_targetFeatures (u : Bool) (st : FuncSetup) :
    (stepSiScheduler u st).targetFeatures =
      st.targetFeatures ++ (if u then ",+si-scheduler" else "") := by
  unfold stepSiScheduler
  split_ifs <;> simp

theorem stepNgg_targetFeatures (b : Bool) (ngg : NggControl) (cc : CallingConv)
    (st : FuncSetup) :
    (stepNgg b ngg cc st).targetFeatures =
      st.targetFeatures ++
        (if b = true ∧ cc = CallingConv.AMDGPU_GS ∧ ngg.enableNgg = true ∧
            ngg.passthroughMode = false then ",+ci-insts,+enable-ds128" else "") := by
  unfold stepNgg
  split_ifs <;> simp_all

theorem stepWorkGroupSize_targetFeatures (m : ComputeShaderMode) (cc : CallingConv)
    (st : FuncSetup) : (stepWorkGroupSize m cc st).targetFeatures = st.targetFeatures := by
  unfold stepWorkGroupSize
  split_ifs <;> rfl

theorem stepGfxIp_targetFeatures (b : Bool) (gfxIp : GfxIpVersion) (w : Nat) (st : FuncSetup) :
    (stepGfxIp b gfxIp w st).targetFeatures =
      st.targetFeatures ++
        (if gfxIp.major ≥ 9 then ",+enable-scratch-bounds-checks" else "") ++
        (if b = true ∧ gfxIp.major ≥ 10 then ",+wavefrontsize" ++ toString w ++ ",+cumode"
          else "") := by
  unfold stepGfxIp
  split_ifs <;> simp_all [String.append_assoc]

theorem stepDenormals_targetFeatures (stage : ShaderStage) (m : CommonShaderMode)
    (st : FuncSetup) :
    (stepDenormals stage m st).targetFeatures =
      st.targetFeatures ++ fp64Fp16DenormToken stage m ++ fp32DenormToken stage m := by
  unfold stepDenormals fp64Fp16DenormToken fp32DenormToken
  split_ifs <;> simp_all

theorem featurePieces_true (getStage : Nat → CallingConv → ShaderStage) (ovr : Bool)
    (ps : PipelineState) (cc : CallingConv) :
    featurePieces true getStage ovr ps cc = specFeaturePieces getStage ovr ps cc := by
  simp [featurePieces, specFeaturePieces]

theorem targetFeaturesOf_eq (b : Bool) (getStage : Nat → CallingConv → ShaderStage)
    (ovr : Bool) (ps : PipelineState) (cc : CallingConv) :
    targetFeaturesOf b getStage ovr ps cc = String.join (featurePieces b getStage ovr ps cc) := by
  unfold targetFeaturesOf
  rw [setupFunction_eq_steps]
  simp only [stepDenormals_targetFeatures, stepGfxIp_targetFeatures,
    stepWorkGroupSize_targetFeatures, stepNgg_targetFeatures, stepSiScheduler_targetFeatures,
    globalFeatures_eq, featurePieces, String.join, List.foldl_cons, List.foldl_nil,
    String.empty_append, String.append_assoc]

/-! ### Comma-separated token lists -/

theorem joinTokens_append (a b : List (List Char)) :
    joinTokens (a ++ b) = joinTokens a ++ joinTokens b := by
  induction a with
  | nil => rfl
  | cons t ts ih => simp [joinTokens, ih]

/-- A list without `c` that starts a list continuing with `c` lies in the part before. -/
theorem isPrefix_append_cons_iff {c : Char} {n a r : List Char} (hc : c ∉ n) :
    n <+: a ++ c :: r ↔ n <+: a := by
  constructor
  · intro h
    rcases List.prefix_or_prefix_of_prefix h (List.prefix_append a (c :: r)) with h1 | h1
    · exact h1
    · obtain ⟨x, rfl⟩ := h1
      rw [List.prefix_append_right_inj] at h
      cases x with
      | nil => simp
      | cons y ys =>
        rw [List.cons_prefix_cons] at h
        exact absurd (by simp [h.1]) hc
  · intro h
    exact h.trans (List.prefix_append a (c :: r))

/-- An occurrence of a non-empty list without `c` in `a ++ c :: r` lies in `a` or in `r`. -/
theorem isInfix_append_cons_iff {c : Char} {n r : List Char} (hc : c ∉ n) (hn : n ≠ [])
    (a : List Char) : n <:+: a ++ c :: r ↔ n <:+: a ∨ n <:+: r := by
  induction a with
  | nil =>
    have h0 : ¬ n <+: c :: r := by
      cases n with
      | nil => exact absurd rfl hn
      | cons y ys =>
        rw [List.cons_prefix_cons]
        rintro ⟨rfl, _⟩
        exact hc (List.mem_cons_self _ _)
    simp [List.infix_cons_iff, h0, hn]
  | cons x a ih =>
    rw [List.cons_append, List.infix_cons_iff, ih, List.infix_cons_iff,
      ← List.cons_append, isPrefix_append_cons_iff hc]
    tauto

/-- An occurrence of a list starting with a comma skips a comma-free segment. -/
theorem comma_isInfix_append_iff {n r : List Char} (a : List Char) (ha : ',' ∉ a) :
    (',' :: n) <:+: a ++ r ↔ (',' :: n) <:+: r := by
  induction a with
  | nil => simp
  | cons x a ih =>
    have hx : ¬ (',' = x) := fun h => ha (h ▸ List.mem_cons_self _ _)
    have ha1 : ',' ∉ a := fun h => ha (List.mem_cons_of_mem _ h)
    rw [List.cons_append, List.infix_cons_iff, ih ha1, List.cons_prefix_cons]
    simp [hx]

/-- A comma-free, non-empty list occurs in a feature string only inside one token. -/
theorem isInfix_joinTokens_iff {n : List Char} (hc : ',' ∉ n) (hn : n ≠ [])
    (toks : List (List Char)) :
    n <:+: joinTokens toks ↔ ∃ t ∈ toks, n <:+: t := by
  induction toks with
  | nil => simp [joinTokens, hn]
  | cons t ts ih =>
    have h := isInfix_append_cons_iff (r := t ++ joinTokens ts) hc hn []
    simp only [List.nil_append, List.infix_nil, hn, false_or] at h
    rw [joinTokens, h]
    cases ts with
    | nil => simp [joinTokens]
    | cons u us =>
      have e : joinTokens (u :: us) = ',' :: (u ++ joinTokens us) := rfl
      have h1 := isInfix_append_cons_iff (r := u ++ joinTokens us) hc hn []
      simp only [List.nil_append, List.infix_nil, hn, false_or] at h1
      rw [e, h1] at ih
      rw [e, isInfix_append_cons_iff hc hn, ih]
      simp

/-- A comma followed by a comma-free list occurs in a feature string with comma-free
tokens exactly when a token starts with that list. -/
theorem comma_isInfix_joinTokens_iff {n : List Char} (hc : ',' ∉ n)
    (toks : List (List Char)) (ht : ∀ t ∈ toks, ',' ∉ t) :
    (',' :: n) <:+: joinTokens toks ↔ ∃ t ∈ toks, n <+: t := by
  induction toks with
  | nil => simp [joinTokens]
  | cons t ts ih =>
    have ht0 : ',' ∉ t := ht t (List.mem_cons_self _ _)
    have ih1 := ih (fun x hx => ht x (List.mem_cons_of_mem _ hx))
    rw [joinTokens, List.infix_cons_iff, List.cons_prefix_cons, comma_isInfix_append_iff t ht0,
      ih1]
    have hp : n <+: t ++ joinTokens ts ↔ n <+: t := by
      cases ts with
      | nil => simp [joinTokens]
      | cons u us =>
        have e : joinTokens (u :: us) = ',' :: (u ++ joinTokens us) := rfl
        rw [e, isPrefix_append_cons_iff hc]
    simp [hp]

/-! ### Decimal rendering -/

theorem digitChar_isDigit (d : Nat) (h : d < 10) : (Nat.digitChar d).isDigit = true := by
  interval_cases d <;> rfl

theorem toDigitsCore_isDigit (fuel : Nat) : ∀ (n : Nat) (ds : List Char),
    (∀ c ∈ ds, c.isDigit = true) → ∀ c ∈ Nat.toDigitsCore 10 fuel n ds, c.isDigit = true := by
  induction fuel with
  | zero => intro n ds h; simpa [Nat.toDigitsCore] using h
  | succ fuel ih =>
    intro n ds h
    have hd : ∀ c ∈ (n % 10).digitChar :: ds, c.isDigit = true := by
      intro c hc
      rcases List.mem_cons.mp hc with rfl | hc
      · exact digitChar_isDigit _ (Nat.mod_lt _ (by decide))
      · exact h c hc
    simp only [Nat.toDigitsCore]
    split_ifs
    · exact hd
    · exact ih _ _ hd

/-- Every character of the decimal rendering of a number is a digit. -/
theorem toString_isDigit (n : Nat) : ∀ c ∈ (toString n).data, c.isDigit = true := by
  intro c hc
  exact toDigitsCore_isDigit (n + 1) n [] (by simp) c hc

/-! ### The tokens of the feature string -/

theorem targetFeaturesOf_data (b : Bool) (getStage : Nat → CallingConv → ShaderStage)
    (ovr : Bool) (ps : PipelineState) (cc : CallingConv) :
    (targetFeaturesOf b getStage ovr ps cc).data =
      joinTokens (featureTokens b getStage ovr ps cc) := by
  have e1 : ∀ (c : Prop) [Decidable c] (s : String) (l : List (List Char)),
      s.data = joinTokens l →
      (if c then s else "").data = joinTokens (if c then l else []) := by
    intro c _ s l h
    split_ifs
    · exact h
    · rfl
  have e64 : ∀ stage m, (fp64Fp16DenormToken stage m).data =
      joinTokens (fp64Fp16DenormTokens stage m) := by
    intro stage m
    unfold fp64Fp16DenormToken fp64Fp16DenormTokens
    split_ifs <;> rfl
  have e32 : ∀ stage m, (fp32DenormToken stage m).data =
      joinTokens (fp32DenormTokens stage m) := by
    intro stage m
    unfold fp32DenormToken fp32DenormTokens
    split_ifs <;> rfl
  rw [targetFeaturesOf_eq]
  simp only [featurePieces, featureTokens, String.join, List.foldl_cons, List.foldl_nil,
    String.data_append, joinTokens_append, e64, e32]
  rw [e1 _ ",+DumpCode" ["+DumpCode".data] rfl,
    e1 _ ",-fp32-denormals" ["-fp32-denormals".data] rfl,
    e1 _ ",+si-scheduler" ["+si-scheduler".data] rfl,
    e1 _ ",+ci-insts,+enable-ds128" ["+ci-insts".data, "+enable-ds128".data] rfl,
    e1 _ ",+enable-scratch-bounds-checks" ["+enable-scratch-bounds-checks".data] rfl,
    e1 _ _ [waveToken (ps.GetShaderWaveSize (getStage ps.GetShaderStageMask cc)),
      "+cumode".data] (by simp [joinTokens, waveToken, String.data_append])]
  rfl

theorem comma_not_mem_waveToken (w : Nat) : ',' ∉ waveToken w := by
  unfold waveToken
  rw [List.mem_append]
  rintro (h | h)
  · exact absurd h (by decide)
  · exact absurd (toString_isDigit w _ h) (by decide)

/-- No token of the feature string contains a comma. -/
theorem comma_not_mem_featureTokens (b : Bool) (getStage : Nat → CallingConv → ShaderStage)
    (ovr : Bool) (ps : PipelineState) (cc : CallingConv) :
    ∀ t ∈ featureTokens b getStage ovr ps cc, ',' ∉ t := by
  intro t ht
  have hw := comma_not_mem_waveToken (ps.GetShaderWaveSize (getStage ps.GetShaderStageMask cc))
  simp only [featureTokens, fp64Fp16DenormTokens, fp32DenormTokens, List.mem_append] at ht
  rcases ht with ((((((ht | ht) | ht) | ht) | ht) | ht) | ht) | ht <;>
    split_ifs at ht <;> simp at ht <;>
    first
      | (subst ht; decide)
      | (rcases ht with rfl | rfl <;> first | decide | exact hw)

/-- A list with a character that is neither a digit nor a character of `+wavefrontsize`
does not occur in a wavefront-size token. -/
theorem not_isInfix_waveToken {n : List Char} (c : Char) (hc : c ∈ n)
    (hd : c.isDigit = false) (hw : c ∉ "+wavefrontsize".data) (w : Nat) :
    ¬ n <:+: waveToken w := by
  intro h
  have h1 := h.subset hc
  unfold waveToken at h1
  rcases List.mem_append.mp h1 with h2 | h2
  · exact hw h2
  · rw [toString_isDigit w c h2] at hd
    exact absurd hd (by decide)

theorem isInfix_targetFeatures_iff {n : List Char} (hc : ',' ∉ n) (hn : n ≠ [])
    (b : Bool) (getStage : Nat → CallingConv → ShaderStage) (ovr : Bool)
    (ps : PipelineState) (cc : CallingConv) :
    n <:+: (targetFeaturesOf b getStage ovr ps cc).data ↔
      ∃ t ∈ featureTokens b getStage ovr ps cc, n <:+: t := by
  rw [targetFeaturesOf_data, isInfix_joinTokens_iff hc hn]

theorem comma_isInfix_targetFeatures_iff {n : List Char} (hc : ',' ∉ n)
    (b : Bool) (getStage : Nat → CallingConv → ShaderStage) (ovr : Bool)
    (ps : PipelineState) (cc : CallingConv) :
    (',' :: n) <:+: (targetFeaturesOf b getStage ovr ps cc).data ↔
      ∃ t ∈ featureTokens b getStage ovr ps cc, n <+: t := by
  rw [targetFeaturesOf_data,
    comma_isInfix_joinTokens_iff hc _ (comma_not_mem_featureTokens b getStage ovr ps cc)]

theorem exists_mem_ite_iff (c : Prop) [Decidable c] (l : List (List Char))
    (P : List Char → Prop) :
    (∃ t ∈ (if c then l else []), P t) ↔ c ∧ ∃ t ∈ l, P t := by
  split_ifs with h <;> simp [h]

/-- Which tokens a property can hold of: one disjunct per token the code can emit. -/
theorem exists_featureToken_iff (P : List Char → Prop) (b : Bool)
    (getStage : Nat → CallingConv → ShaderStage) (ovr : Bool) (ps : PipelineState)
    (cc : CallingConv) :
    (∃ t ∈ featureTokens b getStage ovr ps cc, P t) ↔
      (ps.GetOptions.includeDisassembly ≠ 0 ∧ P "+DumpCode".data) ∨
      (ovr = true ∧ P "-fp32-denormals".data) ∨
      ((ps.GetShaderOptions (getStage ps.GetShaderStageMask cc)).useSiScheduler = true ∧
        P "+si-scheduler".data) ∨
      ((b = true ∧ cc = CallingConv.AMDGPU_GS ∧ ps.GetNggControl.enableNgg = true ∧
          ps.GetNggControl.passthroughMode = false) ∧
        (P "+ci-insts".data ∨ P "+enable-ds128".data)) ∨
      (ps.GetGfxIpVersion.major ≥ 9 ∧ P "+enable-scratch-bounds-checks".data) ∨
      ((b = true ∧ ps.GetGfxIpVersion.major ≥ 10) ∧
        (P (waveToken (ps.GetShaderWaveSize (getStage ps.GetShaderStageMask cc))) ∨
          P "+cumode".data)) ∨
      (∃ t ∈ fp64Fp16DenormTokens (getStage ps.GetShaderStageMask cc)
          (ps.GetCommonShaderMode (getStage ps.GetShaderStageMask cc)), P t) ∨
      (∃ t ∈ fp32DenormTokens (getStage ps.GetShaderStageMask cc)
          (ps.GetCommonShaderMode (getStage ps.GetShaderStageMask cc)), P t) := by
  simp only [featureTokens, List.mem_append, or_and_right, exists_or, exists_mem_ite_iff,
    List.mem_cons, List.mem_singleton, List.not_mem_nil, or_false, exists_eq_left, and_or_left,
    or_assoc, Bool.true_eq_false, false_and, exists_false]

/-! ### The builder and the attributes a function ends up with -/

theorem stepSiScheduler_builder (u : Bool) (st : FuncSetup) :
    (stepSiScheduler u st).builder =
      if u then addAttribute "amdgpu-max-memory-clause" "1" st.builder else st.builder := by
  unfold stepSiScheduler
  split_ifs <;> rfl

theorem stepNgg_builder (b : Bool) (ngg : NggControl) (cc : CallingConv) (st : FuncSetup) :
    (stepNgg b ngg cc st).builder = st.builder := by
  unfold stepNgg
  split_ifs <;> rfl

theorem stepWorkGroupSize_builder (m : ComputeShaderMode) (cc : CallingConv) (st : FuncSetup) :
    (stepWorkGroupSize m cc st).builder =
      if cc = CallingConv.AMDGPU_HS then
        addAttribute "amdgpu-flat-work-group-size" "128,128" st.builder
      else if cc = CallingConv.AMDGPU_CS then
        addAttribute "amdgpu-flat-work-group-size"
          (toString (flatWorkGroupSize m) ++ "," ++ toString (flatWorkGroupSize m)) st.builder
      else st.builder := by
  unfold stepWorkGroupSize
  split_ifs with h1 h2 <;> first | rfl | (rw [h1] at h2; cases h2)

theorem stepGfxIp_builder (b : Bool) (gfxIp : GfxIpVersion) (w : Nat) (st : FuncSetup) :
    (stepGfxIp b gfxIp w st).builder = st.builder := by
  unfold stepGfxIp
  split_ifs <;> rfl

theorem stepDenormals_builder (stage : ShaderStage) (m : CommonShaderMode) (st : FuncSetup) :
    (stepDenormals stage m st).builder = st.builder := by
  unfold stepDenormals
  split_ifs <;> rfl

/-- The builder of a function: the clause cap if the scheduler is selected, the flat
work-group size for the HS and CS conventions, and the feature string, in this order. -/
theorem setupFunction_builder (b : Bool) (getStage : Nat → CallingConv → ShaderStage)
    (ovr : Bool) (ps : PipelineState) (cc : CallingConv) :
    (setupFunction b getStage ovr ps cc).builder =
      (if (ps.GetShaderOptions (getStage ps.GetShaderStageMask cc)).useSiScheduler = true
        then [("amdgpu-max-memory-clause", "1")] else []) ++
      (if cc = CallingConv.AMDGPU_HS then [("amdgpu-flat-work-group-size", "128,128")]
        else if cc = CallingConv.AMDGPU_CS then
          [("amdgpu-flat-work-group-size",
            toString (flatWorkGroupSize ps.GetComputeShaderMode) ++ "," ++
              toString (flatWorkGroupSize ps.GetComputeShaderMode))]
        else []) ++
      [("target-features", targetFeaturesOf b getStage ovr ps cc)] := by
  unfold targetFeaturesOf
  rw [setupFunction_eq_steps]
  simp only [stepDenormals_builder, stepGfxIp_builder, stepWorkGroupSize_builder,
    stepNgg_builder, stepSiScheduler_builder]
  split_ifs <;> simp [addAttribute]

theorem setupFunction_builder_nodup (b : Bool) (getStage : Nat → CallingConv → ShaderStage)
    (ovr : Bool) (ps : PipelineState) (cc : CallingConv) :
    ((setupFunction b getStage ovr ps cc).builder.map Prod.fst).Nodup := by
  rw [setupFunction_builder]
  split_ifs <;> simp

/-- What the call does to one function of the module. -/
theorem mem_zip_SetupTargetFeatures {b : Bool} {getStage : Nat → CallingConv → ShaderStage}
    {ovr : Bool} {ps : PipelineState} {m : Module} {f f1 : Function}
    (h : (f, f1) ∈ m.zip (SetupTargetFeatures b getStage ovr ps m)) :
    f1 = setupFunctionAttributes b getStage ovr ps f := by
  induction m with
  | nil => simp [SetupTargetFeatures] at h
  | cons g gs ih =>
    simp only [SetupTargetFeatures, List.map_cons, List.zip_cons_cons, List.mem_cons,
      Prod.mk.injEq] at h
    rcases h with ⟨rfl, rfl⟩ | h
    · rfl
    · exact ih h

/-- The attributes of a non-empty function of external linkage after the call. -/
theorem attrs_of_mem_zip {b : Bool} {getStage : Nat → CallingConv → ShaderStage}
    {ovr : Bool} {ps : PipelineState} {m : Module} {f f1 : Function}
    (h : (f, f1) ∈ m.zip (SetupTargetFeatures b getStage ovr ps m))
    (hne : f.empty = false) (hext : f.linkage = LinkageTypes.ExternalLinkage) :
    f1.attrs = addAttributes f.attrs (setupFunction b getStage ovr ps f.callingConv).builder := by
  rw [mem_zip_SetupTargetFeatures h]
  simp [setupFunctionAttributes, hne, hext]

/-- An attribute of the builder is an attribute of the function after the call. -/
theorem getAttribute_of_mem_builder {b : Bool} {getStage : Nat → CallingConv → ShaderStage}
    {ovr : Bool} {ps : PipelineState} {m : Module} {f f1 : Function}
    (h : (f, f1) ∈ m.zip (SetupTargetFeatures b getStage ovr ps m))
    (hne : f.empty = false) (hext : f.linkage = LinkageTypes.ExternalLinkage)
    (kv : String × String)
    (hkv : kv ∈ (setupFunction b getStage ovr ps f.callingConv).builder) :
    getAttribute kv.1 f1.attrs = some kv.2 := by
  rw [attrs_of_mem_zip h hne hext]
  exact getAttribute_addAttributes_of_mem _ _ (setupFunction_builder_nodup _ _ _ _ _) kv hkv

/-- The feature string is attached to every non-empty function of external linkage. -/
theorem getAttribute_targetFeatures {b : Bool} {getStage : Nat → CallingConv → ShaderStage}
    {ovr : Bool} {ps : PipelineState} {m : Module} {f f1 : Function}
    (h : (f, f1) ∈ m.zip (SetupTargetFeatures b getStage ovr ps m))
    (hne : f.empty = false) (hext : f.linkage = LinkageTypes.ExternalLinkage) :
    getAttribute "target-features" f1.attrs =
      some (targetFeaturesOf b getStage ovr ps f.callingConv) := by
  refine getAttribute_of_mem_builder h hne hext
    ("target-features", targetFeaturesOf b getStage ovr ps f.callingConv) ?_
  rw [setupFunction_builder]
  simp

/-! ### Concatenation of a list of strings -/

theorem foldl_append_eq (l : List String) (s : String) :
    l.foldl (fun r x => r ++ x) s = s ++ String.join l := by
  induction l generalizing s with
  | nil => simp [String.join]
  | cons x xs ih =>
    simp only [String.join, List.foldl_cons]
    rw [ih, ih ("" ++ x)]
    simp [String.join, String.append_assoc]

theorem join_append (a c : List String) :
    String.join (a ++ c) = String.join a ++ String.join c := by
  simp only [String.join, List.foldl_append]
  rw [foldl_append_eq]
  rfl

/-- The concatenation of the first `k` strings starts the concatenation of all of them. -/
theorem join_take_isPrefix (l : List String) (k : Nat) :
    (String.join (l.take k)).data <+: (String.join l).data := by
  conv_rhs => rw [← List.take_append_drop k l]
  rw [join_append, String.data_append]
  exact List.prefix_append _ _

/-! ### Facts used by single claims -/

/-- The two `uint32_t` multiplications amount to the product modulo `2 ^ 32`. -/
theorem flatWorkGroupSize_eq_mod (m : ComputeShaderMode) :
    flatWorkGroupSize m = (m.workgroupSizeX * m.workgroupSizeY * m.workgroupSizeZ) % 2 ^ 32 := by
  unfold flatWorkGroupSize
  rw [Nat.mod_mul_mod]

/-- The flat work-group size attribute of a compute function after the call. -/
theorem getAttribute_flatWorkGroupSize_cs {b : Bool}
    {getStage : Nat → CallingConv → ShaderStage}
    {ovr : Bool} {ps : PipelineState} {m : Module} {f f1 : Function}
    (h : (f, f1) ∈ m.zip (SetupTargetFeatures b getStage ovr ps m))
    (hne : f.empty = false) (hext : f.linkage = LinkageTypes.ExternalLinkage)
    (hcs : f.callingConv = CallingConv.AMDGPU_CS) :
    getAttribute "amdgpu-flat-work-group-size" f1.attrs =
      some (toString (flatWorkGroupSize ps.GetComputeShaderMode) ++ "," ++
        toString (flatWorkGroupSize ps.GetComputeShaderMode)) := by
  refine getAttribute_of_mem_builder h hne hext
    ("amdgpu-flat-work-group-size", toString (flatWorkGroupSize ps.GetComputeShaderMode) ++ "," ++
        toString (flatWorkGroupSize ps.GetComputeShaderMode)) ?_
  rw [setupFunction_builder, hcs]
  simp

theorem exists_fp64Fp16DenormToken_iff (P : List Char → Prop) (stage : ShaderStage)
    (m : CommonShaderMode) :
    (∃ t ∈ fp64Fp16DenormTokens stage m, P t) ↔
      stage ≠ ShaderStage.ShaderStageCopyShader ∧
        (((m.fp16DenormMode = FpDenormMode.FlushNone ∨ m.fp16DenormMode = FpDenormMode.FlushIn ∨
            m.fp64DenormMode = FpDenormMode.FlushNone ∨
            m.fp64DenormMode = FpDenormMode.FlushIn) ∧ P "+fp64-fp16-denormals".data) ∨
          (¬ (m.fp16DenormMode = FpDenormMode.FlushNone ∨
              m.fp16DenormMode = FpDenormMode.FlushIn ∨
              m.fp64DenormMode = FpDenormMode.FlushNone ∨
              m.fp64DenormMode = FpDenormMode.FlushIn) ∧
            (m.fp16DenormMode = FpDenormMode.FlushOut ∨
              m.fp16DenormMode = FpDenormMode.FlushInOut ∨
              m.fp64DenormMode = FpDenormMode.FlushOut ∨
              m.fp64DenormMode = FpDenormMode.FlushInOut) ∧
            P "-fp64-fp16-denormals".data)) := by
  unfold fp64Fp16DenormTokens
  split_ifs <;> simp_all

theorem exists_fp32DenormToken_iff (P : List Char → Prop) (stage : ShaderStage)
    (m : CommonShaderMode) :
    (∃ t ∈ fp32DenormTokens stage m, P t) ↔
      stage ≠ ShaderStage.ShaderStageCopyShader ∧
        (((m.fp32DenormMode = FpDenormMode.FlushNone ∨
            m.fp32DenormMode = FpDenormMode.FlushIn) ∧ P "+fp32-denormals".data) ∨
          (¬ (m.fp32DenormMode = FpDenormMode.FlushNone ∨
              m.fp32DenormMode = FpDenormMode.FlushIn) ∧
            (m.fp32DenormMode = FpDenormMode.FlushOut ∨
              m.fp32DenormMode = FpDenormMode.FlushInOut) ∧
            P "-fp32-denormals".data)) := by
  unfold fp32DenormTokens
  split_ifs <;> simp_all

/-- The feature string ends with the fp32 denormal piece. -/
theorem targetFeaturesOf_isSuffix (b : Bool) (getStage : Nat → CallingConv → ShaderStage)
    (ovr : Bool) (ps : PipelineState) (cc : CallingConv) :
    (fp32DenormToken (getStage ps.GetShaderStageMask cc)
        (ps.GetCommonShaderMode (getStage ps.GetShaderStageMask cc))).data <:+
      (targetFeaturesOf b getStage ovr ps cc).data := by
  rw [targetFeaturesOf_eq]
  simp only [featurePieces, String.join, List.foldl_cons, List.foldl_nil, String.data_append]
  exact List.suffix_append _ _

/-- Occurrences of a comma-free needle in the feature string that avoid the wavefront-size
token, spelled out token by token. -/
theorem isInfix_targetFeatures_expand {n : List Char} (hc : ',' ∉ n) (hn : n ≠ [])
    (b : Bool) (getStage : Nat → CallingConv → ShaderStage) (ovr : Bool)
    (ps : PipelineState) (cc : CallingConv) :
    n <:+: (targetFeaturesOf b getStage ovr ps cc).data ↔
      (ps.GetOptions.includeDisassembly ≠ 0 ∧ n <:+: "+DumpCode".data) ∨
      (ovr = true ∧ n <:+: "-fp32-denormals".data) ∨
      ((ps.GetShaderOptions (getStage ps.GetShaderStageMask cc)).useSiScheduler = true ∧
        n <:+: "+si-scheduler".data) ∨
      ((b = true ∧ cc = CallingConv.AMDGPU_GS ∧ ps.GetNggControl.enableNgg = true ∧
          ps.GetNggControl.passthroughMode = false) ∧
        (n <:+: "+ci-insts".data ∨ n <:+: "+enable-ds128".data)) ∨
      (ps.GetGfxIpVersion.major ≥ 9 ∧ n <:+: "+enable-scratch-bounds-checks".data) ∨
      ((b = true ∧ ps.GetGfxIpVersion.major ≥ 10) ∧
        (n <:+: waveToken (ps.GetShaderWaveSize (getStage ps.GetShaderStageMask cc)) ∨
          n <:+: "+cumode".data)) ∨
      (∃ t ∈ fp64Fp16DenormTokens (getStage ps.GetShaderStageMask cc)
          (ps.GetCommonShaderMode (getStage ps.GetShaderStageMask cc)), n <:+: t) ∨
      (∃ t ∈ fp32DenormTokens (getStage ps.GetShaderStageMask cc)
          (ps.GetCommonShaderMode (getStage ps.GetShaderStageMask cc)), n <:+: t) := by
  rw [isInfix_targetFeatures_iff hc hn, exists_featureToken_iff]

theorem setupFunctionAttributes_idem (b : Bool) (getStage : Nat → CallingConv → ShaderStage)
    (ovr : Bool) (ps : PipelineState) (f : Function) :
    setupFunctionAttributes b getStage ovr ps (setupFunctionAttributes b getStage ovr ps f) =
      setupFunctionAttributes b getStage ovr ps f := by
  by_cases h : f.empty = false ∧ f.linkage = LinkageTypes.ExternalLinkage
  · have e : setupFunctionAttributes b getStage ovr ps f =
        { f with attrs := (addAttributes f.attrs
            (setupFunction b getStage ovr ps f.callingConv).builder) } := by
      simp only [setupFunctionAttributes, h, and_self, if_true]
    rw [e]
    simp only [setupFunctionAttributes, h, and_self, if_true]
    rw [addAttributes_idem _ _ (setupFunction_builder_nodup b getStage ovr ps f.callingConv)]
  · have e : setupFunctionAttributes b getStage ovr ps f = f := by
      simp only [setupFunctionAttributes, h, if_false]
    rw [e, e]

theorem joinTokens_eq_nil_or_head (l : List (List Char)) :
    joinTokens l = [] ∨ (joinTokens l).head? = some ',' := by
  cases l with
  | nil => exact Or.inl rfl
  | cons t ts => exact Or.inr rfl

/-! ### Facts used by the claims on NGG, the hardware generation and the copy shader -/

/-- With the disable-NGG bit set the modelled NGG control has NGG switched off. -/
theorem nggControlFromFlags_enableNgg_of_disable (nggFlags : Nat) (wantNgg wantPassthrough : Bool)
    (h : nggFlags &&& NggFlagDisable ≠ 0) :
    (nggControlFromFlags nggFlags wantNgg wantPassthrough).enableNgg = false := by
  simp [nggControlFromFlags, hasFlag, h]

/-- The wavefront-size and CU-mode tokens stand next to each other in the feature string of
a GFX10 target. -/
theorem waveCumode_isInfix (getStage : Nat → CallingConv → ShaderStage) (ovr : Bool)
    (ps : PipelineState) (cc : CallingConv) (h : ps.GetGfxIpVersion.major ≥ 10) :
    (",+wavefrontsize" ++ toString (ps.GetShaderWaveSize (getStage ps.GetShaderStageMask cc)) ++
        ",+cumode").data <:+: (targetFeaturesOf true getStage ovr ps cc).data := by
  rw [targetFeaturesOf_eq]
  simp only [featurePieces, String.join, List.foldl_cons, List.foldl_nil, String.data_append,
    h, true_and, if_true]
  exact ⟨_, _, (List.append_assoc _ _ _).symm⟩

/-- A token that is a comma-free list followed by a comma in the feature string is one of
the tokens. -/
theorem mem_of_comma_isInfix_joinTokens {t r : List Char} (ht : ',' ∉ t)
    (toks : List (List Char)) (hts : ∀ u ∈ toks, ',' ∉ u)
    (h : (',' :: (t ++ ',' :: r)) <:+: joinTokens toks) : t ∈ toks := by
  induction toks with
  | nil => simp [joinTokens] at h
  | cons u us ih =>
    have hu : ',' ∉ u := hts u (List.mem_cons_self _ _)
    rw [joinTokens, List.infix_cons_iff, List.cons_prefix_cons,
      comma_isInfix_append_iff u hu] at h
    rcases h with ⟨_, h⟩ | h
    · have h1 : t <+: u ++ joinTokens us := (List.prefix_append t (',' :: r)).trans h
      have h2 : t <+: u := by
        cases us with
        | nil => simpa [joinTokens] using h1
        | cons v vs =>
          have e : joinTokens (v :: vs) = ',' :: (v ++ joinTokens vs) := rfl
          rwa [e, isPrefix_append_cons_iff ht] at h1
      obtain ⟨x, rfl⟩ := h2
      cases x with
      | nil => simp
      | cons y ys =>
        rw [List.append_assoc, List.prefix_append_right_inj, List.cons_append,
          List.cons_prefix_cons] at h
        exact absurd (h.1 ▸ List.mem_append_right t (List.mem_cons_self _ _)) hu
    · exact List.mem_cons_of_mem _ (ih (fun x hx => hts x (List.mem_cons_of_mem _ hx)) h)

/-- A `+wavefrontsize` token that is followed by `,+cumode` in the feature string is one of
its tokens. -/
theorem wavefrontsize_token_mem (d : List Char) (hd : ',' ∉ d) (b : Bool)
    (getStage : Nat → CallingConv → ShaderStage) (ovr : Bool) (ps : PipelineState)
    (cc : CallingConv)
    (h : ",+wavefrontsize".data ++ d ++ ",+cumode".data <:+:
      (targetFeaturesOf b getStage ovr ps cc).data) :
    "+wavefrontsize".data ++ d ∈ featureTokens b getStage ovr ps cc := by
  rw [targetFeaturesOf_data] at h
  refine mem_of_comma_isInfix_joinTokens (r := "+cumode".data) ?_ _
    (comma_not_mem_featureTokens b getStage ovr ps cc) ?_
  · rw [List.mem_append]
    rintro (h1 | h1)
    · exact absurd h1 (by decide)
    · exact hd h1
  · have e : ',' :: ("+wavefrontsize".data ++ d ++ ',' :: "+cumode".data) =
        ",+wavefrontsize".data ++ d ++ ",+cumode".data := rfl
    rw [e]
    exact h

/-- The only token of the feature string that starts with `+wavefrontsize` carries the
digits of the wave size of the function's stage. -/
theorem wavefrontsize_token_eq (d : List Char) (b : Bool)
    (getStage : Nat → CallingConv → ShaderStage) (ovr : Bool) (ps : PipelineState)
    (cc : CallingConv)
    (h : "+wavefrontsize".data ++ d ∈ featureTokens b getStage ovr ps cc) :
    d = (toString (ps.GetShaderWaveSize (getStage ps.GetShaderStageMask cc))).data := by
  have h1 : ∃ t ∈ featureTokens b getStage ovr ps cc, t = "+wavefrontsize".data ++ d :=
    ⟨_, h, rfl⟩
  rw [exists_featureToken_iff, exists_fp64Fp16DenormToken_iff, exists_fp32DenormToken_iff] at h1
  simp [waveToken] at h1
  exact h1.2.symm

/-- For the copy shader the feature string ends after the wavefront-size and CU-mode
piece. -/
theorem targetFeaturesOf_copyShader (b : Bool) (getStage : Nat → CallingConv → ShaderStage)
    (ovr : Bool) (ps : PipelineState) (cc : CallingConv)
    (hstage : getStage ps.GetShaderStageMask cc = ShaderStage.ShaderStageCopyShader) :
    targetFeaturesOf b getStage ovr ps cc =
      String.join ((featurePieces b getStage ovr ps cc).take 6) := by
  rw [targetFeaturesOf_eq]
  simp [featurePieces, fp64Fp16DenormToken, fp32DenormToken, hstage, String.join]

/-- An attribute found by lookup is an entry of the attribute set. -/
theorem mem_of_getAttribute {k v : String} {a : AttrBuilder} (h : getAttribute k a = some v) :
    (k, v) ∈ a := by
  induction a with
  | nil => simp [getAttribute] at h
  | cons kv rest ih =>
    obtain ⟨k0, v0⟩ := kv
    by_cases h0 : k0 = k
    · subst h0
      simp [getAttribute] at h
      simp [h]
    · simp [getAttribute, h0] at h
      exact List.mem_cons_of_mem _ (ih h)

/-! ### NGG flag words -/

/-- Testing the flag `2 ^ i` reads bit `i` of the word. -/
theorem hasFlag_two_pow (w i : Nat) : hasFlag w (2 ^ i) = w.testBit i := by
  unfold hasFlag
  rw [Nat.and_two_pow]
  cases h : w.testBit i <;> simp [h]

/-- The flags are the powers of two with exponents 0 to 12. -/
theorem mem_allNggFlags_iff (f : Nat) : f ∈ allNggFlags ↔ ∃ i, i < 13 ∧ f = 2 ^ i := by
  have e : allNggFlags = (List.range 13).map (fun i => 2 ^ i) := by decide
  rw [e]
  simp only [List.mem_map, List.mem_range]
  constructor
  · rintro ⟨i, hi, rfl⟩
    exact ⟨i, hi, rfl⟩
  · rintro ⟨i, hi, rfl⟩
    exact ⟨i, hi, rfl⟩

/-- Bit `i` of the word of a collection of flags is set exactly when a member has it. -/
theorem testBit_orFlags (s : List Nat) (i : Nat) :
    (orFlags s).testBit i = s.any (fun x => x.testBit i) := by
  induction s with
  | nil => simp [orFlags]
  | cons x xs ih =>
    have e : orFlags (x :: xs) = x ||| orFlags xs := rfl
    rw [e, Nat.testBit_or, ih, List.any_cons]

/-- A flag is set in the word of a collection of flags exactly when it is a member. -/
theorem hasFlag_orFlags_iff (s : List Nat) (hs : s ⊆ allNggFlags) (f : Nat)
    (hf : f ∈ allNggFlags) : hasFlag (orFlags s) f = true ↔ f ∈ s := by
  obtain ⟨i, _, rfl⟩ := (mem_allNggFlags_iff f).mp hf
  rw [hasFlag_two_pow, testBit_orFlags, List.any_eq_true]
  constructor
  · rintro ⟨x, hx, hbit⟩
    obtain ⟨j, _, rfl⟩ := (mem_allNggFlags_iff x).mp (hs hx)
    rw [Nat.testBit_two_pow, decide_eq_true_eq] at hbit
    rw [← hbit]
    exact hx
  · intro h
    exact ⟨2 ^ i, h, Nat.testBit_two_pow_self⟩

/-- Setting or clearing the flag `2 ^ j` leaves every other bit below 32 of the word as it
was. -/
theorem testBit_setFlag_clearFlag (w i j : Nat) (hij : i ≠ j) (hi : i < 32) :
    (setFlag w (2 ^ j)).testBit i = w.testBit i ∧
      (clearFlag w (2 ^ j)).testBit i = w.testBit i := by
  have e : (0xFFFFFFFF : Nat) = 2 ^ 32 - 1 := by decide
  have hji : ¬ j = i := fun h => hij h.symm
  have hFF : (0xFFFFFFFF : Nat).testBit i = true := by
    rw [e, Nat.testBit_two_pow_sub_one]
    exact decide_eq_true hi
  constructor
  · simp [setFlag, Nat.testBit_or, Nat.testBit_two_pow, hji]
  · unfold clearFlag
    rw [Nat.testBit_and, Nat.testBit_xor, hFF, Nat.testBit_two_pow]
    simp [hji]

/-- The later `SetShaderOptions` calls do not touch the pipeline options. -/
theorem GetOptions_foldl_SetShaderOptions (calls : List (ShaderStage × ShaderOptions))
    (ps : PipelineState) :
    (calls.foldl (fun st c => SetShaderOptions st c.1 c.2) ps).GetOptions = ps.GetOptions := by
  induction calls generalizing ps with
  | nil => rfl
  | cons c cs ih =>
    rw [List.foldl_cons, ih]
    rfl

/-- Every string of a list occurs in the concatenation of the list. -/
theorem data_isInfix_join_of_mem (l : List String) (p : String) (hp : p ∈ l) :
    p.data <:+: (String.join l).data := by
  obtain ⟨a, c, rfl⟩ := List.append_of_mem hp
  have e : p :: c = [p] ++ c := rfl
  have e1 : String.join [p] = p := by simp [String.join]
  rw [join_append, e, join_append, e1, String.data_append, String.data_append]
  exact List.infix_append' _ _ _

/-- Under NGG in non-passthrough mode the two merged-primitive-shader tokens stand in the
feature string of a GS-convention function. -/
theorem nggPiece_isInfix (getStage : Nat → CallingConv → ShaderStage) (ovr : Bool)
    (ps : PipelineState) (cc : CallingConv)
    (h : cc = CallingConv.AMDGPU_GS ∧ ps.GetNggControl.enableNgg = true ∧
      ps.GetNggControl.passthroughMode = false) :
    ",+ci-insts,+enable-ds128".data <:+: (targetFeaturesOf true getStage ovr ps cc).data := by
  rw [targetFeaturesOf_eq]
  apply data_isInfix_join_of_mem
  simp [featurePieces, h]

/-! ### Counting occurrences in a token list -/

theorem countOccurrences_nil {n : List Char} (hn : n ≠ []) : countOccurrences n [] = 0 := by
  simp [countOccurrences, hn]

theorem countOccurrences_cons (n : List Char) (c : Char) (s : List Char) :
    countOccurrences n (c :: s) =
      (if n <+: c :: s then 1 else 0) + countOccurrences n s := rfl

/-- A list that does not occur has no occurrence. -/
theorem countOccurrences_eq_zero {n : List Char} (hn : n ≠ []) (s : List Char)
    (h : ¬ n <:+: s) : countOccurrences n s = 0 := by
  induction s with
  | nil => exact countOccurrences_nil hn
  | cons c s ih =>
    rw [List.infix_cons_iff, not_or] at h
    rw [countOccurrences_cons, if_neg h.1, ih h.2]

/-- A list that has an occurrence occurs. -/
theorem isInfix_of_countOccurrences_pos {n : List Char} (hn : n ≠ []) (s : List Char)
    (h : 0 < countOccurrences n s) : n <:+: s := by
  by_contra h1
  rw [countOccurrences_eq_zero hn s h1] at h
  exact absurd h (by decide)

/-- Occurrences of a comma-free non-empty list on both sides of a comma add up. -/
theorem countOccurrences_append_comma {n r : List Char} (hc : ',' ∉ n) (hn : n ≠ [])
    (a : List Char) :
    countOccurrences n (a ++ ',' :: r) = countOccurrences n a + countOccurrences n r := by
  induction a with
  | nil =>
    have h0 : ¬ n <+: ',' :: r := by
      cases n with
      | nil => exact absurd rfl hn
      | cons y ys =>
        rw [List.cons_prefix_cons]
        rintro ⟨rfl, _⟩
        exact hc (List.mem_cons_self _ _)
    rw [List.nil_append, countOccurrences_cons, if_neg h0, countOccurrences_nil hn]
  | cons x a ih =>
    rw [List.cons_append, countOccurrences_cons, countOccurrences_cons, ih,
      ← List.cons_append]
    simp only [isPrefix_append_cons_iff hc]
    omega

/-- Occurrences of a comma-free non-empty list in a feature string, token by token. -/
theorem countOccurrences_joinTokens {n : List Char} (hc : ',' ∉ n) (hn : n ≠ [])
    (toks : List (List Char)) :
    countOccurrences n (joinTokens toks) = (toks.map (countOccurrences n)).sum := by
  induction toks with
  | nil => simp [joinTokens, countOccurrences_nil hn]
  | cons t ts ih =>
    have h := countOccurrences_append_comma (r := t ++ joinTokens ts) hc hn []
    rw [List.nil_append, countOccurrences_nil hn, Nat.zero_add] at h
    have e : joinTokens (t :: ts) = ',' :: (t ++ joinTokens ts) := rfl
    rw [e, h, List.map_cons, List.sum_cons, ← ih]
    cases ts with
    | nil => simp [joinTokens, countOccurrences_nil hn]
    | cons u us =>
      have e2 : joinTokens (u :: us) = ',' :: (u ++ joinTokens us) := rfl
      have h2 := countOccurrences_append_comma (r := u ++ joinTokens us) hc hn []
      rw [List.nil_append, countOccurrences_nil hn, Nat.zero_add] at h2
      rw [e2, countOccurrences_append_comma hc hn, h2]

/-- Occurrences of a list starting with a comma skip a comma-free segment. -/
theorem countOccurrences_comma_append {n r : List Char} (a : List Char) (ha : ',' ∉ a) :
    countOccurrences (',' :: n) (a ++ r) = countOccurrences (',' :: n) r := by
  induction a with
  | nil => rfl
  | cons x a ih =>
    have hx : ¬ (',' = x) := fun h => ha (h ▸ List.mem_cons_self _ _)
    have ha1 : ',' ∉ a := fun h => ha (List.mem_cons_of_mem _ h)
    rw [List.cons_append, countOccurrences_cons, ih ha1]
    simp [List.cons_prefix_cons, hx]

/-- Occurrences of a comma followed by a comma-free list in a feature string: the tokens
that start with the list. -/
theorem countOccurrences_comma_joinTokens {n : List Char} (hc : ',' ∉ n)
    (toks : List (List Char)) (ht : ∀ t ∈ toks, ',' ∉ t) :
    countOccurrences (',' :: n) (joinTokens toks) =
      (toks.map (fun t => if n <+: t then 1 else 0)).sum := by
  induction toks with
  | nil => simp [joinTokens, countOccurrences]
  | cons t ts ih =>
    have ht0 : ',' ∉ t := ht t (List.mem_cons_self _ _)
    have ih1 := ih (fun x hx => ht x (List.mem_cons_of_mem _ hx))
    have e : joinTokens (t :: ts) = ',' :: (t ++ joinTokens ts) := rfl
    have hp : n <+: t ++ joinTokens ts ↔ n <+: t := by
      cases ts with
      | nil => simp [joinTokens]
      | cons u us =>
        have e2 : joinTokens (u :: us) = ',' :: (u ++ joinTokens us) := rfl
        rw [e2, isPrefix_append_cons_iff hc]
    rw [e, countOccurrences_cons, countOccurrences_comma_append t ht0, ih1, List.map_cons,
      List.sum_cons]
    simp [List.cons_prefix_cons, hp]

theorem sum_map_ite (c : Prop) [Decidable c] (l : List (List Char)) (g : List Char → Nat) :
    ((if c then l else []).map g).sum = if c then (l.map g).sum else 0 := by
  split_ifs <;> simp

theorem sum_map_fp64Fp16DenormTokens (g : List Char → Nat) (stage : ShaderStage)
    (m : CommonShaderMode) :
    ((fp64Fp16DenormTokens stage m).map g).sum =
      if stage = ShaderStage.ShaderStageCopyShader then 0
      else if m.fp16DenormMode = FpDenormMode.FlushNone ∨
          m.fp16DenormMode = FpDenormMode.FlushIn ∨
          m.fp64DenormMode = FpDenormMode.FlushNone ∨
          m.fp64DenormMode = FpDenormMode.FlushIn then g "+fp64-fp16-denormals".data
      else if m.fp16DenormMode = FpDenormMode.FlushOut ∨
          m.fp16DenormMode = FpDenormMode.FlushInOut ∨
          m.fp64DenormMode = FpDenormMode.FlushOut ∨
          m.fp64DenormMode = FpDenormMode.FlushInOut then g "-fp64-fp16-denormals".data
      else 0 := by
  unfold fp64Fp16DenormTokens
  split_ifs <;> simp

theorem sum_map_fp32DenormTokens (g : List Char → Nat) (stage : ShaderStage)
    (m : CommonShaderMode) :
    ((fp32DenormTokens stage m).map g).sum =
      if stage = ShaderStage.ShaderStageCopyShader then 0
      else if m.fp32DenormMode = FpDenormMode.FlushNone ∨
          m.fp32DenormMode = FpDenormMode.FlushIn then g "+fp32-denormals".data
      else if m.fp32DenormMode = FpDenormMode.FlushOut ∨
          m.fp32DenormMode = FpDenormMode.FlushInOut then g "-fp32-denormals".data
      else 0 := by
  unfold fp32DenormTokens
  split_ifs <;> simp

/-- A sum over the tokens of the feature string, one summand per token the code can
emit. -/
theorem sum_map_featureTokens (g : List Char → Nat) (b : Bool)
    (getStage : Nat → CallingConv → ShaderStage) (ovr : Bool) (ps : PipelineState)
    (cc : CallingConv) :
    ((featureTokens b getStage ovr ps cc).map g).sum =
      (if ps.GetOptions.includeDisassembly ≠ 0 then g "+DumpCode".data else 0) +
      (if ovr = true then g "-fp32-denormals".data else 0) +
      (if (ps.GetShaderOptions (getStage ps.GetShaderStageMask cc)).useSiScheduler = true
        then g "+si-scheduler".data else 0) +
      (if b = true ∧ cc = CallingConv.AMDGPU_GS ∧ ps.GetNggControl.enableNgg = true ∧
          ps.GetNggControl.passthroughMode = false
        then g "+ci-insts".data + g "+enable-ds128".data else 0) +
      (if ps.GetGfxIpVersion.major ≥ 9 then g "+enable-scratch-bounds-checks".data else 0) +
      (if b = true ∧ ps.GetGfxIpVersion.major ≥ 10
        then g (waveToken (ps.GetShaderWaveSize (getStage ps.GetShaderStageMask cc))) +
          g "+cumode".data else 0) +
      ((fp64Fp16DenormTokens (getStage ps.GetShaderStageMask cc)
          (ps.GetCommonShaderMode (getStage ps.GetShaderStageMask cc))).map g).sum +
      ((fp32DenormTokens (getStage ps.GetShaderStageMask cc)
          (ps.GetCommonShaderMode (getStage ps.GetShaderStageMask cc))).map g).sum := by
  simp only [featureTokens, List.map_append, List.sum_append, sum_map_ite, List.map_cons,
    List.map_nil, List.sum_cons, List.sum_nil, Nat.add_zero]

/-- Occurrences of a comma-free non-empty list in the feature string, token by token. -/
theorem countOccurrences_targetFeatures {n : List Char} (hc : ',' ∉ n) (hn : n ≠ [])
    (b : Bool) (getStage : Nat → CallingConv → ShaderStage) (ovr : Bool)
    (ps : PipelineState) (cc : CallingConv) :
    countOccurrences n (targetFeaturesOf b getStage ovr ps cc).data =
      ((featureTokens b getStage ovr ps cc).map (countOccurrences n)).sum := by
  rw [targetFeaturesOf_data, countOccurrences_joinTokens hc hn]

/-- Occurrences of a comma followed by a comma-free list in the feature string: the tokens
that start with the list. -/
theorem countOccurrences_comma_targetFeatures {n : List Char} (hc : ',' ∉ n)
    (b : Bool) (getStage : Nat → CallingConv → ShaderStage) (ovr : Bool)
    (ps : PipelineState) (cc : CallingConv) :
    countOccurrences (',' :: n) (targetFeaturesOf b getStage ovr ps cc).data =
      ((featureTokens b getStage ovr ps cc).map (fun t => if n <+: t then 1 else 0)).sum := by
  rw [targetFeaturesOf_data,
    countOccurrences_comma_joinTokens hc _ (comma_not_mem_featureTokens b getStage ovr ps cc)]

/-- The combined denormal piece does not change when the two modes are exchanged. -/
theorem fp64Fp16DenormToken_swap (stage : ShaderStage) (m : CommonShaderMode) :
    fp64Fp16DenormToken stage (swapFp16Fp64 m) = fp64Fp16DenormToken stage m := by
  unfold fp64Fp16DenormToken swapFp16Fp64
  cases h16 : m.fp16DenormMode <;> cases h64 : m.fp64DenormMode <;> simp

theorem fp32DenormToken_swap (stage : ShaderStage) (m : CommonShaderMode) :
    fp32DenormToken stage (swapFp16Fp64 m) = fp32DenormToken stage m := rfl

/-- The feature string does not change when the fp16 and the fp64 denormal mode of every
stage are exchanged. -/
theorem targetFeaturesOf_swap (b : Bool) (getStage : Nat → CallingConv → ShaderStage)
    (ovr : Bool) (ps : PipelineState) (cc : CallingConv) :
    targetFeaturesOf b getStage ovr
        { ps with GetCommonShaderMode := fun st => swapFp16Fp64 (ps.GetCommonShaderMode st) } cc =
      targetFeaturesOf b getStage ovr ps cc := by
  rw [targetFeaturesOf_eq, targetFeaturesOf_eq]
  simp only [featurePieces, fp64Fp16DenormToken_swap, fp32DenormToken_swap]

/-- In a concatenation of eight segments the second one stands before the last one. -/
theorem exists_between_split (A M B C D E F P : List Char) :
    ∃ x y z : List Char,
      [] ++ A ++ M ++ B ++ C ++ D ++ E ++ F ++ P = x ++ M ++ y ++ P ++ z :=
  ⟨A, B ++ (C ++ (D ++ (E ++ F))), [], by simp⟩

/-! ### The shape of the feature string -/

/-- Every token of the feature string begins with `+` or `-`. -/
theorem featureTokens_head (b : Bool) (getStage : Nat → CallingConv → ShaderStage)
    (ovr : Bool) (ps : PipelineState) (cc : CallingConv) :
    ∀ t ∈ featureTokens b getStage ovr ps cc,
      ∃ rest : List Char, t = '+' :: rest ∨ t = '-' :: rest := by
  intro t ht
  have h : ∃ u ∈ featureTokens b getStage ovr ps cc, u = t := ⟨t, ht, rfl⟩
  rw [exists_featureToken_iff, exists_fp64Fp16DenormToken_iff,
    exists_fp32DenormToken_iff] at h
  rcases h with ⟨_, h⟩ | ⟨_, h⟩ | ⟨_, h⟩ | ⟨_, h | h⟩ | ⟨_, h⟩ | ⟨_, h | h⟩ |
    ⟨_, ⟨_, h⟩ | ⟨_, _, h⟩⟩ | ⟨_, ⟨_, h⟩ | ⟨_, _, h⟩⟩ <;>
    subst h <;> first
      | exact ⟨_, Or.inl rfl⟩
      | exact ⟨_, Or.inr rfl⟩

/-- A feature string whose tokens are non-empty and comma-free does not end with a comma. -/
theorem joinTokens_getLast (toks : List (List Char))
    (h : ∀ t ∈ toks, t ≠ [] ∧ ',' ∉ t) : (joinTokens toks).getLast? ≠ some ',' := by
  induction toks with
  | nil => simp [joinTokens]
  | cons t ts ih =>
    have ht := h t (List.mem_cons_self _ _)
    have ih1 := ih (fun x hx => h x (List.mem_cons_of_mem _ hx))
    have e : joinTokens (t :: ts) = [','] ++ t ++ joinTokens ts := by simp [joinTokens]
    rw [e, List.getLast?_append]
    intro hlast
    cases hJ : (joinTokens ts).getLast? with
    | some c =>
      rw [hJ] at hlast ih1
      simp at hlast
      exact ih1 (by rw [hlast])
    | none =>
      rw [hJ, List.getLast?_append] at hlast
      obtain ⟨c, hc⟩ : ∃ c, t.getLast? = some c := by
        cases t with
        | nil => exact absurd rfl ht.1
        | cons x xs => exact ⟨_, List.getLast?_eq_getLast _ (List.cons_ne_nil _ _)⟩
      rw [hc] at hlast
      simp at hlast
      have hmem : c ∈ t := List.mem_of_getLast?_eq_some hc
      exact ht.2 (hlast ▸ hmem)

/-- The characters of a feature string are its tokens, preceded by an empty element, joined
by commas. -/
theorem intercalate_cons_eq_joinTokens (x : List Char) (toks : List (List Char)) :
    [','].intercalate (x :: toks) = x ++ joinTokens toks := by
  induction toks generalizing x with
  | nil => simp [List.intercalate, joinTokens]
  | cons t ts ih =>
    have e : [','].intercalate (x :: t :: ts) = x ++ [','] ++ [','].intercalate (t :: ts) := by
      simp [List.intercalate]
    rw [e, ih, joinTokens]
    simp

/-- Splitting a feature string at the commas gives an empty first element and then the
tokens. -/
theorem splitOn_joinTokens (toks : List (List Char)) (h : ∀ t ∈ toks, ',' ∉ t) :
    (joinTokens toks).splitOn ',' = [] :: toks := by
  have e := intercalate_cons_eq_joinTokens [] toks
  rw [List.nil_append] at e
  rw [← e]
  apply List.splitOn_intercalate
  · intro l hl
    rcases List.mem_cons.mp hl with rfl | hl
    · simp
    · exact h l hl
  · simp

/-! ### Attribute sets: the kinds after a merge -/

/-- Setting a kind that is absent appends the attribute. -/
theorem addAttribute_of_not_mem (k v : String) (a : AttrBuilder)
    (h : k ∉ a.map Prod.fst) : addAttribute k v a = a ++ [(k, v)] := by
  induction a with
  | nil => rfl
  | cons kv rest ih =>
    obtain ⟨k0, v0⟩ := kv
    simp only [List.map_cons, List.mem_cons, not_or] at h
    have h0 : ¬ k0 = k := fun e => h.1 e.symm
    simp [addAttribute, h0, ih h.2]

/-- The kinds of an attribute set after one attribute is set. -/
theorem map_fst_addAttribute (k v : String) (a : AttrBuilder) :
    (addAttribute k v a).map Prod.fst =
      if k ∈ a.map Prod.fst then a.map Prod.fst else a.map Prod.fst ++ [k] := by
  induction a with
  | nil => simp [addAttribute]
  | cons kv rest ih =>
    obtain ⟨k0, v0⟩ := kv
    by_cases h0 : k0 = k
    · subst h0
      simp [addAttribute]
    · have h1 : ¬ k = k0 := fun e => h0 e.symm
      simp only [addAttribute, h0, if_false, List.map_cons, ih, List.mem_cons, h1, false_or]
      split_ifs <;> simp

/-- Setting one attribute keeps the kinds of an attribute set pairwise different. -/
theorem nodup_addAttribute (k v : String) (a : AttrBuilder)
    (h : (a.map Prod.fst).Nodup) : ((addAttribute k v a).map Prod.fst).Nodup := by
  rw [map_fst_addAttribute]
  split_ifs with hk
  · exact h
  · rw [List.nodup_append]
    refine ⟨h, List.nodup_singleton k, ?_⟩
    intro x hx hx1
    rw [List.mem_singleton] at hx1
    exact hk (hx1 ▸ hx)

/-- A merge keeps the kinds of an attribute set pairwise different. -/
theorem nodup_addAttributes (b a : AttrBuilder)
    (h : (a.map Prod.fst).Nodup) : ((addAttributes a b).map Prod.fst).Nodup := by
  induction b generalizing a with
  | nil => exact h
  | cons kv b ih =>
    rw [addAttributes_cons]
    exact ih _ (nodup_addAttribute _ _ _ h)

/-- A merge of a builder with pairwise different kinds, none of them present, appends the
builder. -/
theorem addAttributes_of_disjoint (b a : AttrBuilder)
    (hb : (b.map Prod.fst).Nodup) (hd : ∀ kv ∈ b, kv.1 ∉ a.map Prod.fst) :
    addAttributes a b = a ++ b := by
  induction b generalizing a with
  | nil => simp [addAttributes_nil]
  | cons kv b ih =>
    rw [List.map_cons, List.nodup_cons] at hb
    rw [addAttributes_cons, addAttribute_of_not_mem _ _ _ (hd kv (List.mem_cons_self _ _)),
      ih _ hb.2]
    · simp
    · intro x hx
      rw [List.map_append, List.mem_append, not_or]
      refine ⟨hd x (List.mem_cons_of_mem _ hx), ?_⟩
      simp only [List.map_cons, List.map_nil, List.mem_singleton]
      intro e
      exact hb.1 (e ▸ List.mem_map_of_mem Prod.fst hx)

/-- A function without attributes ends up with the builder. -/
theorem addAttributes_nil_left (b : AttrBuilder) (hb : (b.map Prod.fst).Nodup) :
    addAttributes [] b = b := by
  rw [addAttributes_of_disjoint b [] hb (fun _ _ => by simp)]
  rfl

/-! ### The register name map -/

/-- An entry written by `ADD_REG_MAP` leaves every other key as it was. -/
theorem ADD_REG_MAP_of_ne (mmReg : Nat) (name : String) (regNameMap : Nat → Option String)
    (key : Nat) (h : key ≠ (mmReg * 4) % 2 ^ 32) :
    Gfx6.ADD_REG_MAP mmReg name regNameMap key = regNameMap key := by
  unfold Gfx6.ADD_REG_MAP
  exact if_neg h

/-- The key of the entry written by `ADD_REG_MAP` holds the name. -/
theorem ADD_REG_MAP_self (mmReg : Nat) (name : String) (regNameMap : Nat → Option String) :
    Gfx6.ADD_REG_MAP mmReg name regNameMap ((mmReg * 4) % 2 ^ 32) = some name := by
  unfold Gfx6.ADD_REG_MAP
  exact if_pos rfl

/-- A sequence of `ADD_REG_MAP` leaves a key that none of its registers has as it was. -/
theorem foldl_ADD_REG_MAP_of_not_mem (regs : List (Nat × String))
    (regNameMap : Nat → Option String) (key : Nat)
    (h : ∀ x ∈ regs, key ≠ (x.1 * 4) % 2 ^ 32) :
    regs.foldl (fun m x => Gfx6.ADD_REG_MAP x.1 x.2 m) regNameMap key = regNameMap key := by
  induction regs generalizing regNameMap with
  | nil => rfl
  | cons x rest ih =>
    rw [List.foldl_cons, ih _ (fun y hy => h y (List.mem_cons_of_mem _ hy)),
      ADD_REG_MAP_of_ne _ _ _ _ (h x (List.mem_cons_self _ _))]

/-- After a sequence of `ADD_REG_MAP` for registers of pairwise different constants, the
byte offset of each register holds its name. -/
theorem foldl_ADD_REG_MAP_of_mem (regs : List (Nat × String))
    (regNameMap : Nat → Option String)
    (hd : (regs.map Prod.fst).Nodup) (hfit : ∀ x ∈ regs, x.1 * 4 < 2 ^ 32)
    (r : Nat × String) (hr : r ∈ regs) :
    regs.foldl (fun m x => Gfx6.ADD_REG_MAP x.1 x.2 m) regNameMap (r.1 * 4) = some r.2 := by
  induction regs generalizing regNameMap with
  | nil => simp at hr
  | cons x rest ih =>
    rw [List.map_cons, List.nodup_cons] at hd
    rw [List.foldl_cons]
    rcases List.mem_cons.mp hr with h | h
    · subst h
      rw [foldl_ADD_REG_MAP_of_not_mem]
      · have e := ADD_REG_MAP_self r.1 r.2 regNameMap
        rwa [Nat.mod_eq_of_lt (hfit r (List.mem_cons_self _ _))] at e
      · intro y hy e
        rw [Nat.mod_eq_of_lt (hfit y (List.mem_cons_of_mem _ hy))] at e
        have e1 : r.1 = y.1 := by omega
        exact hd.1 (e1 ▸ List.mem_map_of_mem Prod.fst hy)
    · exact ih _ hd.2 (fun y hy => hfit y (List.mem_cons_of_mem _ hy)) h

/-! ## The claims -/

/-- C1: for every pipeline state, every value of the override and every non-empty function
of external linkage, the `"target-features"` value attached by `SetupTargetFeatures` (build
with GFX10 support) is the concatenation, in this order, of the DumpCode piece, the
override piece, the scheduler piece, the NGG piece, the scratch-bounds piece, the
wavefront-size and CU-mode piece, the fp64/fp16 denormal piece and the fp32 denormal piece;
and the concatenation of the first `k` pieces is a prefix of the final string for every `k`,
so that no later step retracts a token. -/
theorem C1_targetFeatures_is_ordered_concatenation
    (getStage : Nat → CallingConv → ShaderStage) (ovr : Bool) (ps : PipelineState)
    (m : Module) (f f1 : Function)
    (hmem : (f, f1) ∈ m.zip (SetupTargetFeatures true getStage ovr ps m))
    (hne : f.empty = false) (hext : f.linkage = LinkageTypes.ExternalLinkage) :
    getAttribute "target-features" f1.attrs =
        some (String.join (specFeaturePieces getStage ovr ps f.callingConv)) ∧
      ∀ k : Nat,
        (String.join ((specFeaturePieces getStage ovr ps f.callingConv).take k)).data <+:
          (String.join (specFeaturePieces getStage ovr ps f.callingConv)).data := by
  refine ⟨?_, fun k => join_take_isPrefix _ k⟩
  rw [getAttribute_targetFeatures hmem hne hext, targetFeaturesOf_eq, featurePieces_true]

/-- C1, worked example: a GS entry point under NGG on GFX10 with every option set. -/
theorem C1_targetFeatures_is_ordered_concatenation_witness :
    getAttribute "target-features"
        (setupFunctionAttributes true exampleStageOf true fullPipelineState
          (entryPoint "gs_main" CallingConv.AMDGPU_GS)).attrs =
      some (",+DumpCode,-fp32-denormals,+si-scheduler,+ci-insts,+enable-ds128" ++
        ",+enable-scratch-bounds-checks,+wavefrontsize64,+cumode" ++
        ",+fp64-fp16-denormals,-fp32-denormals") :=
  (C1_targetFeatures_is_ordered_concatenation exampleStageOf true fullPipelineState
    [entryPoint "gs_main" CallingConv.AMDGPU_GS] (entryPoint "gs_main" CallingConv.AMDGPU_GS)
    (setupFunctionAttributes true exampleStageOf true fullPipelineState
      (entryPoint "gs_main" CallingConv.AMDGPU_GS))
    (by simp [SetupTargetFeatures]) rfl rfl).1.trans (by decide)

/-- C2: for every compute-convention (AMDGPU_CS) function and every compute mode `(X, Y, Z)`
whose product `n = X * Y * Z` is below `2 ^ 32`, the loop body puts
`"amdgpu-flat-work-group-size"` into the builder with the decimal rendering of `n`, a comma,
and the decimal rendering of `n` again, and every non-empty compute function of external
linkage carries that value after the call; for the workgroup size `(8, 8, 1)` the flat
work-group size is 64 and the value is `"64,64"`. -/
theorem C2_compute_flat_work_group_size
    (b : Bool) (getStage : Nat → CallingConv → ShaderStage) (ovr : Bool) (ps : PipelineState)
    (hn : ps.GetComputeShaderMode.workgroupSizeX * ps.GetComputeShaderMode.workgroupSizeY *
      ps.GetComputeShaderMode.workgroupSizeZ < 2 ^ 32) :
    getAttribute "amdgpu-flat-work-group-size"
          (setupFunction b getStage ovr ps CallingConv.AMDGPU_CS).builder =
        some (toString (ps.GetComputeShaderMode.workgroupSizeX *
            ps.GetComputeShaderMode.workgroupSizeY * ps.GetComputeShaderMode.workgroupSizeZ) ++
          "," ++
          toString (ps.GetComputeShaderMode.workgroupSizeX *
            ps.GetComputeShaderMode.workgroupSizeY * ps.GetComputeShaderMode.workgroupSizeZ)) ∧
      (∀ (m : Module) (f f1 : Function),
        (f, f1) ∈ m.zip (SetupTargetFeatures b getStage ovr ps m) →
        f.empty = false → f.linkage = LinkageTypes.ExternalLinkage →
        f.callingConv = CallingConv.AMDGPU_CS →
        getAttribute "amdgpu-flat-work-group-size" f1.attrs =
          some (toString (ps.GetComputeShaderMode.workgroupSizeX *
              ps.GetComputeShaderMode.workgroupSizeY * ps.GetComputeShaderMode.workgroupSizeZ) ++
            "," ++
            toString (ps.GetComputeShaderMode.workgroupSizeX *
              ps.GetComputeShaderMode.workgroupSizeY *
              ps.GetComputeShaderMode.workgroupSizeZ))) ∧
      (ps.GetComputeShaderMode =
          { workgroupSizeX := 8, workgroupSizeY := 8, workgroupSizeZ := 1 } →
        flatWorkGroupSize ps.GetComputeShaderMode = 64 ∧
          getAttribute "amdgpu-flat-work-group-size"
            (setupFunction b getStage ovr ps CallingConv.AMDGPU_CS).builder = some "64,64") := by
  have h2 : flatWorkGroupSize ps.GetComputeShaderMode =
      ps.GetComputeShaderMode.workgroupSizeX * ps.GetComputeShaderMode.workgroupSizeY *
        ps.GetComputeShaderMode.workgroupSizeZ := by
    rw [flatWorkGroupSize_eq_mod, Nat.mod_eq_of_lt hn]
  have h1 : getAttribute "amdgpu-flat-work-group-size"
      (setupFunction b getStage ovr ps CallingConv.AMDGPU_CS).builder =
        some (toString (flatWorkGroupSize ps.GetComputeShaderMode) ++ "," ++
          toString (flatWorkGroupSize ps.GetComputeShaderMode)) := by
    rw [setupFunction_builder]
    by_cases hu :
        (ps.GetShaderOptions (getStage ps.GetShaderStageMask
          CallingConv.AMDGPU_CS)).useSiScheduler = true <;>
      simp +decide [hu, getAttribute]
  refine ⟨by rw [h1, h2], fun m f f1 hmem hne hext hcs => ?_, fun h8 => ?_⟩
  · rw [getAttribute_flatWorkGroupSize_cs hmem hne hext hcs, h2]
  · rw [h1, h2, h8]
    exact ⟨rfl, rfl⟩

/-- C2, worked example: workgroup size `(8, 8, 1)` gives `"64,64"` on a compute entry
point. -/
theorem C2_compute_flat_work_group_size_witness :
    getAttribute "amdgpu-flat-work-group-size"
        (setupFunctionAttributes true exampleStageOf false fullPipelineState
          (entryPoint "cs_main" CallingConv.AMDGPU_CS)).attrs = some "64,64" :=
  ((C2_compute_flat_work_group_size true exampleStageOf false fullPipelineState
      (by decide)).2.1
    [entryPoint "cs_main" CallingConv.AMDGPU_CS] (entryPoint "cs_main" CallingConv.AMDGPU_CS)
    (setupFunctionAttributes true exampleStageOf false fullPipelineState
      (entryPoint "cs_main" CallingConv.AMDGPU_CS))
    (by simp [SetupTargetFeatures]) rfl rfl rfl).trans (by decide)

/-- C4: fp32 denormal matrix. For every non-empty function of external linkage whose stage
is not the copy shader, with the global override unset, the feature string ends with
`,+fp32-denormals` when the stage's fp32 denormal mode is FlushNone or FlushIn, ends with
`,-fp32-denormals` when it is FlushOut or FlushInOut, and contains no `fp32-denormals` at all
when it is DontCare; the fp16 and fp64 denormal modes are arbitrary. -/
theorem C4_fp32_denormal_matrix
    (b : Bool) (getStage : Nat → CallingConv → ShaderStage) (ps : PipelineState)
    (m : Module) (f f1 : Function)
    (hmem : (f, f1) ∈ m.zip (SetupTargetFeatures b getStage false ps m))
    (hne : f.empty = false) (hext : f.linkage = LinkageTypes.ExternalLinkage)
    (hstage : getStage ps.GetShaderStageMask f.callingConv ≠ ShaderStage.ShaderStageCopyShader) :
    ∃ s : String, getAttribute "target-features" f1.attrs = some s ∧
      (((ps.GetCommonShaderMode (getStage ps.GetShaderStageMask f.callingConv)).fp32DenormMode =
            FpDenormMode.FlushNone ∨
          (ps.GetCommonShaderMode (getStage ps.GetShaderStageMask f.callingConv)).fp32DenormMode =
            FpDenormMode.FlushIn) → ",+fp32-denormals".data <:+ s.data) ∧
      (((ps.GetCommonShaderMode (getStage ps.GetShaderStageMask f.callingConv)).fp32DenormMode =
            FpDenormMode.FlushOut ∨
          (ps.GetCommonShaderMode (getStage ps.GetShaderStageMask f.callingConv)).fp32DenormMode =
            FpDenormMode.FlushInOut) → ",-fp32-denormals".data <:+ s.data) ∧
      ((ps.GetCommonShaderMode (getStage ps.GetShaderStageMask f.callingConv)).fp32DenormMode =
          FpDenormMode.DontCare → ¬ "fp32-denormals".data <:+: s.data) := by
  refine ⟨_, getAttribute_targetFeatures hmem hne hext, ?_, ?_, ?_⟩
  · intro h
    have hs := targetFeaturesOf_isSuffix b getStage false ps f.callingConv
    simpa [fp32DenormToken, hstage, h] using hs
  · intro h
    have hs := targetFeaturesOf_isSuffix b getStage false ps f.callingConv
    have h1 : ¬ ((ps.GetCommonShaderMode (getStage ps.GetShaderStageMask
          f.callingConv)).fp32DenormMode = FpDenormMode.FlushNone ∨
        (ps.GetCommonShaderMode (getStage ps.GetShaderStageMask f.callingConv)).fp32DenormMode =
          FpDenormMode.FlushIn) := by
      rcases h with h | h <;> rw [h] <;> decide
    simpa [fp32DenormToken, hstage, h, h1] using hs
  · intro h
    rw [isInfix_targetFeatures_iff (by decide) (by decide), exists_featureToken_iff,
      exists_fp64Fp16DenormToken_iff, exists_fp32DenormToken_iff]
    have hw := not_isInfix_waveToken (n := "fp32-denormals".data) '-' (by decide) (by decide)
      (by decide) (ps.GetShaderWaveSize (getStage ps.GetShaderStageMask f.callingConv))
    simp +decide [h, hw]

/-- C4, worked example: a fragment entry point with fp32 mode FlushOut (and fp16 mode
FlushNone) ends with the disabling token. -/
theorem C4_fp32_denormal_matrix_witness :
    ∃ s : String,
      getAttribute "target-features"
          (setupFunctionAttributes true exampleStageOf false fullPipelineState
            (entryPoint "ps_main" CallingConv.AMDGPU_PS)).attrs = some s ∧
        ",-fp32-denormals".data <:+ s.data := by
  obtain ⟨s, h1, _, h3, _⟩ := C4_fp32_denormal_matrix true exampleStageOf fullPipelineState
    [entryPoint "ps_main" CallingConv.AMDGPU_PS] (entryPoint "ps_main" CallingConv.AMDGPU_PS)
    (setupFunctionAttributes true exampleStageOf false fullPipelineState
      (entryPoint "ps_main" CallingConv.AMDGPU_PS))
    (by simp [SetupTargetFeatures]) rfl rfl (by decide)
  exact ⟨s, h1, h3 (Or.inl rfl)⟩

/-- C5: combined fp16/fp64 denormal feature, enabling side. For every non-empty function of
external linkage whose stage is not the copy shader, the feature string contains
`,+fp64-fp16-denormals` if and only if the fp16 or the fp64 denormal mode is FlushNone or
FlushIn; and when both modes are DontCare it contains neither `+fp64-fp16-denormals` nor
`-fp64-fp16-denormals`. -/
theorem C5_fp64_fp16_denormals_enabling
    (b : Bool) (getStage : Nat → CallingConv → ShaderStage) (ovr : Bool) (ps : PipelineState)
    (m : Module) (f f1 : Function)
    (hmem : (f, f1) ∈ m.zip (SetupTargetFeatures b getStage ovr ps m))
    (hne : f.empty = false) (hext : f.linkage = LinkageTypes.ExternalLinkage)
    (hstage : getStage ps.GetShaderStageMask f.callingConv ≠ ShaderStage.ShaderStageCopyShader) :
    ∃ s : String, getAttribute "target-features" f1.attrs = some s ∧
      (",+fp64-fp16-denormals".data <:+: s.data ↔
        ((ps.GetCommonShaderMode (getStage ps.GetShaderStageMask f.callingConv)).fp16DenormMode =
            FpDenormMode.FlushNone ∨
          (ps.GetCommonShaderMode (getStage ps.GetShaderStageMask f.callingConv)).fp16DenormMode =
            FpDenormMode.FlushIn ∨
          (ps.GetCommonShaderMode (getStage ps.GetShaderStageMask f.callingConv)).fp64DenormMode =
            FpDenormMode.FlushNone ∨
          (ps.GetCommonShaderMode (getStage ps.GetShaderStageMask f.callingConv)).fp64DenormMode =
            FpDenormMode.FlushIn)) ∧
      ((ps.GetCommonShaderMode (getStage ps.GetShaderStageMask f.callingConv)).fp16DenormMode =
          FpDenormMode.DontCare →
        (ps.GetCommonShaderMode (getStage ps.GetShaderStageMask f.callingConv)).fp64DenormMode =
          FpDenormMode.DontCare →
        ¬ "+fp64-fp16-denormals".data <:+: s.data ∧
          ¬ "-fp64-fp16-denormals".data <:+: s.data) := by
  refine ⟨_, getAttribute_targetFeatures hmem hne hext, ?_, ?_⟩
  · have e : ",+fp64-fp16-denormals".data = ',' :: "+fp64-fp16-denormals".data := rfl
    rw [e, comma_isInfix_targetFeatures_iff (by decide), exists_featureToken_iff,
      exists_fp64Fp16DenormToken_iff, exists_fp32DenormToken_iff]
    have hw : ¬ "+fp64-fp16-denormals".data <+:
        waveToken (ps.GetShaderWaveSize (getStage ps.GetShaderStageMask f.callingConv)) :=
      fun h => not_isInfix_waveToken '-' (by decide) (by decide) (by decide) _ h.isInfix
    simp +decide [hw, hstage]
  · intro h16 h64
    have hw1 := not_isInfix_waveToken (n := "+fp64-fp16-denormals".data) '-' (by decide)
      (by decide) (by decide) (ps.GetShaderWaveSize (getStage ps.GetShaderStageMask f.callingConv))
    have hw2 := not_isInfix_waveToken (n := "-fp64-fp16-denormals".data) '-' (by decide)
      (by decide) (by decide) (ps.GetShaderWaveSize (getStage ps.GetShaderStageMask f.callingConv))
    constructor
    · rw [isInfix_targetFeatures_expand (by decide) (by decide),
        exists_fp64Fp16DenormToken_iff, exists_fp32DenormToken_iff]
      simp +decide [hw1, h16, h64]
    · rw [isInfix_targetFeatures_expand (by decide) (by decide),
        exists_fp64Fp16DenormToken_iff, exists_fp32DenormToken_iff]
      simp +decide [hw2, h16, h64]

/-- C5, worked example: a fragment entry point with fp16 mode FlushNone carries the
enabling token. -/
theorem C5_fp64_fp16_denormals_enabling_witness :
    ∃ s : String,
      getAttribute "target-features"
          (setupFunctionAttributes true exampleStageOf false fullPipelineState
            (entryPoint "ps_main" CallingConv.AMDGPU_PS)).attrs = some s ∧
        ",+fp64-fp16-denormals".data <:+: s.data := by
  obtain ⟨s, h1, h2, _⟩ := C5_fp64_fp16_denormals_enabling true exampleStageOf false
    fullPipelineState
    [entryPoint "ps_main" CallingConv.AMDGPU_PS] (entryPoint "ps_main" CallingConv.AMDGPU_PS)
    (setupFunctionAttributes true exampleStageOf false fullPipelineState
      (entryPoint "ps_main" CallingConv.AMDGPU_PS))
    (by simp [SetupTargetFeatures]) rfl rfl (by decide)
  exact ⟨s, h1, h2.mpr (Or.inl rfl)⟩

/-- C6 as stated fails: with fp16 denormal mode FlushOut and fp64 denormal mode FlushNone the
feature string of a fragment entry point is `,+fp64-fp16-denormals`: one of the two modes is
FlushOut, yet the string holds the enabling token and not the disabling one. -/
theorem C6_disabling_side_counterexample :
    (mixedDenormPipelineState.GetCommonShaderMode
        (exampleStageOf 0 CallingConv.AMDGPU_PS)).fp16DenormMode = FpDenormMode.FlushOut ∧
      getAttribute "target-features"
          (setupFunctionAttributes true exampleStageOf false mixedDenormPipelineState
            (entryPoint "ps_main" CallingConv.AMDGPU_PS)).attrs =
        some ",+fp64-fp16-denormals" ∧
      "+fp64-fp16-denormals".data <:+: ",+fp64-fp16-denormals".data ∧
      ¬ "-fp64-fp16-denormals".data <:+: ",+fp64-fp16-denormals".data := by
  refine ⟨rfl, by decide, by decide, by decide⟩

/-- C6, amended: combined fp16/fp64 denormal feature, disabling side. For every non-empty
function of external linkage whose stage is not the copy shader, if the fp16 or the fp64
denormal mode is FlushOut or FlushInOut and neither of them is FlushNone or FlushIn, the
feature string contains `-fp64-fp16-denormals` and does not contain
`+fp64-fp16-denormals`. -/
theorem C6_fp64_fp16_denormals_disabling
    (b : Bool) (getStage : Nat → CallingConv → ShaderStage) (ovr : Bool) (ps : PipelineState)
    (m : Module) (f f1 : Function)
    (hmem : (f, f1) ∈ m.zip (SetupTargetFeatures b getStage ovr ps m))
    (hne : f.empty = false) (hext : f.linkage = LinkageTypes.ExternalLinkage)
    (hstage : getStage ps.GetShaderStageMask f.callingConv ≠ ShaderStage.ShaderStageCopyShader)
    (hdis :
      (ps.GetCommonShaderMode (getStage ps.GetShaderStageMask f.callingConv)).fp16DenormMode =
          FpDenormMode.FlushOut ∨
        (ps.GetCommonShaderMode (getStage ps.GetShaderStageMask f.callingConv)).fp16DenormMode =
          FpDenormMode.FlushInOut ∨
        (ps.GetCommonShaderMode (getStage ps.GetShaderStageMask f.callingConv)).fp64DenormMode =
          FpDenormMode.FlushOut ∨
        (ps.GetCommonShaderMode (getStage ps.GetShaderStageMask f.callingConv)).fp64DenormMode =
          FpDenormMode.FlushInOut)
    (hen :
      ¬ ((ps.GetCommonShaderMode (getStage ps.GetShaderStageMask f.callingConv)).fp16DenormMode =
          FpDenormMode.FlushNone ∨
        (ps.GetCommonShaderMode (getStage ps.GetShaderStageMask f.callingConv)).fp16DenormMode =
          FpDenormMode.FlushIn ∨
        (ps.GetCommonShaderMode (getStage ps.GetShaderStageMask f.callingConv)).fp64DenormMode =
          FpDenormMode.FlushNone ∨
        (ps.GetCommonShaderMode (getStage ps.GetShaderStageMask f.callingConv)).fp64DenormMode =
          FpDenormMode.FlushIn)) :
    ∃ s : String, getAttribute "target-features" f1.attrs = some s ∧
      "-fp64-fp16-denormals".data <:+: s.data ∧ ¬ "+fp64-fp16-denormals".data <:+: s.data := by
  have hw1 := not_isInfix_waveToken (n := "+fp64-fp16-denormals".data) '-' (by decide)
    (by decide) (by decide) (ps.GetShaderWaveSize (getStage ps.GetShaderStageMask f.callingConv))
  refine ⟨_, getAttribute_targetFeatures hmem hne hext, ?_, ?_⟩
  · rw [isInfix_targetFeatures_expand (by decide) (by decide),
      exists_fp64Fp16DenormToken_iff, exists_fp32DenormToken_iff]
    refine Or.inr (Or.inr (Or.inr (Or.inr (Or.inr (Or.inr (Or.inl ⟨hstage, Or.inr ⟨hen, hdis, ?_⟩⟩))))))
    exact List.infix_refl _
  · rw [isInfix_targetFeatures_expand (by decide) (by decide),
      exists_fp64Fp16DenormToken_iff, exists_fp32DenormToken_iff]
    simp +decide [hw1, hen]

/-- C6 amended, worked example: fp16 mode FlushOut with fp64 mode DontCare gives the
disabling token. -/
theorem C6_fp64_fp16_denormals_disabling_witness :
    ∃ s : String,
      getAttribute "target-features"
          (setupFunctionAttributes true exampleStageOf false flushOutPipelineState
            (entryPoint "ps_main" CallingConv.AMDGPU_PS)).attrs = some s ∧
        "-fp64-fp16-denormals".data <:+: s.data ∧ ¬ "+fp64-fp16-denormals".data <:+: s.data :=
  C6_fp64_fp16_denormals_disabling true exampleStageOf false flushOutPipelineState
    [entryPoint "ps_main" CallingConv.AMDGPU_PS] (entryPoint "ps_main" CallingConv.AMDGPU_PS)
    (setupFunctionAttributes true exampleStageOf false flushOutPipelineState
      (entryPoint "ps_main" CallingConv.AMDGPU_PS))
    (by simp [SetupTargetFeatures]) rfl rfl (by decide) (by decide) (by decide)

/-- C7: `SetupTargetFeatures` is idempotent. For every pipeline state and module, running it
on its own result gives that result again: every function keeps exactly the attribute set
of the first run, no token is appended to a feature string and no attribute is
duplicated. -/
theorem C7_SetupTargetFeatures_idempotent
    (b : Bool) (getStage : Nat → CallingConv → ShaderStage) (ovr : Bool) (ps : PipelineState)
    (m : Module) :
    SetupTargetFeatures b getStage ovr ps (SetupTargetFeatures b getStage ovr ps m) =
      SetupTargetFeatures b getStage ovr ps m := by
  simp only [SetupTargetFeatures, List.map_map]
  apply List.map_congr_left
  intro f _
  exact setupFunctionAttributes_idem b getStage ovr ps f

/-- C8: for every pipeline state with `includeDisassembly` set and the fragment stage's
`useSiScheduler` unset, the feature string attached to a fragment-stage entry point begins
with the diagnostic-code token: it is a comma, `+DumpCode`, and then nothing or the comma
of the next token; and it contains no `si-scheduler`. -/
theorem C8_fragment_begins_with_DumpCode
    (b : Bool) (getStage : Nat → CallingConv → ShaderStage) (ovr : Bool) (ps : PipelineState)
    (m : Module) (f f1 : Function)
    (hmem : (f, f1) ∈ m.zip (SetupTargetFeatures b getStage ovr ps m))
    (hne : f.empty = false) (hext : f.linkage = LinkageTypes.ExternalLinkage)
    (hstage : getStage ps.GetShaderStageMask f.callingConv = ShaderStage.ShaderStageFragment)
    (hincl : ps.GetOptions.includeDisassembly ≠ 0)
    (hsi : (ps.GetShaderOptions ShaderStage.ShaderStageFragment).useSiScheduler = false) :
    ∃ s : String, getAttribute "target-features" f1.attrs = some s ∧
      (∃ rest : List Char, s.data = ',' :: "+DumpCode".data ++ rest ∧
        (rest = [] ∨ rest.head? = some ',')) ∧
      ¬ "si-scheduler".data <:+: s.data := by
  refine ⟨_, getAttribute_targetFeatures hmem hne hext, ?_, ?_⟩
  · rw [targetFeaturesOf_data]
    simp only [featureTokens, hincl, ne_eq, not_false_eq_true, if_true, List.append_assoc,
      List.singleton_append, joinTokens]
    exact ⟨_, rfl, joinTokens_eq_nil_or_head _⟩
  · have hw := not_isInfix_waveToken (n := "si-scheduler".data) '-' (by decide)
      (by decide) (by decide) (ps.GetShaderWaveSize (getStage ps.GetShaderStageMask f.callingConv))
    rw [isInfix_targetFeatures_expand (by decide) (by decide),
      exists_fp64Fp16DenormToken_iff, exists_fp32DenormToken_iff, hstage]
    rw [hstage] at hw
    simp +decide [hw, hsi]

/-- C8, worked example: a fragment entry point with `includeDisassembly` set on an otherwise
zero-initialised state. -/
theorem C8_fragment_begins_with_DumpCode_witness :
    ∃ s : String,
      getAttribute "target-features"
          (setupFunctionAttributes true exampleStageOf false
            { zeroPipelineState with GetOptions := { includeDisassembly := 1 } }
            (entryPoint "ps_main" CallingConv.AMDGPU_PS)).attrs = some s ∧
      (∃ rest : List Char, s.data = ',' :: "+DumpCode".data ++ rest ∧
        (rest = [] ∨ rest.head? = some ',')) ∧
      ¬ "si-scheduler".data <:+: s.data :=
  C8_fragment_begins_with_DumpCode true exampleStageOf false
    { zeroPipelineState with GetOptions := { includeDisassembly := 1 } }
    [entryPoint "ps_main" CallingConv.AMDGPU_PS] (entryPoint "ps_main" CallingConv.AMDGPU_PS)
    (setupFunctionAttributes true exampleStageOf false
      { zeroPipelineState with GetOptions := { includeDisassembly := 1 } }
      (entryPoint "ps_main" CallingConv.AMDGPU_PS))
    (by simp [SetupTargetFeatures]) rfl rfl rfl (by decide) rfl

/-- C9: for every non-empty function of external linkage the following are equivalent: the
resolved stage's `useSiScheduler` is set; the feature string contains `,+si-scheduler`; the
builder of the function holds `"amdgpu-max-memory-clause"` with value `"1"`, which the
function then carries. When `useSiScheduler` is unset the builder holds no
`"amdgpu-max-memory-clause"` and the function keeps whatever value it had for it. -/
theorem C9_si_scheduler_token_and_clause_cap
    (b : Bool) (getStage : Nat → CallingConv → ShaderStage) (ovr : Bool) (ps : PipelineState)
    (m : Module) (f f1 : Function)
    (hmem : (f, f1) ∈ m.zip (SetupTargetFeatures b getStage ovr ps m))
    (hne : f.empty = false) (hext : f.linkage = LinkageTypes.ExternalLinkage) :
    ∃ s : String, getAttribute "target-features" f1.attrs = some s ∧
      ((ps.GetShaderOptions (getStage ps.GetShaderStageMask f.callingConv)).useSiScheduler = true ↔
        ",+si-scheduler".data <:+: s.data) ∧
      ((ps.GetShaderOptions (getStage ps.GetShaderStageMask f.callingConv)).useSiScheduler = true ↔
        getAttribute "amdgpu-max-memory-clause"
          (setupFunction b getStage ovr ps f.callingConv).builder = some "1") ∧
      ((ps.GetShaderOptions (getStage ps.GetShaderStageMask f.callingConv)).useSiScheduler = true →
        getAttribute "amdgpu-max-memory-clause" f1.attrs = some "1") ∧
      ((ps.GetShaderOptions (getStage ps.GetShaderStageMask f.callingConv)).useSiScheduler = false →
        getAttribute "amdgpu-max-memory-clause"
            (setupFunction b getStage ovr ps f.callingConv).builder = none ∧
          getAttribute "amdgpu-max-memory-clause" f1.attrs =
            getAttribute "amdgpu-max-memory-clause" f.attrs) := by
  refine ⟨_, getAttribute_targetFeatures hmem hne hext, ?_, ?_, ?_, ?_⟩
  · have e : ",+si-scheduler".data = ',' :: "+si-scheduler".data := rfl
    rw [e, comma_isInfix_targetFeatures_iff (by decide), exists_featureToken_iff,
      exists_fp64Fp16DenormToken_iff, exists_fp32DenormToken_iff]
    have hw : ¬ "+si-scheduler".data <+:
        waveToken (ps.GetShaderWaveSize (getStage ps.GetShaderStageMask f.callingConv)) :=
      fun h => not_isInfix_waveToken '-' (by decide) (by decide) (by decide) _ h.isInfix
    simp +decide [hw]
  · rw [setupFunction_builder]
    split_ifs <;> simp_all +decide [getAttribute]
  · intro hu
    refine getAttribute_of_mem_builder hmem hne hext ("amdgpu-max-memory-clause", "1") ?_
    rw [setupFunction_builder]
    simp [hu]
  · intro hu
    have hb : ∀ kv ∈ (setupFunction b getStage ovr ps f.callingConv).builder,
        kv.1 ≠ "amdgpu-max-memory-clause" := by
      rw [setupFunction_builder]
      intro kv hkv
      simp only [hu, Bool.false_eq_true, if_false, List.nil_append] at hkv
      split_ifs at hkv <;> simp at hkv <;> rcases hkv with rfl | rfl <;> simp +decide
    exact ⟨getAttribute_eq_none_of_not_mem _ _ hb, by
      rw [attrs_of_mem_zip hmem hne hext, getAttribute_addAttributes_of_not_mem _ _ _ hb]⟩

/-- C9, worked example: a fragment entry point with the SI scheduler selected. -/
theorem C9_si_scheduler_token_and_clause_cap_witness :
    getAttribute "amdgpu-max-memory-clause"
        (setupFunctionAttributes true exampleStageOf false fullPipelineState
          (entryPoint "ps_main" CallingConv.AMDGPU_PS)).attrs = some "1" := by
  obtain ⟨_, _, _, _, h, _⟩ := C9_si_scheduler_token_and_clause_cap true exampleStageOf false
    fullPipelineState
    [entryPoint "ps_main" CallingConv.AMDGPU_PS] (entryPoint "ps_main" CallingConv.AMDGPU_PS)
    (setupFunctionAttributes true exampleStageOf false fullPipelineState
      (entryPoint "ps_main" CallingConv.AMDGPU_PS))
    (by simp [SetupTargetFeatures]) rfl rfl
  exact h rfl

/-- C10: for every non-empty tessellation-control (HS convention) function of external
linkage, `"amdgpu-flat-work-group-size"` is exactly `"128,128"` after the call, whatever the
build flag, the stage resolver, the override, the pipeline state (options, shader options,
modes, compute workgroup size, hardware generation) and the attributes the function had. -/
theorem C10_hs_flat_work_group_size
    (b : Bool) (getStage : Nat → CallingConv → ShaderStage) (ovr : Bool) (ps : PipelineState)
    (m : Module) (f f1 : Function)
    (hmem : (f, f1) ∈ m.zip (SetupTargetFeatures b getStage ovr ps m))
    (hne : f.empty = false) (hext : f.linkage = LinkageTypes.ExternalLinkage)
    (hhs : f.callingConv = CallingConv.AMDGPU_HS) :
    getAttribute "amdgpu-flat-work-group-size" f1.attrs = some "128,128" ∧
      getAttribute "amdgpu-flat-work-group-size"
        (setupFunction b getStage ovr ps f.callingConv).builder = some "128,128" := by
  have hb : ("amdgpu-flat-work-group-size", "128,128") ∈
      (setupFunction b getStage ovr ps f.callingConv).builder := by
    rw [setupFunction_builder, hhs]
    simp
  refine ⟨getAttribute_of_mem_builder hmem hne hext _ hb, ?_⟩
  rw [setupFunction_builder, hhs]
  by_cases hu :
      (ps.GetShaderOptions (getStage ps.GetShaderStageMask CallingConv.AMDGPU_HS)).useSiScheduler =
        true <;>
    simp +decide [hu, getAttribute]

/-- C10, worked example: an HS entry point that already carried another work-group size. -/
theorem C10_hs_flat_work_group_size_witness :
    getAttribute "amdgpu-flat-work-group-size"
        (setupFunctionAttributes true exampleStageOf false fullPipelineState
          { entryPoint "hs_main" CallingConv.AMDGPU_HS with
            attrs := [("amdgpu-flat-work-group-size", "64,64")] }).attrs = some "128,128" :=
  (C10_hs_flat_work_group_size true exampleStageOf false fullPipelineState
    [{ entryPoint "hs_main" CallingConv.AMDGPU_HS with
        attrs := [("amdgpu-flat-work-group-size", "64,64")] }]
    { entryPoint "hs_main" CallingConv.AMDGPU_HS with
      attrs := [("amdgpu-flat-work-group-size", "64,64")] }
    (setupFunctionAttributes true exampleStageOf false fullPipelineState
      { entryPoint "hs_main" CallingConv.AMDGPU_HS with
        attrs := [("amdgpu-flat-work-group-size", "64,64")] })
    (by simp [SetupTargetFeatures]) rfl rfl rfl).1

/-- C11: for every pipeline state whose flags word has the disable-NGG bit set, whatever the
other NGG flag bits are, and whose NGG control is the one derived from that flags word, no
non-empty function of external linkage (a geometry-stage function in particular) receives
the merged-primitive-shader tokens: its feature string contains neither `+ci-insts` nor
`+enable-ds128`. -/
theorem C11_ngg_disabled_no_merged_tokens
    (b : Bool) (getStage : Nat → CallingConv → ShaderStage) (ovr : Bool) (ps : PipelineState)
    (wantNgg wantPassthrough : Bool) (m : Module) (f f1 : Function)
    (hmodel : ps.GetNggControl =
      nggControlFromFlags ps.GetOptions.nggFlags wantNgg wantPassthrough)
    (hdis : ps.GetOptions.nggFlags &&& NggFlagDisable ≠ 0)
    (hmem : (f, f1) ∈ m.zip (SetupTargetFeatures b getStage ovr ps m))
    (hne : f.empty = false) (hext : f.linkage = LinkageTypes.ExternalLinkage) :
    ∃ s : String, getAttribute "target-features" f1.attrs = some s ∧
      ¬ "+ci-insts".data <:+: s.data ∧ ¬ "+enable-ds128".data <:+: s.data := by
  have hoff : ps.GetNggControl.enableNgg = false := by
    rw [hmodel]
    exact nggControlFromFlags_enableNgg_of_disable _ _ _ hdis
  have hw1 := not_isInfix_waveToken (n := "+ci-insts".data) '-' (by decide)
    (by decide) (by decide) (ps.GetShaderWaveSize (getStage ps.GetShaderStageMask f.callingConv))
  have hw2 := not_isInfix_waveToken (n := "+enable-ds128".data) '-' (by decide)
    (by decide) (by decide) (ps.GetShaderWaveSize (getStage ps.GetShaderStageMask f.callingConv))
  refine ⟨_, getAttribute_targetFeatures hmem hne hext, ?_, ?_⟩
  · rw [isInfix_targetFeatures_expand (by decide) (by decide),
      exists_fp64Fp16DenormToken_iff, exists_fp32DenormToken_iff]
    simp +decide [hw1, hoff]
  · rw [isInfix_targetFeatures_expand (by decide) (by decide),
      exists_fp64Fp16DenormToken_iff, exists_fp32DenormToken_iff]
    simp +decide [hw2, hoff]

/-- C11, worked example: a GS entry point of a pipeline whose flags word has every NGG bit
set, the disable bit included, on a GFX10 target. -/
theorem C11_ngg_disabled_no_merged_tokens_witness :
    ∃ s : String,
      getAttribute "target-features"
          (setupFunctionAttributes true shapeStageOf false nggDisabledPipelineState
            (entryPoint "gs_main" CallingConv.AMDGPU_GS)).attrs = some s ∧
        ¬ "+ci-insts".data <:+: s.data ∧ ¬ "+enable-ds128".data <:+: s.data :=
  C11_ngg_disabled_no_merged_tokens true shapeStageOf false nggDisabledPipelineState true false
    [entryPoint "gs_main" CallingConv.AMDGPU_GS] (entryPoint "gs_main" CallingConv.AMDGPU_GS)
    (setupFunctionAttributes true shapeStageOf false nggDisabledPipelineState
      (entryPoint "gs_main" CallingConv.AMDGPU_GS))
    rfl (by decide) (by simp [SetupTargetFeatures]) rfl rfl

/-- C12: for every non-empty function of external linkage, the feature string contains
`,+enable-scratch-bounds-checks` if and only if the major version of the hardware
generation is at least 9, whatever the build flag, the stage, the options and the modes
are. -/
theorem C12_scratch_bounds_checks_iff_gfx9
    (b : Bool) (getStage : Nat → CallingConv → ShaderStage) (ovr : Bool) (ps : PipelineState)
    (m : Module) (f f1 : Function)
    (hmem : (f, f1) ∈ m.zip (SetupTargetFeatures b getStage ovr ps m))
    (hne : f.empty = false) (hext : f.linkage = LinkageTypes.ExternalLinkage) :
    ∃ s : String, getAttribute "target-features" f1.attrs = some s ∧
      (",+enable-scratch-bounds-checks".data <:+: s.data ↔ ps.GetGfxIpVersion.major ≥ 9) := by
  refine ⟨_, getAttribute_targetFeatures hmem hne hext, ?_⟩
  have e : ",+enable-scratch-bounds-checks".data = ',' :: "+enable-scratch-bounds-checks".data :=
    rfl
  rw [e, comma_isInfix_targetFeatures_iff (by decide), exists_featureToken_iff,
    exists_fp64Fp16DenormToken_iff, exists_fp32DenormToken_iff]
  have hw : ¬ "+enable-scratch-bounds-checks".data <+:
      waveToken (ps.GetShaderWaveSize (getStage ps.GetShaderStageMask f.callingConv)) :=
    fun h => not_isInfix_waveToken '-' (by decide) (by decide) (by decide) _ h.isInfix
  simp +decide [hw]

/-- C12, worked example: a fragment entry point on a GFX10 target carries the token. -/
theorem C12_scratch_bounds_checks_iff_gfx9_witness :
    ∃ s : String,
      getAttribute "target-features"
          (setupFunctionAttributes true exampleStageOf false fullPipelineState
            (entryPoint "ps_main" CallingConv.AMDGPU_PS)).attrs = some s ∧
        ",+enable-scratch-bounds-checks".data <:+: s.data := by
  obtain ⟨s, h1, h2⟩ := C12_scratch_bounds_checks_iff_gfx9 true exampleStageOf false
    fullPipelineState
    [entryPoint "ps_main" CallingConv.AMDGPU_PS] (entryPoint "ps_main" CallingConv.AMDGPU_PS)
    (setupFunctionAttributes true exampleStageOf false fullPipelineState
      (entryPoint "ps_main" CallingConv.AMDGPU_PS))
    (by simp [SetupTargetFeatures]) rfl rfl
  exact ⟨s, h1, h2.mpr (by decide)⟩

/-- C13: for every non-empty function of external linkage, in a build with GFX10 support: if
the major version of the hardware generation is at least 10, the feature string contains
`,+wavefrontsize<N>` immediately followed by `,+cumode`, where `<N>` is the decimal
rendering of `GetShaderWaveSize` of the function's own stage, and every `,+wavefrontsize`
token followed by `,+cumode` in the string carries exactly these digits; if the major
version is below 10 the string contains neither `wavefrontsize` nor `+cumode`. -/
theorem C13_wavefrontsize_and_cumode
    (getStage : Nat → CallingConv → ShaderStage) (ovr : Bool) (ps : PipelineState)
    (m : Module) (f f1 : Function)
    (hmem : (f, f1) ∈ m.zip (SetupTargetFeatures true getStage ovr ps m))
    (hne : f.empty = false) (hext : f.linkage = LinkageTypes.ExternalLinkage) :
    ∃ s : String, getAttribute "target-features" f1.attrs = some s ∧
      (ps.GetGfxIpVersion.major ≥ 10 →
        (",+wavefrontsize" ++
            toString (ps.GetShaderWaveSize (getStage ps.GetShaderStageMask f.callingConv)) ++
            ",+cumode").data <:+: s.data) ∧
      (∀ d : List Char, ',' ∉ d →
        ",+wavefrontsize".data ++ d ++ ",+cumode".data <:+: s.data →
        d = (toString (ps.GetShaderWaveSize (getStage ps.GetShaderStageMask f.callingConv))).data) ∧
      (ps.GetGfxIpVersion.major < 10 →
        ¬ "wavefrontsize".data <:+: s.data ∧ ¬ "+cumode".data <:+: s.data) := by
  refine ⟨_, getAttribute_targetFeatures hmem hne hext, ?_, ?_, ?_⟩
  · exact waveCumode_isInfix getStage ovr ps f.callingConv
  · intro d hd h
    have hmemTok := wavefrontsize_token_mem d hd true getStage ovr ps f.callingConv h
    exact wavefrontsize_token_eq d true getStage ovr ps f.callingConv hmemTok
  · intro h
    have h10 : ¬ ps.GetGfxIpVersion.major ≥ 10 := Nat.not_le.mpr h
    constructor
    · rw [isInfix_targetFeatures_expand (by decide) (by decide),
        exists_fp64Fp16DenormToken_iff, exists_fp32DenormToken_iff]
      simp +decide [h10]
    · rw [isInfix_targetFeatures_expand (by decide) (by decide),
        exists_fp64Fp16DenormToken_iff, exists_fp32DenormToken_iff]
      simp +decide [h10]

/-- C13, worked example: a fragment entry point on a GFX10 target with wave size 64. -/
theorem C13_wavefrontsize_and_cumode_witness :
    ∃ s : String,
      getAttribute "target-features"
          (setupFunctionAttributes true exampleStageOf false fullPipelineState
            (entryPoint "ps_main" CallingConv.AMDGPU_PS)).attrs = some s ∧
        ",+wavefrontsize64,+cumode".data <:+: s.data := by
  obtain ⟨s, h1, h2, _⟩ := C13_wavefrontsize_and_cumode exampleStageOf false
    fullPipelineState
    [entryPoint "ps_main" CallingConv.AMDGPU_PS] (entryPoint "ps_main" CallingConv.AMDGPU_PS)
    (setupFunctionAttributes true exampleStageOf false fullPipelineState
      (entryPoint "ps_main" CallingConv.AMDGPU_PS))
    (by simp [SetupTargetFeatures]) rfl rfl
  exact ⟨s, h1, h2 (by decide)⟩

/-- C14: for every non-empty function of external linkage whose resolved stage is the copy
shader, no denormal token is derived from the common shader mode: the feature string is the
same for every assignment of common shader modes, it is the concatenation of the first six
pieces (steps 1 to 7), it does not contain `fp64-fp16-denormals`, and it contains
`fp32-denormals` exactly when the global override is set. -/
theorem C14_copy_shader_no_mode_denormals
    (b : Bool) (getStage : Nat → CallingConv → ShaderStage) (ovr : Bool) (ps : PipelineState)
    (modes : ShaderStage → CommonShaderMode) (m : Module) (f f1 f2 : Function)
    (hmem : (f, f1) ∈ m.zip (SetupTargetFeatures b getStage ovr ps m))
    (hmem2 : (f, f2) ∈
      m.zip (SetupTargetFeatures b getStage ovr { ps with GetCommonShaderMode := modes } m))
    (hne : f.empty = false) (hext : f.linkage = LinkageTypes.ExternalLinkage)
    (hstage : getStage ps.GetShaderStageMask f.callingConv =
      ShaderStage.ShaderStageCopyShader) :
    ∃ s : String, getAttribute "target-features" f1.attrs = some s ∧
      getAttribute "target-features" f2.attrs = some s ∧
      s = String.join ((featurePieces b getStage ovr ps f.callingConv).take 6) ∧
      ¬ "fp64-fp16-denormals".data <:+: s.data ∧
      ("fp32-denormals".data <:+: s.data ↔ ovr = true) := by
  have hw := not_isInfix_waveToken (n := "fp64-fp16-denormals".data) '-' (by decide)
    (by decide) (by decide) (ps.GetShaderWaveSize (getStage ps.GetShaderStageMask f.callingConv))
  have hw2 := not_isInfix_waveToken (n := "fp32-denormals".data) '-' (by decide)
    (by decide) (by decide) (ps.GetShaderWaveSize (getStage ps.GetShaderStageMask f.callingConv))
  rw [hstage] at hw hw2
  refine ⟨_, getAttribute_targetFeatures hmem hne hext, ?_,
    targetFeaturesOf_copyShader b getStage ovr ps f.callingConv hstage, ?_, ?_⟩
  · have e1 := targetFeaturesOf_copyShader b getStage ovr
      { ps with GetCommonShaderMode := modes } f.callingConv hstage
    have e2 := targetFeaturesOf_copyShader b getStage ovr ps f.callingConv hstage
    rw [getAttribute_targetFeatures hmem2 hne hext, e1, e2]
    rfl
  · rw [isInfix_targetFeatures_expand (by decide) (by decide),
      exists_fp64Fp16DenormToken_iff, exists_fp32DenormToken_iff]
    simp +decide [hw, hstage]
  · rw [isInfix_targetFeatures_expand (by decide) (by decide),
      exists_fp64Fp16DenormToken_iff, exists_fp32DenormToken_iff]
    simp +decide [hw2, hstage]

/-- C14, worked example: the copy shader (hardware VS) of a VS-GS-FS pipeline whose modes
all ask for denormals; its feature string is empty on a GFX6 target. -/
theorem C14_copy_shader_no_mode_denormals_witness :
    ∃ s : String,
      getAttribute "target-features"
          (setupFunctionAttributes true shapeStageOf false
            { zeroPipelineState with GetShaderStageMask := 0x19 }
            (entryPoint "copy_shader" CallingConv.AMDGPU_VS)).attrs = some s ∧
        getAttribute "target-features"
          (setupFunctionAttributes true shapeStageOf false
            { zeroPipelineState with
              GetShaderStageMask := 0x19
              GetCommonShaderMode := fun _ =>
                { fp16DenormMode := FpDenormMode.FlushNone,
                  fp32DenormMode := FpDenormMode.FlushNone } }
            (entryPoint "copy_shader" CallingConv.AMDGPU_VS)).attrs = some s ∧
        ¬ "fp64-fp16-denormals".data <:+: s.data := by
  obtain ⟨s, h1, h2, _, h4, _⟩ := C14_copy_shader_no_mode_denormals true shapeStageOf false
    { zeroPipelineState with GetShaderStageMask := 0x19 }
    (fun _ => { fp16DenormMode := FpDenormMode.FlushNone,
                fp32DenormMode := FpDenormMode.FlushNone })
    [entryPoint "copy_shader" CallingConv.AMDGPU_VS]
    (entryPoint "copy_shader" CallingConv.AMDGPU_VS)
    (setupFunctionAttributes true shapeStageOf false
      { zeroPipelineState with GetShaderStageMask := 0x19 }
      (entryPoint "copy_shader" CallingConv.AMDGPU_VS))
    (setupFunctionAttributes true shapeStageOf false
      { zeroPipelineState with
        GetShaderStageMask := 0x19
        GetCommonShaderMode := fun _ =>
          { fp16DenormMode := FpDenormMode.FlushNone,
            fp32DenormMode := FpDenormMode.FlushNone } }
      (entryPoint "copy_shader" CallingConv.AMDGPU_VS))
    (by simp [SetupTargetFeatures]) (by simp [SetupTargetFeatures]) rfl rfl (by decide)
  exact ⟨s, h1, h2, h4⟩

/-- C15: the attributes one function receives depend only on the pipeline state, the global
override and the function's own calling convention. The result for a function is the same
in whatever module it stands, so permuting the module or adding or removing other functions
does not change it; the call commutes with permutations of the module; and two non-empty
functions of external linkage with the same calling convention are given one and the same
builder, so that every attribute of it is an attribute of both after the call. -/
theorem C15_attributes_depend_on_own_convention_only
    (b : Bool) (getStage : Nat → CallingConv → ShaderStage) (ovr : Bool) (ps : PipelineState) :
    (∀ (m m2 : Module) (f f1 f2 : Function),
        (f, f1) ∈ m.zip (SetupTargetFeatures b getStage ovr ps m) →
        (f, f2) ∈ m2.zip (SetupTargetFeatures b getStage ovr ps m2) → f2 = f1) ∧
      (∀ m m2 : Module, m.Perm m2 →
        (SetupTargetFeatures b getStage ovr ps m).Perm
          (SetupTargetFeatures b getStage ovr ps m2)) ∧
      (∀ (m m2 : Module) (f g f1 g1 : Function),
        (f, f1) ∈ m.zip (SetupTargetFeatures b getStage ovr ps m) →
        (g, g1) ∈ m2.zip (SetupTargetFeatures b getStage ovr ps m2) →
        f.empty = false → f.linkage = LinkageTypes.ExternalLinkage →
        g.empty = false → g.linkage = LinkageTypes.ExternalLinkage →
        f.callingConv = g.callingConv →
        ∃ builder : AttrBuilder,
          f1.attrs = addAttributes f.attrs builder ∧
          g1.attrs = addAttributes g.attrs builder ∧
          ∀ k v : String, getAttribute k builder = some v →
            getAttribute k f1.attrs = some v ∧ getAttribute k g1.attrs = some v) := by
  refine ⟨?_, ?_, ?_⟩
  · intro m m2 f f1 f2 h1 h2
    rw [mem_zip_SetupTargetFeatures h1, mem_zip_SetupTargetFeatures h2]
  · intro m m2 h
    exact h.map _
  · intro m m2 f g f1 g1 hf hg hfe hfl hge hgl hcc
    refine ⟨(setupFunction b getStage ovr ps f.callingConv).builder,
      attrs_of_mem_zip hf hfe hfl, ?_, ?_⟩
    · rw [hcc]
      exact attrs_of_mem_zip hg hge hgl
    · intro k v hkv
      have hmemB := mem_of_getAttribute hkv
      refine ⟨getAttribute_of_mem_builder hf hfe hfl (k, v) hmemB, ?_⟩
      rw [hcc] at hmemB
      exact getAttribute_of_mem_builder hg hge hgl (k, v) hmemB

/-- C15, worked example: the fragment entry point receives the same attributes whether it
stands alone or after a compute entry point. -/
theorem C15_attributes_depend_on_own_convention_only_witness :
    setupFunctionAttributes true exampleStageOf false fullPipelineState
        (entryPoint "ps_main" CallingConv.AMDGPU_PS) =
      { entryPoint "ps_main" CallingConv.AMDGPU_PS with
        attrs := [("amdgpu-max-memory-clause", "1"),
          ("target-features",
            ",+DumpCode,+si-scheduler,+enable-scratch-bounds-checks,+wavefrontsize64,+cumode" ++
              ",+fp64-fp16-denormals,-fp32-denormals")] } :=
  ((C15_attributes_depend_on_own_convention_only true exampleStageOf false
      fullPipelineState).1
    [entryPoint "ps_main" CallingConv.AMDGPU_PS]
    [entryPoint "cs_main" CallingConv.AMDGPU_CS, entryPoint "ps_main" CallingConv.AMDGPU_PS]
    (entryPoint "ps_main" CallingConv.AMDGPU_PS)
    { entryPoint "ps_main" CallingConv.AMDGPU_PS with
      attrs := [("amdgpu-max-memory-clause", "1"),
        ("target-features",
          ",+DumpCode,+si-scheduler,+enable-scratch-bounds-checks,+wavefrontsize64,+cumode" ++
            ",+fp64-fp16-denormals,-fp32-denormals")] }
    (setupFunctionAttributes true exampleStageOf false fullPipelineState
      (entryPoint "ps_main" CallingConv.AMDGPU_PS))
    (by decide) (by simp [SetupTargetFeatures]))

/-- C16: `SetupTargetFeatures` attaches attributes to exactly the non-empty functions of
external linkage. The module keeps its length and, position by position, the name, the
emptiness, the linkage and the calling convention of its functions; every non-empty function
of external linkage has a `"target-features"` attribute after the call; every function that
is empty or of another linkage is left as it was. The pipeline state is only read: the call
returns the module alone. -/
theorem C16_exactly_external_nonempty_functions
    (b : Bool) (getStage : Nat → CallingConv → ShaderStage) (ovr : Bool) (ps : PipelineState)
    (m : Module) :
    (SetupTargetFeatures b getStage ovr ps m).length = m.length ∧
      (SetupTargetFeatures b getStage ovr ps m).map
          (fun f => (f.name, f.empty, f.linkage, f.callingConv)) =
        m.map (fun f => (f.name, f.empty, f.linkage, f.callingConv)) ∧
      ∀ f f1 : Function, (f, f1) ∈ m.zip (SetupTargetFeatures b getStage ovr ps m) →
        ((f.empty = false ∧ f.linkage = LinkageTypes.ExternalLinkage) →
          ∃ s : String, getAttribute "target-features" f1.attrs = some s) ∧
        (¬ (f.empty = false ∧ f.linkage = LinkageTypes.ExternalLinkage) → f1 = f) := by
  refine ⟨by simp [SetupTargetFeatures], ?_, ?_⟩
  · simp only [SetupTargetFeatures, List.map_map]
    apply List.map_congr_left
    intro f _
    simp only [Function.comp, setupFunctionAttributes]
    split_ifs <;> rfl
  · intro f f1 hmem
    refine ⟨fun h => ⟨_, getAttribute_targetFeatures hmem h.1 h.2⟩, fun h => ?_⟩
    rw [mem_zip_SetupTargetFeatures hmem]
    simp only [setupFunctionAttributes, h, if_false]

/-- C16, worked example: a declaration and an internal function keep their attributes, the
entry point between them receives the feature string. -/
theorem C16_exactly_external_nonempty_functions_witness :
    SetupTargetFeatures true exampleStageOf false zeroPipelineState
        [{ entryPoint "decl" CallingConv.AMDGPU_PS with empty := true },
          entryPoint "ps_main" CallingConv.AMDGPU_PS,
          { entryPoint "helper" (CallingConv.Other 0) with
            linkage := LinkageTypes.InternalLinkage }] =
      [{ entryPoint "decl" CallingConv.AMDGPU_PS with empty := true },
        { entryPoint "ps_main" CallingConv.AMDGPU_PS with attrs := [("target-features", "")] },
        { entryPoint "helper" (CallingConv.Other 0) with
          linkage := LinkageTypes.InternalLinkage }] ∧
      (SetupTargetFeatures true exampleStageOf false zeroPipelineState
        [{ entryPoint "decl" CallingConv.AMDGPU_PS with empty := true },
          entryPoint "ps_main" CallingConv.AMDGPU_PS,
          { entryPoint "helper" (CallingConv.Other 0) with
            linkage := LinkageTypes.InternalLinkage }]).length = 3 :=
  ⟨by decide,
    (C16_exactly_external_nonempty_functions true exampleStageOf false zeroPipelineState
      [{ entryPoint "decl" CallingConv.AMDGPU_PS with empty := true },
        entryPoint "ps_main" CallingConv.AMDGPU_PS,
        { entryPoint "helper" (CallingConv.Other 0) with
          linkage := LinkageTypes.InternalLinkage }]).1⟩

/-- C17: the NGG flag bits are independently meaningful. The thirteen `NggFlag` values are
the powers of two with exponents 0 to 12, in declaration order, hence single bits and
pairwise different; two different flags share no bit; all of them ored together give
`0x1FFF`; two collections of flags whose words are equal have the same members; and testing
one flag in a flags word gives the same answer after any other flag is set or cleared. -/
theorem C17_ngg_flags_are_independent_bits :
    allNggFlags = (List.range 13).map (fun i => 2 ^ i) ∧
      allNggFlags.length = 13 ∧ allNggFlags.Nodup ∧
      (∀ f ∈ allNggFlags, ∀ g ∈ allNggFlags, f ≠ g → f &&& g = 0) ∧
      orFlags allNggFlags = 0x1FFF ∧
      (∀ s t : List Nat, s ⊆ allNggFlags → t ⊆ allNggFlags → orFlags s = orFlags t →
        ∀ f : Nat, f ∈ s ↔ f ∈ t) ∧
      (∀ w : Nat, ∀ f ∈ allNggFlags, ∀ g ∈ allNggFlags, f ≠ g →
        hasFlag (setFlag w g) f = hasFlag w f ∧ hasFlag (clearFlag w g) f = hasFlag w f) := by
  refine ⟨by decide, by decide, by decide, by decide, by decide, ?_, ?_⟩
  · intro s t hs ht hst f
    constructor
    · intro hf
      rw [← hasFlag_orFlags_iff t ht f (hs hf), ← hst, hasFlag_orFlags_iff s hs f (hs hf)]
      exact hf
    · intro hf
      rw [← hasFlag_orFlags_iff s hs f (ht hf), hst, hasFlag_orFlags_iff t ht f (ht hf)]
      exact hf
  · intro w f hf g hg hfg
    obtain ⟨i, hi, rfl⟩ := (mem_allNggFlags_iff f).mp hf
    obtain ⟨j, _, rfl⟩ := (mem_allNggFlags_iff g).mp hg
    have hij : i ≠ j := fun h => hfg (by rw [h])
    have h := testBit_setFlag_clearFlag w i j hij (by omega)
    rw [hasFlag_two_pow, hasFlag_two_pow, hasFlag_two_pow]
    exact h

/-- C18: pipeline options round-trip. After `SetOptions(o)`, `GetOptions()` is `o`, equal
in every field (hash, includeDisassembly, reconfigWorkgroupLayout, includeIr, nggFlags,
nggBackfaceExponent, nggSubgroupSizing, nggVertsPerSubgroup, nggPrimsPerSubgroup), and this
still holds after any later sequence of `SetShaderOptions` calls on any stages. -/
theorem C18_options_round_trip (ps : PipelineState) (o : Options)
    (calls : List (ShaderStage × ShaderOptions)) :
    (SetOptions ps o).GetOptions = o ∧
      (calls.foldl (fun st c => SetShaderOptions st c.1 c.2) (SetOptions ps o)).GetOptions = o ∧
      ((calls.foldl (fun st c => SetShaderOptions st c.1 c.2)
            (SetOptions ps o)).GetOptions.hash0 = o.hash0 ∧
        (calls.foldl (fun st c => SetShaderOptions st c.1 c.2)
            (SetOptions ps o)).GetOptions.hash1 = o.hash1 ∧
        (calls.foldl (fun st c => SetShaderOptions st c.1 c.2)
            (SetOptions ps o)).GetOptions.includeDisassembly = o.includeDisassembly ∧
        (calls.foldl (fun st c => SetShaderOptions st c.1 c.2)
            (SetOptions ps o)).GetOptions.reconfigWorkgroupLayout = o.reconfigWorkgroupLayout ∧
        (calls.foldl (fun st c => SetShaderOptions st c.1 c.2)
            (SetOptions ps o)).GetOptions.includeIr = o.includeIr ∧
        (calls.foldl (fun st c => SetShaderOptions st c.1 c.2)
            (SetOptions ps o)).GetOptions.nggFlags = o.nggFlags ∧
        (calls.foldl (fun st c => SetShaderOptions st c.1 c.2)
            (SetOptions ps o)).GetOptions.nggBackfaceExponent = o.nggBackfaceExponent ∧
        (calls.foldl (fun st c => SetShaderOptions st c.1 c.2)
            (SetOptions ps o)).GetOptions.nggSubgroupSizing = o.nggSubgroupSizing ∧
        (calls.foldl (fun st c => SetShaderOptions st c.1 c.2)
            (SetOptions ps o)).GetOptions.nggVertsPerSubgroup = o.nggVertsPerSubgroup ∧
        (calls.foldl (fun st c => SetShaderOptions st c.1 c.2)
            (SetOptions ps o)).GetOptions.nggPrimsPerSubgroup = o.nggPrimsPerSubgroup) := by
  have h : (calls.foldl (fun st c => SetShaderOptions st c.1 c.2)
      (SetOptions ps o)).GetOptions = o := by
    rw [GetOptions_foldl_SetShaderOptions]
    rfl
  refine ⟨rfl, h, ?_⟩
  rw [h]
  simp

/-- C19: the fixed hardware sizing constants of the Gfx6 chip definitions have the values
the spec states: 128 ES threads per GS thread, 256 GS primitives per ES thread, 2 GS threads
per VS thread and at most 128 on-chip primitives per subgroup; and the on-chip GS mode is
encoded as 0 for off and 3 for on. -/
theorem C19_gfx6_sizing_constants :
    Gfx6.EsThreadsPerGsThread = 128 ∧ Gfx6.GsPrimsPerEsThread = 256 ∧
      Gfx6.GsThreadsPerVsThread = 2 ∧ Gfx6.GsOnChipMaxPrimsPerSubgroup = 128 ∧
      Gfx6.VGT_GS_MODE_ONCHIP_OFF = 0 ∧ Gfx6.VGT_GS_MODE_ONCHIP_ON = 3 :=
  ⟨rfl, rfl, rfl, rfl, rfl, rfl⟩

/-- C20 as stated fails: in a VS-FS pipeline under NGG in non-passthrough mode the function
of GS convention is the merged primitive shader; its resolved abstract stage is the vertex
stage, not the geometry stage, and it receives `,+ci-insts,+enable-ds128`. -/
theorem C20_vertex_stage_receives_merged_tokens_counterexample :
    shapeStageOf nggVsFsPipelineState.GetShaderStageMask CallingConv.AMDGPU_GS =
        ShaderStage.ShaderStageVertex ∧
      getAttribute "target-features"
          (setupFunctionAttributes true shapeStageOf false nggVsFsPipelineState
            (entryPoint "prim_shader" CallingConv.AMDGPU_GS)).attrs =
        some (",+ci-insts,+enable-ds128,+enable-scratch-bounds-checks" ++
          ",+wavefrontsize64,+cumode") ∧
      ",+ci-insts,+enable-ds128".data <:+:
        (",+ci-insts,+enable-ds128,+enable-scratch-bounds-checks" ++
          ",+wavefrontsize64,+cumode").data := by
  refine ⟨by decide, by decide, by decide⟩

/-- C20, amended: in a build with GFX10 support, the merged-primitive-shader tokens
`,+ci-insts,+enable-ds128` are in the feature string of a non-empty function of external
linkage if and only if the function has the GS calling convention (the hardware stage of the
merged primitive shader), NGG is enabled and NGG is not in passthrough mode, and the same
holds for each of the two tokens alone; a function of any other calling convention never
receives them, whatever abstract stage it resolves to. -/
theorem C20_merged_tokens_iff_gs_convention_under_ngg
    (getStage : Nat → CallingConv → ShaderStage) (ovr : Bool) (ps : PipelineState)
    (m : Module) (f f1 : Function)
    (hmem : (f, f1) ∈ m.zip (SetupTargetFeatures true getStage ovr ps m))
    (hne : f.empty = false) (hext : f.linkage = LinkageTypes.ExternalLinkage) :
    ∃ s : String, getAttribute "target-features" f1.attrs = some s ∧
      (",+ci-insts,+enable-ds128".data <:+: s.data ↔
        (f.callingConv = CallingConv.AMDGPU_GS ∧ ps.GetNggControl.enableNgg = true ∧
          ps.GetNggControl.passthroughMode = false)) ∧
      ("+ci-insts".data <:+: s.data ↔
        (f.callingConv = CallingConv.AMDGPU_GS ∧ ps.GetNggControl.enableNgg = true ∧
          ps.GetNggControl.passthroughMode = false)) ∧
      ("+enable-ds128".data <:+: s.data ↔
        (f.callingConv = CallingConv.AMDGPU_GS ∧ ps.GetNggControl.enableNgg = true ∧
          ps.GetNggControl.passthroughMode = false)) := by
  have hw1 := not_isInfix_waveToken (n := "+ci-insts".data) '-' (by decide)
    (by decide) (by decide) (ps.GetShaderWaveSize (getStage ps.GetShaderStageMask f.callingConv))
  have hw2 := not_isInfix_waveToken (n := "+enable-ds128".data) '-' (by decide)
    (by decide) (by decide) (ps.GetShaderWaveSize (getStage ps.GetShaderStageMask f.callingConv))
  have h1 : "+ci-insts".data <:+: (targetFeaturesOf true getStage ovr ps f.callingConv).data ↔
      (f.callingConv = CallingConv.AMDGPU_GS ∧ ps.GetNggControl.enableNgg = true ∧
        ps.GetNggControl.passthroughMode = false) := by
    rw [isInfix_targetFeatures_expand (by decide) (by decide),
      exists_fp64Fp16DenormToken_iff, exists_fp32DenormToken_iff]
    simp +decide [hw1]
  have h2 : "+enable-ds128".data <:+:
      (targetFeaturesOf true getStage ovr ps f.callingConv).data ↔
      (f.callingConv = CallingConv.AMDGPU_GS ∧ ps.GetNggControl.enableNgg = true ∧
        ps.GetNggControl.passthroughMode = false) := by
    rw [isInfix_targetFeatures_expand (by decide) (by decide),
      exists_fp64Fp16DenormToken_iff, exists_fp32DenormToken_iff]
    simp +decide [hw2]
  refine ⟨_, getAttribute_targetFeatures hmem hne hext, ⟨fun h => ?_, fun h => ?_⟩, h1, h2⟩
  · have h0 : "+ci-insts".data <:+: ",+ci-insts,+enable-ds128".data := by decide
    exact h1.mp (h0.trans h)
  · exact nggPiece_isInfix getStage ovr ps f.callingConv h

/-- C20 amended, worked example: the GS entry point of the fully enabled GFX10 state carries
both tokens. -/
theorem C20_merged_tokens_iff_gs_convention_under_ngg_witness :
    ∃ s : String,
      getAttribute "target-features"
          (setupFunctionAttributes true exampleStageOf false fullPipelineState
            (entryPoint "gs_main" CallingConv.AMDGPU_GS)).attrs = some s ∧
        ",+ci-insts,+enable-ds128".data <:+: s.data := by
  obtain ⟨s, h1, h2, _⟩ := C20_merged_tokens_iff_gs_convention_under_ngg exampleStageOf false
    fullPipelineState
    [entryPoint "gs_main" CallingConv.AMDGPU_GS] (entryPoint "gs_main" CallingConv.AMDGPU_GS)
    (setupFunctionAttributes true exampleStageOf false fullPipelineState
      (entryPoint "gs_main" CallingConv.AMDGPU_GS))
    (by simp [SetupTargetFeatures]) rfl rfl
  exact ⟨s, h1, h2.mpr (by decide)⟩

/-- C23: for every pipeline state and every non-empty function of external linkage, the
feature string never contains both `+fp64-fp16-denormals` and `-fp64-fp16-denormals` and
contains each of them at most once; when the two fields disagree (one of the fp16 and fp64
denormal modes is FlushNone or FlushIn and the other is FlushOut or FlushInOut) the
disabling token is not emitted, and the enabling token is emitted unless the stage is the
copy shader, for which no denormal token is derived; and the string is the same when the
fp16 and the fp64 denormal modes are exchanged. -/
theorem C23_fp64_fp16_token_exclusive_and_symmetric
    (b : Bool) (getStage : Nat → CallingConv → ShaderStage) (ovr : Bool) (ps : PipelineState)
    (m : Module) (f f1 f2 : Function)
    (hmem : (f, f1) ∈ m.zip (SetupTargetFeatures b getStage ovr ps m))
    (hmem2 : (f, f2) ∈ m.zip (SetupTargetFeatures b getStage ovr
      { ps with GetCommonShaderMode := fun st => swapFp16Fp64 (ps.GetCommonShaderMode st) } m))
    (hne : f.empty = false) (hext : f.linkage = LinkageTypes.ExternalLinkage) :
    ∃ s : String, getAttribute "target-features" f1.attrs = some s ∧
      ¬ ("+fp64-fp16-denormals".data <:+: s.data ∧ "-fp64-fp16-denormals".data <:+: s.data) ∧
      countOccurrences "+fp64-fp16-denormals".data s.data ≤ 1 ∧
      countOccurrences "-fp64-fp16-denormals".data s.data ≤ 1 ∧
      ((((ps.GetCommonShaderMode (getStage ps.GetShaderStageMask f.callingConv)).fp16DenormMode =
              FpDenormMode.FlushNone ∨
            (ps.GetCommonShaderMode (getStage ps.GetShaderStageMask f.callingConv)).fp16DenormMode =
              FpDenormMode.FlushIn) ∧
          ((ps.GetCommonShaderMode (getStage ps.GetShaderStageMask f.callingConv)).fp64DenormMode =
              FpDenormMode.FlushOut ∨
            (ps.GetCommonShaderMode (getStage ps.GetShaderStageMask f.callingConv)).fp64DenormMode =
              FpDenormMode.FlushInOut)) ∨
        (((ps.GetCommonShaderMode (getStage ps.GetShaderStageMask f.callingConv)).fp64DenormMode =
              FpDenormMode.FlushNone ∨
            (ps.GetCommonShaderMode (getStage ps.GetShaderStageMask f.callingConv)).fp64DenormMode =
              FpDenormMode.FlushIn) ∧
          ((ps.GetCommonShaderMode (getStage ps.GetShaderStageMask f.callingConv)).fp16DenormMode =
              FpDenormMode.FlushOut ∨
            (ps.GetCommonShaderMode (getStage ps.GetShaderStageMask f.callingConv)).fp16DenormMode =
              FpDenormMode.FlushInOut)) →
        ¬ "-fp64-fp16-denormals".data <:+: s.data ∧
          (getStage ps.GetShaderStageMask f.callingConv ≠ ShaderStage.ShaderStageCopyShader →
            "+fp64-fp16-denormals".data <:+: s.data)) ∧
      getAttribute "target-features" f2.attrs = some s := by
  have hw1 := not_isInfix_waveToken (n := "+fp64-fp16-denormals".data) '-' (by decide)
    (by decide) (by decide) (ps.GetShaderWaveSize (getStage ps.GetShaderStageMask f.callingConv))
  have hw2 := not_isInfix_waveToken (n := "-fp64-fp16-denormals".data) '-' (by decide)
    (by decide) (by decide) (ps.GetShaderWaveSize (getStage ps.GetShaderStageMask f.callingConv))
  have hp : "+fp64-fp16-denormals".data <:+:
      (targetFeaturesOf b getStage ovr ps f.callingConv).data ↔
      (getStage ps.GetShaderStageMask f.callingConv ≠ ShaderStage.ShaderStageCopyShader ∧
        ((ps.GetCommonShaderMode (getStage ps.GetShaderStageMask f.callingConv)).fp16DenormMode =
            FpDenormMode.FlushNone ∨
          (ps.GetCommonShaderMode (getStage ps.GetShaderStageMask f.callingConv)).fp16DenormMode =
            FpDenormMode.FlushIn ∨
          (ps.GetCommonShaderMode (getStage ps.GetShaderStageMask f.callingConv)).fp64DenormMode =
            FpDenormMode.FlushNone ∨
          (ps.GetCommonShaderMode (getStage ps.GetShaderStageMask f.callingConv)).fp64DenormMode =
            FpDenormMode.FlushIn)) := by
    rw [isInfix_targetFeatures_expand (by decide) (by decide),
      exists_fp64Fp16DenormToken_iff, exists_fp32DenormToken_iff]
    simp +decide [hw1]
  have hm : "-fp64-fp16-denormals".data <:+:
      (targetFeaturesOf b getStage ovr ps f.callingConv).data →
      ¬ ((ps.GetCommonShaderMode (getStage ps.GetShaderStageMask f.callingConv)).fp16DenormMode =
            FpDenormMode.FlushNone ∨
          (ps.GetCommonShaderMode (getStage ps.GetShaderStageMask f.callingConv)).fp16DenormMode =
            FpDenormMode.FlushIn ∨
          (ps.GetCommonShaderMode (getStage ps.GetShaderStageMask f.callingConv)).fp64DenormMode =
            FpDenormMode.FlushNone ∨
          (ps.GetCommonShaderMode (getStage ps.GetShaderStageMask f.callingConv)).fp64DenormMode =
            FpDenormMode.FlushIn) := by
    rw [isInfix_targetFeatures_expand (by decide) (by decide),
      exists_fp64Fp16DenormToken_iff, exists_fp32DenormToken_iff]
    simp +decide [hw2]
    tauto
  have hc1 := countOccurrences_eq_zero (n := "+fp64-fp16-denormals".data) (by decide) _ hw1
  have hc2 := countOccurrences_eq_zero (n := "-fp64-fp16-denormals".data) (by decide) _ hw2
  refine ⟨_, getAttribute_targetFeatures hmem hne hext, ?_, ?_, ?_, ?_, ?_⟩
  · rintro ⟨h1, h2⟩
    exact hm h2 (hp.mp h1).2
  · rw [countOccurrences_targetFeatures (by decide) (by decide), sum_map_featureTokens,
      sum_map_fp64Fp16DenormTokens, sum_map_fp32DenormTokens, hc1]
    simp +decide [countOccurrences]
    split_ifs <;> simp
  · rw [countOccurrences_targetFeatures (by decide) (by decide), sum_map_featureTokens,
      sum_map_fp64Fp16DenormTokens, sum_map_fp32DenormTokens, hc2]
    simp +decide [countOccurrences]
    split_ifs <;> simp
  · intro hdis
    constructor
    · intro h2
      apply hm h2
      rcases hdis with ⟨h, _⟩ | ⟨h, _⟩
      · rcases h with h | h
        · exact Or.inl h
        · exact Or.inr (Or.inl h)
      · rcases h with h | h
        · exact Or.inr (Or.inr (Or.inl h))
        · exact Or.inr (Or.inr (Or.inr h))
    · intro hstage
      refine hp.mpr ⟨hstage, ?_⟩
      rcases hdis with ⟨h, _⟩ | ⟨h, _⟩
      · rcases h with h | h
        · exact Or.inl h
        · exact Or.inr (Or.inl h)
      · rcases h with h | h
        · exact Or.inr (Or.inr (Or.inl h))
        · exact Or.inr (Or.inr (Or.inr h))
  · rw [getAttribute_targetFeatures hmem2 hne hext, targetFeaturesOf_swap]

/-- C23, worked example: fp16 mode FlushOut and fp64 mode FlushNone on a fragment entry
point give the enabling token and not the disabling one. -/
theorem C23_fp64_fp16_token_exclusive_and_symmetric_witness :
    ∃ s : String,
      getAttribute "target-features"
          (setupFunctionAttributes true exampleStageOf false mixedDenormPipelineState
            (entryPoint "ps_main" CallingConv.AMDGPU_PS)).attrs = some s ∧
        "+fp64-fp16-denormals".data <:+: s.data ∧
        ¬ "-fp64-fp16-denormals".data <:+: s.data := by
  obtain ⟨s, h1, _, _, _, h5, _⟩ := C23_fp64_fp16_token_exclusive_and_symmetric true
    exampleStageOf false mixedDenormPipelineState
    [entryPoint "ps_main" CallingConv.AMDGPU_PS] (entryPoint "ps_main" CallingConv.AMDGPU_PS)
    (setupFunctionAttributes true exampleStageOf false mixedDenormPipelineState
      (entryPoint "ps_main" CallingConv.AMDGPU_PS))
    (setupFunctionAttributes true exampleStageOf false
      { mixedDenormPipelineState with
        GetCommonShaderMode := fun st =>
          swapFp16Fp64 (mixedDenormPipelineState.GetCommonShaderMode st) }
      (entryPoint "ps_main" CallingConv.AMDGPU_PS))
    (by simp [SetupTargetFeatures]) (by simp [SetupTargetFeatures]) rfl rfl
  have h := h5 (Or.inr ⟨Or.inl rfl, Or.inl rfl⟩)
  exact ⟨s, h1, h.2 (by decide), h.1⟩

/-- C24: the global override does not suppress the fp32 token of the stage. With the
override set and a stage other than the copy shader: if the fp32 denormal mode is FlushNone
or FlushIn the feature string contains `,-fp32-denormals` and, after it, `,+fp32-denormals`,
each exactly once; if the mode is FlushOut or FlushInOut the string contains
`,-fp32-denormals` exactly twice. -/
theorem C24_override_does_not_suppress_fp32_token
    (b : Bool) (getStage : Nat → CallingConv → ShaderStage) (ps : PipelineState)
    (m : Module) (f f1 : Function)
    (hmem : (f, f1) ∈ m.zip (SetupTargetFeatures b getStage true ps m))
    (hne : f.empty = false) (hext : f.linkage = LinkageTypes.ExternalLinkage)
    (hstage : getStage ps.GetShaderStageMask f.callingConv ≠ ShaderStage.ShaderStageCopyShader) :
    ∃ s : String, getAttribute "target-features" f1.attrs = some s ∧
      (((ps.GetCommonShaderMode (getStage ps.GetShaderStageMask f.callingConv)).fp32DenormMode =
            FpDenormMode.FlushNone ∨
          (ps.GetCommonShaderMode (getStage ps.GetShaderStageMask f.callingConv)).fp32DenormMode =
            FpDenormMode.FlushIn) →
        (∃ x y z : List Char,
          s.data = x ++ ",-fp32-denormals".data ++ y ++ ",+fp32-denormals".data ++ z) ∧
        countOccurrences ",-fp32-denormals".data s.data = 1 ∧
        countOccurrences ",+fp32-denormals".data s.data = 1) ∧
      (((ps.GetCommonShaderMode (getStage ps.GetShaderStageMask f.callingConv)).fp32DenormMode =
            FpDenormMode.FlushOut ∨
          (ps.GetCommonShaderMode (getStage ps.GetShaderStageMask f.callingConv)).fp32DenormMode =
            FpDenormMode.FlushInOut) →
        countOccurrences ",-fp32-denormals".data s.data = 2) := by
  have hwm : ¬ "-fp32-denormals".data <+:
      waveToken (ps.GetShaderWaveSize (getStage ps.GetShaderStageMask f.callingConv)) :=
    fun h => not_isInfix_waveToken '-' (by decide) (by decide) (by decide) _ h.isInfix
  have hwp : ¬ "+fp32-denormals".data <+:
      waveToken (ps.GetShaderWaveSize (getStage ps.GetShaderStageMask f.callingConv)) :=
    fun h => not_isInfix_waveToken '-' (by decide) (by decide) (by decide) _ h.isInfix
  have em : ",-fp32-denormals".data = ',' :: "-fp32-denormals".data := rfl
  have ep : ",+fp32-denormals".data = ',' :: "+fp32-denormals".data := rfl
  refine ⟨_, getAttribute_targetFeatures hmem hne hext, ?_, ?_⟩
  · intro h
    refine ⟨?_, ?_, ?_⟩
    · rw [targetFeaturesOf_eq]
      simp only [featurePieces, String.join, List.foldl_cons, List.foldl_nil,
        String.data_append, fp32DenormToken, hstage, h, if_true, if_false]
      exact exists_between_split _ _ _ _ _ _ _ _
    · rw [em, countOccurrences_comma_targetFeatures (by decide), sum_map_featureTokens,
        sum_map_fp64Fp16DenormTokens, sum_map_fp32DenormTokens]
      simp +decide [hwm, hstage, h]
    · rw [ep, countOccurrences_comma_targetFeatures (by decide), sum_map_featureTokens,
        sum_map_fp64Fp16DenormTokens, sum_map_fp32DenormTokens]
      simp +decide [hwp, hstage, h]
  · intro h
    have h1 : ¬ ((ps.GetCommonShaderMode (getStage ps.GetShaderStageMask
          f.callingConv)).fp32DenormMode = FpDenormMode.FlushNone ∨
        (ps.GetCommonShaderMode (getStage ps.GetShaderStageMask f.callingConv)).fp32DenormMode =
          FpDenormMode.FlushIn) := by
      rcases h with h | h <;> rw [h] <;> decide
    rw [em, countOccurrences_comma_targetFeatures (by decide), sum_map_featureTokens,
      sum_map_fp64Fp16DenormTokens, sum_map_fp32DenormTokens]
    simp +decide [hwm, hstage, h, h1]

/-- C24, worked example: with the override set, a fragment entry point whose fp32 mode is
FlushOut carries the disabling token twice. -/
theorem C24_override_does_not_suppress_fp32_token_witness :
    ∃ s : String,
      getAttribute "target-features"
          (setupFunctionAttributes true exampleStageOf true fullPipelineState
            (entryPoint "ps_main" CallingConv.AMDGPU_PS)).attrs = some s ∧
        countOccurrences ",-fp32-denormals".data s.data = 2 := by
  obtain ⟨s, h1, _, h3⟩ := C24_override_does_not_suppress_fp32_token true exampleStageOf
    fullPipelineState
    [entryPoint "ps_main" CallingConv.AMDGPU_PS] (entryPoint "ps_main" CallingConv.AMDGPU_PS)
    (setupFunctionAttributes true exampleStageOf true fullPipelineState
      (entryPoint "ps_main" CallingConv.AMDGPU_PS))
    (by simp [SetupTargetFeatures]) rfl rfl (by decide)
  exact ⟨s, h1, h3 (Or.inl rfl)⟩

/-- C21 as stated fails: for a register whose constant `mm##_reg` is `0x2C4A`, `INIT_REG`
stores the ID `0x2C4A`, while `ADD_REG_MAP` writes the name under the byte offset
`0x2C4A * 4 = 0xB128`; the lookup at the stored ID finds no name. -/
theorem C21_lookup_at_stored_id_counterexample :
    (Gfx6.INIT_REG 0x2C4A).ID = 0x2C4A ∧
      Gfx6.ADD_REG_MAP 0x2C4A "SPI_SHADER_PGM_RSRC1_VS" Gfx6.emptyRegNameMap
          (Gfx6.INIT_REG 0x2C4A).ID = none ∧
      Gfx6.ADD_REG_MAP 0x2C4A "SPI_SHADER_PGM_RSRC1_VS" Gfx6.emptyRegNameMap
          (Gfx6.INIT_REG 0x2C4A).ID ≠ some "SPI_SHADER_PGM_RSRC1_VS" := by
  refine ⟨rfl, by decide, by decide⟩

/-- C21, amended: the ID that `INIT_REG` stores is the register constant `mm##_reg`, and
`ADD_REG_MAP` registers the name under the byte offset, four times that ID. After
`ADD_REG_MAP` for a list of registers of pairwise different constants whose byte offsets fit
32 bits, on any map, looking up four times the ID that `INIT_REG` stores for a register of
the list yields the name of that register; a key that is not a multiple of 4 is left as it
was; and the entry written for a register whose constant is not 0 leaves the key equal to
the stored ID as it was. -/
theorem C21_name_is_registered_under_four_times_the_id
    (regs : List (Nat × String)) (regNameMap : Nat → Option String)
    (hdistinct : (regs.map Prod.fst).Nodup) (hfit : ∀ x ∈ regs, x.1 * 4 < 2 ^ 32)
    (r : Nat × String) (hr : r ∈ regs) :
    (Gfx6.INIT_REG r.1).ID = r.1 ∧
      regs.foldl (fun m x => Gfx6.ADD_REG_MAP x.1 x.2 m) regNameMap
          ((Gfx6.INIT_REG r.1).ID * 4) = some r.2 ∧
      (∀ key : Nat, key % 4 ≠ 0 →
        regs.foldl (fun m x => Gfx6.ADD_REG_MAP x.1 x.2 m) regNameMap key = regNameMap key) ∧
      (0 < r.1 →
        Gfx6.ADD_REG_MAP r.1 r.2 regNameMap (Gfx6.INIT_REG r.1).ID =
          regNameMap (Gfx6.INIT_REG r.1).ID) := by
  refine ⟨rfl, foldl_ADD_REG_MAP_of_mem regs regNameMap hdistinct hfit r hr, ?_, ?_⟩
  · intro key hkey
    apply foldl_ADD_REG_MAP_of_not_mem
    intro x hx e
    rw [Nat.mod_eq_of_lt (hfit x hx)] at e
    omega
  · intro hpos
    apply ADD_REG_MAP_of_ne
    rw [Nat.mod_eq_of_lt (hfit r hr)]
    show r.1 ≠ r.1 * 4
    omega

/-- C21 amended, worked example: with the names of two registers added to the empty map, the
name of the register of constant `0x2C4A` is found under `0xB128`. -/
theorem C21_name_is_registered_under_four_times_the_id_witness :
    [((0x2C4A : Nat), "SPI_SHADER_PGM_RSRC1_VS"), (0x2C4B, "SPI_SHADER_PGM_RSRC2_VS")].foldl
        (fun m x => Gfx6.ADD_REG_MAP x.1 x.2 m) Gfx6.emptyRegNameMap 0xB128 =
      some "SPI_SHADER_PGM_RSRC1_VS" :=
  (C21_name_is_registered_under_four_times_the_id
    [(0x2C4A, "SPI_SHADER_PGM_RSRC1_VS"), (0x2C4B, "SPI_SHADER_PGM_RSRC2_VS")]
    Gfx6.emptyRegNameMap (by decide) (by decide)
    (0x2C4A, "SPI_SHADER_PGM_RSRC1_VS") (by decide)).2.1

/-- C22: each Gfx6 pipeline register config bundles exactly the hardware-stage configs of
its pipeline shape: VS-FS has VS and PS; VS-TS-FS has LS, HS, VS and PS; VS-GS-FS has ES, GS,
PS and VS (copy shader); VS-TS-GS-FS has LS, HS, ES, GS, PS and VS (copy shader); the compute
config has none. No config holds a hardware-stage config twice. Every graphics config
defines `VGT_SHADER_STAGES_EN` and `IA_MULTI_VGT_PARAM`, defines `VGT_TF_PARAM` if and only
if it contains the HS config, which it does if and only if it contains the LS config, and
defines no other register itself; a config contains the GS config if and only if it
contains the ES config. -/
theorem C22_pipeline_reg_config_members :
    Gfx6.PipelineRegConfig.PipelineVsFsRegConfig.subConfigs =
        [Gfx6.HwStageRegConfig.VsRegConfig, Gfx6.HwStageRegConfig.PsRegConfig] ∧
      Gfx6.PipelineRegConfig.PipelineVsTsFsRegConfig.subConfigs =
        [Gfx6.HwStageRegConfig.LsRegConfig, Gfx6.HwStageRegConfig.HsRegConfig,
          Gfx6.HwStageRegConfig.VsRegConfig, Gfx6.HwStageRegConfig.PsRegConfig] ∧
      Gfx6.PipelineRegConfig.PipelineVsGsFsRegConfig.subConfigs =
        [Gfx6.HwStageRegConfig.EsRegConfig, Gfx6.HwStageRegConfig.GsRegConfig,
          Gfx6.HwStageRegConfig.PsRegConfig, Gfx6.HwStageRegConfig.VsRegConfig] ∧
      Gfx6.PipelineRegConfig.PipelineVsTsGsFsRegConfig.subConfigs =
        [Gfx6.HwStageRegConfig.LsRegConfig, Gfx6.HwStageRegConfig.HsRegConfig,
          Gfx6.HwStageRegConfig.EsRegConfig, Gfx6.HwStageRegConfig.GsRegConfig,
          Gfx6.HwStageRegConfig.PsRegConfig, Gfx6.HwStageRegConfig.VsRegConfig] ∧
      Gfx6.PipelineRegConfig.CsRegConfig.subConfigs = [] ∧
      (∀ c : Gfx6.PipelineRegConfig, c.subConfigs.Nodup ∧ c.allRegs.Nodup) ∧
      (∀ c : Gfx6.PipelineRegConfig, c ≠ Gfx6.PipelineRegConfig.CsRegConfig →
        "VGT_SHADER_STAGES_EN" ∈ c.regs ∧ "IA_MULTI_VGT_PARAM" ∈ c.regs ∧
        ("VGT_TF_PARAM" ∈ c.regs ↔ Gfx6.HwStageRegConfig.HsRegConfig ∈ c.subConfigs) ∧
        (Gfx6.HwStageRegConfig.HsRegConfig ∈ c.subConfigs ↔
          Gfx6.HwStageRegConfig.LsRegConfig ∈ c.subConfigs) ∧
        (∀ r ∈ c.regs,
          r = "VGT_SHADER_STAGES_EN" ∨ r = "IA_MULTI_VGT_PARAM" ∨ r = "VGT_TF_PARAM")) ∧
      (∀ c : Gfx6.PipelineRegConfig,
        Gfx6.HwStageRegConfig.GsRegConfig ∈ c.subConfigs ↔
          Gfx6.HwStageRegConfig.EsRegConfig ∈ c.subConfigs) := by
  refine ⟨rfl, rfl, rfl, rfl, rfl, ?_, ?_, ?_⟩
  · intro c
    cases c <;> exact ⟨by decide, by decide⟩
  · intro c hc
    cases c
    · exact ⟨by decide, by decide, by decide, by decide, by decide⟩
    · exact ⟨by decide, by decide, by decide, by decide, by decide⟩
    · exact ⟨by decide, by decide, by decide, by decide, by decide⟩
    · exact ⟨by decide, by decide, by decide, by decide, by decide⟩
    · exact absurd rfl hc
  · intro c
    cases c <;> decide

/-- C25: the compute flat work-group size is computed in 32-bit unsigned arithmetic. For
every workgroup size `(X, Y, Z)` the value rendered in `"amdgpu-flat-work-group-size"` of a
compute function is `(X * Y * Z) mod 2 ^ 32`, in the builder and on every non-empty compute
function of external linkage after the call; for `65536 x 65536 x 1`, where no dimension is
zero, the attribute is `"0,0"`. -/
theorem C25_flat_work_group_size_wraps
    (b : Bool) (getStage : Nat → CallingConv → ShaderStage) (ovr : Bool) (ps : PipelineState) :
    getAttribute "amdgpu-flat-work-group-size"
          (setupFunction b getStage ovr ps CallingConv.AMDGPU_CS).builder =
        some (toString ((ps.GetComputeShaderMode.workgroupSizeX *
              ps.GetComputeShaderMode.workgroupSizeY *
              ps.GetComputeShaderMode.workgroupSizeZ) % 2 ^ 32) ++ "," ++
          toString ((ps.GetComputeShaderMode.workgroupSizeX *
              ps.GetComputeShaderMode.workgroupSizeY *
              ps.GetComputeShaderMode.workgroupSizeZ) % 2 ^ 32)) ∧
      (∀ (m : Module) (f f1 : Function),
        (f, f1) ∈ m.zip (SetupTargetFeatures b getStage ovr ps m) →
        f.empty = false → f.linkage = LinkageTypes.ExternalLinkage →
        f.callingConv = CallingConv.AMDGPU_CS →
        getAttribute "amdgpu-flat-work-group-size" f1.attrs =
          some (toString ((ps.GetComputeShaderMode.workgroupSizeX *
                ps.GetComputeShaderMode.workgroupSizeY *
                ps.GetComputeShaderMode.workgroupSizeZ) % 2 ^ 32) ++ "," ++
            toString ((ps.GetComputeShaderMode.workgroupSizeX *
                ps.GetComputeShaderMode.workgroupSizeY *
                ps.GetComputeShaderMode.workgroupSizeZ) % 2 ^ 32))) ∧
      getAttribute "amdgpu-flat-work-group-size"
          (setupFunction b getStage ovr hugeWorkgroupPipelineState
            CallingConv.AMDGPU_CS).builder = some "0,0" := by
  have h1 : ∀ ps1 : PipelineState, getAttribute "amdgpu-flat-work-group-size"
      (setupFunction b getStage ovr ps1 CallingConv.AMDGPU_CS).builder =
        some (toString (flatWorkGroupSize ps1.GetComputeShaderMode) ++ "," ++
          toString (flatWorkGroupSize ps1.GetComputeShaderMode)) := by
    intro ps1
    rw [setupFunction_builder]
    by_cases hu :
        (ps1.GetShaderOptions (getStage ps1.GetShaderStageMask
          CallingConv.AMDGPU_CS)).useSiScheduler = true <;>
      simp +decide [hu, getAttribute]
  refine ⟨?_, fun m f f1 hmem hne hext hcs => ?_, ?_⟩
  · rw [h1, flatWorkGroupSize_eq_mod]
  · rw [getAttribute_flatWorkGroupSize_cs hmem hne hext hcs, flatWorkGroupSize_eq_mod]
  · rw [h1]
    decide

/-- C25, worked example: the compute entry point of the `65536 x 65536 x 1` state carries
`"0,0"` after the call. -/
theorem C25_flat_work_group_size_wraps_witness :
    getAttribute "amdgpu-flat-work-group-size"
        (setupFunctionAttributes true exampleStageOf false hugeWorkgroupPipelineState
          (entryPoint "cs_main" CallingConv.AMDGPU_CS)).attrs = some "0,0" :=
  ((C25_flat_work_group_size_wraps true exampleStageOf false hugeWorkgroupPipelineState).2.1
    [entryPoint "cs_main" CallingConv.AMDGPU_CS] (entryPoint "cs_main" CallingConv.AMDGPU_CS)
    (setupFunctionAttributes true exampleStageOf false hugeWorkgroupPipelineState
      (entryPoint "cs_main" CallingConv.AMDGPU_CS))
    (by simp [SetupTargetFeatures]) rfl rfl rfl).trans (by decide)

/-- C26: shape of the feature string. For every non-empty function of external linkage the
`"target-features"` value is empty or begins with a comma, does not end with a comma,
contains no two adjacent commas, and splitting it at the commas gives an empty first
element followed by tokens that each begin with `+` or `-`. -/
theorem C26_feature_string_shape
    (b : Bool) (getStage : Nat → CallingConv → ShaderStage) (ovr : Bool) (ps : PipelineState)
    (m : Module) (f f1 : Function)
    (hmem : (f, f1) ∈ m.zip (SetupTargetFeatures b getStage ovr ps m))
    (hne : f.empty = false) (hext : f.linkage = LinkageTypes.ExternalLinkage) :
    ∃ s : String, getAttribute "target-features" f1.attrs = some s ∧
      (s.data = [] ∨ s.data.head? = some ',') ∧
      s.data.getLast? ≠ some ',' ∧
      ¬ [',', ','] <:+: s.data ∧
      (s.data.splitOn ',').head? = some [] ∧
      (∀ t ∈ (s.data.splitOn ',').tail,
        ∃ rest : List Char, t = '+' :: rest ∨ t = '-' :: rest) := by
  have hcomma := comma_not_mem_featureTokens b getStage ovr ps f.callingConv
  have hhead := featureTokens_head b getStage ovr ps f.callingConv
  have hsplit := splitOn_joinTokens _ hcomma
  refine ⟨_, getAttribute_targetFeatures hmem hne hext, ?_, ?_, ?_, ?_, ?_⟩
  · rw [targetFeaturesOf_data]
    exact joinTokens_eq_nil_or_head _
  · rw [targetFeaturesOf_data]
    apply joinTokens_getLast
    intro t ht
    refine ⟨?_, hcomma t ht⟩
    obtain ⟨rest, h | h⟩ := hhead t ht <;> rw [h] <;> exact List.cons_ne_nil _ _
  · rw [targetFeaturesOf_data]
    intro h
    have hnil : ([] : List Char) ∈ featureTokens b getStage ovr ps f.callingConv :=
      mem_of_comma_isInfix_joinTokens (t := []) (r := []) (by simp) _ hcomma h
    obtain ⟨rest, h1 | h1⟩ := hhead [] hnil <;> exact absurd h1 (by simp)
  · rw [targetFeaturesOf_data, hsplit]
    rfl
  · rw [targetFeaturesOf_data, hsplit]
    exact hhead

/-- C26, worked example: the feature string of the fully enabled fragment entry point. -/
theorem C26_feature_string_shape_witness :
    ∃ s : String,
      getAttribute "target-features"
          (setupFunctionAttributes true exampleStageOf false fullPipelineState
            (entryPoint "ps_main" CallingConv.AMDGPU_PS)).attrs = some s ∧
        s.data.head? = some ',' ∧ s.data.getLast? ≠ some ',' := by
  obtain ⟨s, h1, _, h3, _⟩ := C26_feature_string_shape true exampleStageOf false
    fullPipelineState
    [entryPoint "ps_main" CallingConv.AMDGPU_PS] (entryPoint "ps_main" CallingConv.AMDGPU_PS)
    (setupFunctionAttributes true exampleStageOf false fullPipelineState
      (entryPoint "ps_main" CallingConv.AMDGPU_PS))
    (by simp [SetupTargetFeatures]) rfl rfl
  have h0 : getAttribute "target-features"
      (setupFunctionAttributes true exampleStageOf false fullPipelineState
        (entryPoint "ps_main" CallingConv.AMDGPU_PS)).attrs =
      some (",+DumpCode,+si-scheduler,+enable-scratch-bounds-checks,+wavefrontsize64,+cumode" ++
        ",+fp64-fp16-denormals,-fp32-denormals") := by decide
  have hs : s = ",+DumpCode,+si-scheduler,+enable-scratch-bounds-checks,+wavefrontsize64,+cumode" ++
      ",+fp64-fp16-denormals,-fp32-denormals" := by
    rw [h0] at h1
    exact (Option.some.inj h1).symm
  refine ⟨s, h1, ?_, h3⟩
  rw [hs]
  rfl

/-- C27: all-zero defaults are neutral. With zero-initialised pipeline options, shader
options and common shader modes, the global override unset and a hardware generation with
major version below 9, on which the NGG control of the pipeline state does not enable NGG
(NGG is enabled only from GFX10 on), every non-empty function of external linkage that is
neither HS- nor CS-convention receives exactly one attribute, `"target-features"` with the
empty string as value: the builder holds that attribute and nothing else, the attributes of
the function after the call are those it had with `"target-features"` set to `""`, and a
function that had no attribute has exactly this one. -/
theorem C27_zero_defaults_are_neutral
    (b : Bool) (getStage : Nat → CallingConv → ShaderStage) (ps : PipelineState)
    (m : Module) (f f1 : Function)
    (hopt : ps.GetOptions = {})
    (hso : ∀ st : ShaderStage, ps.GetShaderOptions st = {})
    (hmode : ∀ st : ShaderStage, ps.GetCommonShaderMode st = {})
    (hmajor : ps.GetGfxIpVersion.major < 9)
    (hgen : ps.GetNggControl.enableNgg = true → ps.GetGfxIpVersion.major ≥ 10)
    (hmem : (f, f1) ∈ m.zip (SetupTargetFeatures b getStage false ps m))
    (hne : f.empty = false) (hext : f.linkage = LinkageTypes.ExternalLinkage)
    (hhs : f.callingConv ≠ CallingConv.AMDGPU_HS)
    (hcs : f.callingConv ≠ CallingConv.AMDGPU_CS) :
    (setupFunction b getStage false ps f.callingConv).builder = [("target-features", "")] ∧
      f1.attrs = addAttribute "target-features" "" f.attrs ∧
      (f.attrs = [] → f1.attrs = [("target-features", "")]) := by
  have h9 : ¬ ps.GetGfxIpVersion.major ≥ 9 := Nat.not_le.mpr hmajor
  have h10 : ¬ (b = true ∧ ps.GetGfxIpVersion.major ≥ 10) := fun h => by omega
  have hngg : ¬ (b = true ∧ f.callingConv = CallingConv.AMDGPU_GS ∧
      ps.GetNggControl.enableNgg = true ∧ ps.GetNggControl.passthroughMode = false) := by
    intro h
    have h1 := hgen h.2.2.1
    omega
  have htf : targetFeaturesOf b getStage false ps f.callingConv = "" := by
    rw [targetFeaturesOf_eq]
    simp only [featurePieces, fp64Fp16DenormToken, fp32DenormToken, hopt, hso, hmode, hngg,
      h9, h10]
    simp +decide [String.join]
  have hb : (setupFunction b getStage false ps f.callingConv).builder =
      [("target-features", "")] := by
    rw [setupFunction_builder, htf, hso]
    simp [hhs, hcs]
  have ha : f1.attrs = addAttribute "target-features" "" f.attrs := by
    rw [attrs_of_mem_zip hmem hne hext, hb]
    rfl
  refine ⟨hb, ha, fun h0 => ?_⟩
  rw [ha, h0]
  rfl

/-- C27, worked example: a fragment entry point of the zero-initialised state, a GFX6
target without NGG. -/
theorem C27_zero_defaults_are_neutral_witness :
    (setupFunctionAttributes true exampleStageOf false zeroPipelineState
        (entryPoint "ps_main" CallingConv.AMDGPU_PS)).attrs = [("target-features", "")] :=
  (C27_zero_defaults_are_neutral true exampleStageOf zeroPipelineState
    [entryPoint "ps_main" CallingConv.AMDGPU_PS] (entryPoint "ps_main" CallingConv.AMDGPU_PS)
    (setupFunctionAttributes true exampleStageOf false zeroPipelineState
      (entryPoint "ps_main" CallingConv.AMDGPU_PS))
    rfl (fun _ => rfl) (fun _ => rfl) (by decide) (by decide)
    (by simp [SetupTargetFeatures]) rfl rfl (by decide) (by decide)).2.2 rfl

/-- C28: the attributes that `SetupTargetFeatures` adds to one function. For every non-empty
function of external linkage, the attributes after the call are those the function had with
the attributes of the builder set in turn; the kinds of the builder are among
`"target-features"`, `"amdgpu-max-memory-clause"` and `"amdgpu-flat-work-group-size"` and are
pairwise different, so each kind is written at most once. After the call the function
carries `"target-features"` with the feature string; it carries
`"amdgpu-flat-work-group-size"` with the value `"128,128"` if its calling convention is
AMDGPU_HS, whatever the compute mode is, and with the compute value if it is AMDGPU_CS; for
every other calling convention that kind is as it was before the call, so a function that
did not have it has it after the call if and only if its calling convention is AMDGPU_HS or
AMDGPU_CS. Every attribute of a kind other than the three is as it was; a function that had
no attribute has exactly the attributes of the builder; and kinds that were pairwise
different stay so. -/
theorem C28_attribute_kinds
    (b : Bool) (getStage : Nat → CallingConv → ShaderStage) (ovr : Bool) (ps : PipelineState)
    (m : Module) (f f1 : Function)
    (hmem : (f, f1) ∈ m.zip (SetupTargetFeatures b getStage ovr ps m))
    (hne : f.empty = false) (hext : f.linkage = LinkageTypes.ExternalLinkage) :
    f1.attrs = addAttributes f.attrs (setupFunction b getStage ovr ps f.callingConv).builder ∧
      (∀ kv ∈ (setupFunction b getStage ovr ps f.callingConv).builder,
        kv.1 = "target-features" ∨ kv.1 = "amdgpu-max-memory-clause" ∨
          kv.1 = "amdgpu-flat-work-group-size") ∧
      ((setupFunction b getStage ovr ps f.callingConv).builder.map Prod.fst).Nodup ∧
      getAttribute "target-features" f1.attrs =
        some (targetFeaturesOf b getStage ovr ps f.callingConv) ∧
      (f.callingConv = CallingConv.AMDGPU_HS →
        getAttribute "amdgpu-flat-work-group-size" f1.attrs = some "128,128") ∧
      (f.callingConv = CallingConv.AMDGPU_CS →
        getAttribute "amdgpu-flat-work-group-size" f1.attrs =
          some (toString (flatWorkGroupSize ps.GetComputeShaderMode) ++ "," ++
            toString (flatWorkGroupSize ps.GetComputeShaderMode))) ∧
      (f.callingConv ≠ CallingConv.AMDGPU_HS → f.callingConv ≠ CallingConv.AMDGPU_CS →
        getAttribute "amdgpu-flat-work-group-size" f1.attrs =
          getAttribute "amdgpu-flat-work-group-size" f.attrs) ∧
      (getAttribute "amdgpu-flat-work-group-size" f.attrs = none →
        (getAttribute "amdgpu-flat-work-group-size" f1.attrs ≠ none ↔
          (f.callingConv = CallingConv.AMDGPU_HS ∨ f.callingConv = CallingConv.AMDGPU_CS))) ∧
      (∀ k : String, k ≠ "target-features" → k ≠ "amdgpu-max-memory-clause" →
        k ≠ "amdgpu-flat-work-group-size" →
        getAttribute k f1.attrs = getAttribute k f.attrs) ∧
      (f.attrs = [] → f1.attrs = (setupFunction b getStage ovr ps f.callingConv).builder) ∧
      ((f.attrs.map Prod.fst).Nodup → (f1.attrs.map Prod.fst).Nodup) := by
  have hkeys : ∀ kv ∈ (setupFunction b getStage ovr ps f.callingConv).builder,
      kv.1 = "target-features" ∨ kv.1 = "amdgpu-max-memory-clause" ∨
        kv.1 = "amdgpu-flat-work-group-size" := by
    intro kv hkv
    rw [setupFunction_builder] at hkv
    simp only [List.mem_append, List.mem_singleton] at hkv
    rcases hkv with (hkv | hkv) | hkv
    · split_ifs at hkv
      · rw [List.mem_singleton.mp hkv]
        exact Or.inr (Or.inl rfl)
      · simp at hkv
    · split_ifs at hkv
      · rw [List.mem_singleton.mp hkv]
        exact Or.inr (Or.inr rfl)
      · rw [List.mem_singleton.mp hkv]
        exact Or.inr (Or.inr rfl)
      · simp at hkv
    · rw [hkv]
      exact Or.inl rfl
  have hnodup := setupFunction_builder_nodup b getStage ovr ps f.callingConv
  have hattrs := attrs_of_mem_zip hmem hne hext
  have hhs : f.callingConv = CallingConv.AMDGPU_HS →
      getAttribute "amdgpu-flat-work-group-size" f1.attrs = some "128,128" := by
    intro h
    refine getAttribute_of_mem_builder hmem hne hext
      ("amdgpu-flat-work-group-size", "128,128") ?_
    rw [setupFunction_builder, h]
    simp
  have hcs : f.callingConv = CallingConv.AMDGPU_CS →
      getAttribute "amdgpu-flat-work-group-size" f1.attrs =
        some (toString (flatWorkGroupSize ps.GetComputeShaderMode) ++ "," ++
          toString (flatWorkGroupSize ps.GetComputeShaderMode)) :=
    fun h => getAttribute_flatWorkGroupSize_cs hmem hne hext h
  have hother : f.callingConv ≠ CallingConv.AMDGPU_HS →
      f.callingConv ≠ CallingConv.AMDGPU_CS →
      getAttribute "amdgpu-flat-work-group-size" f1.attrs =
        getAttribute "amdgpu-flat-work-group-size" f.attrs := by
    intro h1 h2
    rw [hattrs]
    apply getAttribute_addAttributes_of_not_mem
    intro kv hkv
    rw [setupFunction_builder] at hkv
    simp only [h1, h2, if_false, List.append_nil, List.mem_append, List.mem_singleton] at hkv
    rcases hkv with hkv | hkv
    · split_ifs at hkv
      · rw [List.mem_singleton.mp hkv]
        decide
      · simp at hkv
    · rw [hkv]
      show "target-features" ≠ "amdgpu-flat-work-group-size"
      decide
  refine ⟨hattrs, hkeys, hnodup, getAttribute_targetFeatures hmem hne hext, hhs, hcs, hother,
    ?_, ?_, ?_, ?_⟩
  · intro h0
    constructor
    · intro h
      by_contra hcc
      rw [not_or] at hcc
      rw [hother hcc.1 hcc.2] at h
      exact h h0
    · rintro (h | h)
      · rw [hhs h]
        simp
      · rw [hcs h]
        simp
  · intro k hk1 hk2 hk3
    rw [hattrs]
    apply getAttribute_addAttributes_of_not_mem
    intro kv hkv hkk
    rcases hkeys kv hkv with h | h | h
    · exact hk1 (hkk ▸ h)
    · exact hk2 (hkk ▸ h)
    · exact hk3 (hkk ▸ h)
  · intro h0
    rw [hattrs, h0]
    exact addAttributes_nil_left _ hnodup
  · intro h0
    rw [hattrs]
    exact nodup_addAttributes _ _ h0

/-- C28, worked example: an HS entry point that has the attribute `"noinline"` ends up with
that attribute, the feature string and `"128,128"`, although the compute mode of the state
is `(8, 8, 1)`. -/
theorem C28_attribute_kinds_witness :
    (setupFunctionAttributes true exampleStageOf false fullPipelineState
        { entryPoint "hs_main" CallingConv.AMDGPU_HS with attrs := [("noinline", "")] }).attrs =
      [("noinline", ""), ("amdgpu-max-memory-clause", "1"),
        ("amdgpu-flat-work-group-size", "128,128"),
        ("target-features",
          ",+DumpCode,+si-scheduler,+enable-scratch-bounds-checks,+wavefrontsize64,+cumode" ++
            ",+fp64-fp16-denormals,-fp32-denormals")] :=
  (C28_attribute_kinds true exampleStageOf false fullPipelineState
    [{ entryPoint "hs_main" CallingConv.AMDGPU_HS with attrs := [("noinline", "")] }]
    { entryPoint "hs_main" CallingConv.AMDGPU_HS with attrs := [("noinline", "")] }
    (setupFunctionAttributes true exampleStageOf false fullPipelineState
      { entryPoint "hs_main" CallingConv.AMDGPU_HS with attrs := [("noinline", "")] })
    (by simp [SetupTargetFeatures]) rfl rfl).1.trans (by decide)

end Llpc
